import Mathlib

/-!
# Space Invaders clone: embedding of the simulation core of `src/main.cpp`

The game is one C++ translation unit: global input flags and timers, a
`GameEngine` record local to `main`, a per-frame `switch (gameState)` and a key
callback.  This file embeds the state and the per-frame update as pure functions.

Conventions of the embedding

* `size_t` values are `Nat`; every `size_t` operation whose operands come from the
  state is reduced modulo `2^64` (`add64`, `sub64`, `mul64`).
* `int` values (`player.lives`, `playerMoveDirection`) are `Int`.
* `Bullet::bulletSpeed` is a `double` that only ever holds `-2` or `3`; it is an
  `Int` here and `y += bulletSpeed` is exact integer addition, a `Fault` when the
  sum leaves the `size_t` range (the C++ conversion is undefined there).
* Array accesses are checked: an index outside the array is the result
  `Except.error Fault.outOfBounds`.  Reads whose value only feeds the rasteriser
  (`drawSpriteToBuffer`, `drawText`) and the sound engine are not part of the
  state transformer.
* Loops with a bound that the body does not change are `forRange`; the two bullet
  loops, whose bound shrinks while they run, take a fuel argument and report
  `Fault.outOfFuel` if it is exhausted while the loop condition still holds.
* Each clock reading (`high_resolution_clock::now()`) is an `Int` number of
  nanoseconds supplied by the caller.
-/

namespace SpaceInvaders

/-! ## Results and machine arithmetic -/

/-- Ways in which a run of the embedded code stops without a result. -/
inductive Fault where
  | outOfBounds
  | badConversion
  | outOfFuel
deriving DecidableEq, Repr

/-- Result of a fallible computation. -/
abbrev Res (α : Type) := Except Fault α

/-- Modulus of `size_t`. -/
def SIZE : Nat := 2 ^ 64

/-- Addition of `size_t`. -/
def add64 (a b : Nat) : Nat := (a + b) % SIZE

/-- Subtraction of `size_t`: the difference modulo `2^64`, wrapping below zero. -/
def sub64 (a b : Nat) : Nat :=
  if b % SIZE ≤ a % SIZE then a % SIZE - b % SIZE else SIZE - (b % SIZE - a % SIZE)

/-- Multiplication of `size_t`. -/
def mul64 (a b : Nat) : Nat := (a * b) % SIZE

/-- Checked array read `xs[i]`. -/
def idx {α : Type} (xs : List α) (i : Nat) : Res α :=
  match xs[i]? with
  | some a => Except.ok a
  | none => Except.error Fault.outOfBounds

/-- Checked array write `xs[i] = v`. -/
def setIdx {α : Type} (xs : List α) (i : Nat) (v : α) : Res (List α) :=
  if i < xs.length then Except.ok (xs.set i v) else Except.error Fault.outOfBounds

/-- Counted loop `for (k = k0; k < k0 + r; k++) body(k)`. -/
def loopFrom {σ : Type} (body : Nat → σ → Res σ) : Nat → Nat → σ → Res σ
  | 0, _, s => Except.ok s
  | r + 1, k, s =>
    match body k s with
    | Except.ok s1 => loopFrom body r (k + 1) s1
    | Except.error e => Except.error e

/-- Counted loop `for (k = 0; k < n; k++) body(k)`. -/
def forRange {σ : Type} (n : Nat) (body : Nat → σ → Res σ) (s : σ) : Res σ :=
  loopFrom body n 0 s

/-! ## Data model (lines 16-137) -/

def GAME_WIDTH : Nat := 800
def GAME_HEIGHT : Nat := 800
def PLAYER_MAX_HEALTH : Int := 10
def maxBullets : Nat := 128
def maxEnemyBullets : Nat := 128
def maxBulletCooldown : Nat := 10
def blinkDuration : Nat := 20

/-- Clock ticks (nanoseconds) per second, for `duration_cast<seconds>`. -/
def ticksPerSecond : Int := 1000000000

/-- The class `Timer`. -/
structure Timer where
  startTime : Int
  isRunning : Bool
deriving DecidableEq, Repr

/-- The method `Timer::start`, with the clock reading `now`. -/
def Timer.start (_t : Timer) (now : Int) : Timer :=
  { startTime := now, isRunning := true }

/-- The method `Timer::hasElapsed`, with the clock reading `now`. -/
def Timer.hasElapsed (t : Timer) (duration : Int) (now : Int) : Bool :=
  if t.isRunning = false then false
  else decide (duration ≤ Int.tdiv (now - t.startTime) ticksPerSecond)

/-- The method `Timer::reset`. -/
def Timer.reset (t : Timer) : Timer :=
  { t with isRunning := false }

/-- The struct `Sprite`, without its pixel data. -/
structure Sprite where
  w : Nat
  h : Nat
deriving DecidableEq, Repr

/-- The struct `Player`. -/
structure Player where
  x : Nat
  y : Nat
  lives : Int
  isBlinking : Bool
  blinkTimer : Nat
deriving DecidableEq, Repr

/-- The method `Player::onHit`. -/
def Player.onHit (p : Player) : Player :=
  { p with isBlinking := true, blinkTimer := 0 }

/-- The enum `EnemyType`. -/
inductive EnemyType where
  | enemyDead
  | enemyTypeA
  | enemyTypeB
  | enemyTypeC
deriving DecidableEq, Repr

open EnemyType

/-- Numeric value of an enumerator. -/
def EnemyType.toNat : EnemyType → Nat
  | enemyDead => 0
  | enemyTypeA => 1
  | enemyTypeB => 2
  | enemyTypeC => 3

/-- The cast `static_cast<EnemyType>(v)`; the source applies it to 1, 2, 3 only. -/
def EnemyType.fromSize : Nat → EnemyType
  | 1 => enemyTypeA
  | 2 => enemyTypeB
  | 3 => enemyTypeC
  | _ => enemyDead

/-- The struct `Enemy`. -/
structure Enemy where
  x : Nat
  y : Nat
  enemyHealth : Nat
  enemyBulletDamage : Nat
  isBlinking : Bool
  blinkTimer : Nat
  enemyType : EnemyType
deriving DecidableEq, Repr

/-- The method `Enemy::onHit`. -/
def Enemy.onHit (e : Enemy) : Enemy :=
  { e with isBlinking := true, blinkTimer := 0 }

/-- The struct `Bullet`. -/
structure Bullet where
  x : Nat
  y : Nat
  bulletSpeed : Int
  bulletColour : Nat
  enemyType : EnemyType
deriving DecidableEq, Repr

/-- The enum class `GameState`. -/
inductive GameState where
  | titleScreen
  | inGame
  | gameOver
deriving DecidableEq, Repr

/-- The struct `GameEngine`; `enemies` is the heap array, `bullets` and
`enemyBullets` are the two 128-slot arrays. -/
structure GameEngine where
  gameWidth : Nat
  gameHeight : Nat
  numEnemies : Nat
  numBullets : Nat
  numEnemyBullets : Nat
  level : Nat
  enemies : List Enemy
  player : Player
  bullets : List Bullet
  enemyBullets : List Bullet
deriving DecidableEq, Repr

/-- The globals of the translation unit together with the locals of `main` that
the game loop mutates: `deathFrameCounter`, `enemyBulletCooldowns` (parallel to
`game.enemies`) and `animTimeElapsed` (the field `timeElapsed` of the three
`alienAnimations`). -/
structure World where
  game : GameEngine
  gameRunning : Bool
  bulletFired : Bool
  playerMoveDirection : Int
  playerScore : Nat
  bulletCooldown : Nat
  enemyRespawnTimer : Timer
  titleDelayTimer : Timer
  playerDeathTimer : Timer
  gameState : GameState
  deathFrameCounter : List Nat
  enemyBulletCooldowns : List Nat
  animTimeElapsed : List Nat
deriving DecidableEq, Repr

/-! ## Tables and sprites of `main` (lines 228-370, 474-498) -/

def enemyArrWidths : List Nat := [3, 5, 9, 10, 10]
def enemyArrHeights : List Nat := [3, 5, 5, 6, 7]
def enemyHealths : List Nat := [1, 1, 2, 3]
def enemyBulletDamages : List Nat := [1, 1, 2, 3]
def enemyPoints : List Nat := [0, 10, 20, 30]
def playerSpeed : Nat := 5

/-- The function `rgbTo32`; its three shifted bytes do not overlap. -/
def rgbTo32 (r g b : Nat) : Nat := r * 2 ^ 24 + g * 2 ^ 16 + b * 2 ^ 8 + 255

def enemyColours : List Nat := [rgbTo32 255 0 85, rgbTo32 0 255 0, rgbTo32 255 0 255]

/-- Sizes of `enemySprites[0..5]`. -/
def enemySprites : List Sprite :=
  [⟨8, 8⟩, ⟨8, 8⟩, ⟨11, 8⟩, ⟨11, 8⟩, ⟨12, 8⟩, ⟨12, 8⟩]

def enemyDeathSprite : Sprite := ⟨13, 7⟩
def playerSprite : Sprite := ⟨11, 7⟩
def bulletSprite : Sprite := ⟨1, 3⟩
def enemyBulletSprite : Sprite := ⟨1, 3⟩

/-- The field `frameTime` of every entry of `alienAnimations`. -/
def frameTime : Nat := 10

/-- The field `numFrames` of every entry of `alienAnimations`. -/
def numFrames : Nat := 2

/-- The sprite `*alienAnimations[t - 1].animationFrames[timeElapsed / frameTime]`:
entry `k` of `alienAnimations` has the two frames `enemySprites[2k]` and
`enemySprites[2k + 1]`. -/
def currentSprite (animTimeElapsed : List Nat) (t : EnemyType) : Res Sprite :=
  if t.toNat = 0 then Except.error Fault.outOfBounds
  else
    match idx animTimeElapsed (t.toNat - 1) with
    | Except.error e => Except.error e
    | Except.ok timeElapsed =>
      if timeElapsed / frameTime < numFrames then
        idx enemySprites (2 * (t.toNat - 1) + timeElapsed / frameTime)
      else Except.error Fault.outOfBounds

/-- The function `spritesIntersect` (lines 1056-1060), in `size_t` arithmetic. -/
def spritesIntersect (sprite1 : Sprite) (x1 y1 : Nat) (sprite2 : Sprite) (x2 y2 : Nat) : Bool :=
  let intersectX := decide (sub64 x2 (mul64 4 sprite1.w) ≤ x1) && decide (x1 ≤ add64 x2 (mul64 4 sprite2.w))
  let intersectY := decide (sub64 y2 (mul64 4 sprite1.h) ≤ y1) && decide (y1 ≤ add64 y2 (mul64 4 sprite2.h))
  intersectX && intersectY

/-! ## Enemy spawn (lines 510-520 and 686-695) -/

/-- The row-band expression `4 - ((i/2)%3 + 1)`. -/
def spawnType (i : Nat) : Nat := 4 - ((i / 2) % 3 + 1)

/-- An element of `new Enemy[n]`: the default member initialisers give
`isBlinking = false` and `blinkTimer = 0`; the other fields are indeterminate
until the spawn loop assigns them and are zero here. -/
def freshEnemy : Enemy :=
  { x := 0, y := 0, enemyHealth := 0, enemyBulletDamage := 0, isBlinking := false,
    blinkTimer := 0, enemyType := enemyDead }

/-- Body of the spawn loops: the five assignments to
`game.enemies[i*enemyArrWidths[game.level] + j]`. -/
def spawnCell (gameWidth level i j : Nat) (es : List Enemy) : Res (List Enemy) :=
  match idx enemyArrWidths level with
  | Except.error e => Except.error e
  | Except.ok wd =>
    match idx es (add64 (mul64 i wd) j) with
    | Except.error e => Except.error e
    | Except.ok en =>
      match idx enemyHealths (spawnType i), idx enemyBulletDamages (spawnType i) with
      | Except.ok hp, Except.ok dmg =>
        setIdx es (add64 (mul64 i wd) j)
          { en with
            x := add64 (add64 (mul64 64 j) (sub64 gameWidth (mul64 wd 64) / 2)) 8
            y := add64 (mul64 64 i) 100
            enemyType := EnemyType.fromSize (spawnType i)
            enemyHealth := hp
            enemyBulletDamage := dmg }
      | _, _ => Except.error Fault.outOfBounds

/-- The two nested spawn loops over rows `i` and columns `j`. -/
def spawnEnemies (gameWidth level : Nat) (es : List Enemy) : Res (List Enemy) :=
  match idx enemyArrHeights level, idx enemyArrWidths level with
  | Except.ok ht, Except.ok wd =>
    forRange ht (fun i es1 => forRange wd (fun j es2 => spawnCell gameWidth level i j es2) es1) es
  | _, _ => Except.error Fault.outOfBounds

/-! ## Wave controller (lines 654-701) -/

/-- The scan of lines 656-661: number of enemies of type `enemyDead` among
`game.enemies[0 .. numEnemies)`. -/
def countDead (g : GameEngine) : Res Nat :=
  forRange g.numEnemies
    (fun k c => do
      let e ← idx g.enemies k
      pure (if e.enemyType = enemyDead then c + 1 else c)) 0

/-- The branch of lines 669-697: reallocate the three arrays for the current
level, refill the player health, run the spawn loops and reset the timer.  The
fill loop of lines 678-681 is folded into the allocation of the two counter
arrays, and the assignment `deathFrameCounter[...] = 10` of line 693 rewrites the
value that is already there. -/
def respawnWave (w : World) : Res World := do
  let wd ← idx enemyArrWidths w.game.level
  let ht ← idx enemyArrHeights w.game.level
  let n := mul64 wd ht
  let es ← spawnEnemies w.game.gameWidth w.game.level (List.replicate n freshEnemy)
  pure { w with
    game := { w.game with
      numEnemies := n
      enemies := es
      player := { w.game.player with lives := min PLAYER_MAX_HEALTH (w.game.player.lives + 2) } }
    deathFrameCounter := List.replicate n 10
    enemyBulletCooldowns := List.replicate n 0
    enemyRespawnTimer := w.enemyRespawnTimer.reset }

/-- The block of lines 655-701 with the clock reading `now`. -/
def waveController (now : Int) (w : World) : Res World :=
  if w.enemyRespawnTimer.isRunning = false then do
    let enemyDeadCount ← countDead w.game
    let ht ← idx enemyArrHeights w.game.level
    let wd ← idx enemyArrWidths w.game.level
    if enemyDeadCount = mul64 ht wd then
      pure { w with
        enemyRespawnTimer := w.enemyRespawnTimer.start now
        game := { w.game with
          level := if w.game.level < enemyArrHeights.length - 1 then add64 w.game.level 1
                   else w.game.level } }
    else pure w
  else if w.enemyRespawnTimer.hasElapsed 6 now then respawnWave w
  else pure w

/-! ## Cooldowns, blinking, animation clocks, death-hold counters (lines 703-788) -/

/-- Lines 703-713. -/
def updateCooldowns (w : World) : Res World := do
  let cds ← forRange w.game.numEnemies
    (fun i cds => do
      let c ← idx cds i
      if c > 0 then setIdx cds i (c - 1) else pure cds) w.enemyBulletCooldowns
  pure { w with
    bulletCooldown := if w.bulletCooldown > 0 then w.bulletCooldown - 1 else w.bulletCooldown
    enemyBulletCooldowns := cds }

/-- The blink update of lines 725-734 on a non-dead enemy. -/
def blinkEnemy (e : Enemy) : Enemy :=
  if e.enemyType = enemyDead then e
  else if e.isBlinking then
    if blinkDuration ≤ add64 e.blinkTimer 1 then { e with isBlinking := false, blinkTimer := 0 }
    else { e with blinkTimer := add64 e.blinkTimer 1 }
  else e

/-- The state effect of the enemy render loop (lines 715-739).  The loop also
reads `alienAnimations[enemy.enemyType - 1]` before it tests for `enemyDead`; the
value read only selects the frame to draw. -/
def renderEnemies (w : World) : Res World := do
  let es ← forRange w.game.numEnemies
    (fun i es => do
      let d ← idx w.deathFrameCounter i
      if d = 0 then pure es
      else do
        let e ← idx es i
        setIdx es i (blinkEnemy e)) w.game.enemies
  pure { w with game := { w.game with enemies := es } }

/-- The state effect of the player render block (lines 759-770). -/
def blinkPlayer (w : World) : World :=
  if w.game.player.isBlinking then
    { w with game := { w.game with player := { w.game.player with
        blinkTimer := add64 w.game.player.blinkTimer 1
        isBlinking := if blinkDuration ≤ add64 w.game.player.blinkTimer 1 then false
                      else w.game.player.isBlinking } } }
  else w

/-- Lines 772-780: the three animation clocks (every animation has `loop = true`). -/
def advanceAnimations (w : World) : Res World := do
  let ts ← forRange 3
    (fun i ts => do
      let t ← idx ts i
      setIdx ts i (if add64 t 1 = frameTime * numFrames then 0 else add64 t 1)) w.animTimeElapsed
  pure { w with animTimeElapsed := ts }

/-- Lines 782-788. -/
def updateDeathFrames (w : World) : Res World := do
  let dfc ← forRange w.game.numEnemies
    (fun i dfc => do
      let e ← idx w.game.enemies i
      if e.enemyType = enemyDead then do
        let d ← idx dfc i
        if d ≠ 0 then setIdx dfc i (d - 1) else pure dfc
      else pure dfc) w.deathFrameCounter
  pure { w with deathFrameCounter := dfc }

/-! ## Bullet pools (lines 790-861) -/

/-- The update `y += bulletSpeed`: the sum is computed in `double` and converted
back to `size_t`, which is defined only inside the `size_t` range.  The sum is
taken exactly here, which is what the `double` arithmetic gives as long as `y` and
the result are below `2^53`, as they are for every position on the screen; above
that the source rounds to the nearest `double`. -/
def moveY (y : Nat) (bulletSpeed : Int) : Res Nat :=
  if 0 ≤ (y : Int) + bulletSpeed ∧ (y : Int) + bulletSpeed < (SIZE : Int) then
    Except.ok ((y : Int) + bulletSpeed).toNat
  else Except.error Fault.badConversion

/-- The removal `pool[i] = pool[n - 1]; n--` (lines 796-797, 825-826, 841-842,
851-852); `n - 1` is a `size_t` subtraction. -/
def swapRemove (pool : List Bullet) (n i : Nat) : Res (List Bullet × Nat) := do
  let last ← idx pool (sub64 n 1)
  let pool1 ← setIdx pool i last
  pure (pool1, sub64 n 1)

/-- Lines 811-823: the effect of a hit on the enemy and on `playerScore`; `sprite`
is the enemy's current animation frame. -/
def hitEnemy (sprite : Sprite) (e : Enemy) (playerScore : Nat) : Res (Enemy × Nat) :=
  if e.enemyHealth > 0 then
    if e.enemyHealth - 1 = 0 then do
      let pts ← idx enemyPoints e.enemyType.toNat
      pure ({ e with
              enemyHealth := e.enemyHealth - 1
              enemyType := enemyDead
              x := sub64 e.x (sub64 enemyDeathSprite.w sprite.w / 2) },
            add64 playerScore pts)
    else pure (({ e with enemyHealth := e.enemyHealth - 1 }).onHit, playerScore)
  else pure (e, playerScore)

/-- Body of the inner loop of lines 801-829 for bullet slot `i` and enemy `j`.
The `continue` of line 827 continues this inner loop, so the slot `i` is tested
against the following enemies with whatever bullet it then holds. -/
def bulletVsEnemy (i j : Nat) (w : World) : Res World := do
  let enemy ← idx w.game.enemies j
  if enemy.enemyType = enemyDead then pure w
  else do
    let sprite ← currentSprite w.animTimeElapsed enemy.enemyType
    let b ← idx w.game.bullets i
    if spritesIntersect sprite enemy.x enemy.y bulletSprite b.x b.y then do
      let hit ← hitEnemy sprite enemy w.playerScore
      let es ← setIdx w.game.enemies j hit.1
      let pool ← swapRemove w.game.bullets w.game.numBullets i
      pure { w with
        playerScore := hit.2
        game := { w.game with enemies := es, bullets := pool.1, numBullets := pool.2 } }
    else pure w

/-- The player bullet loop of lines 791-831, started at index `i`. -/
def playerBulletLoop : Nat → Nat → World → Res World
  | 0, i, w =>
    if i < w.game.numBullets then Except.error Fault.outOfFuel else Except.ok w
  | fuel + 1, i, w =>
    if i < w.game.numBullets then do
      let b ← idx w.game.bullets i
      let y ← moveY b.y b.bulletSpeed
      let bs ← setIdx w.game.bullets i { b with y := y }
      if w.game.gameHeight ≤ y ∨ y < bulletSprite.h then do
        let pool ← swapRemove bs w.game.numBullets i
        playerBulletLoop fuel i
          { w with game := { w.game with bullets := pool.1, numBullets := pool.2 } }
      else do
        let w2 ← forRange w.game.numEnemies (bulletVsEnemy i)
          { w with game := { w.game with bullets := bs } }
        playerBulletLoop fuel (i + 1) w2
    else Except.ok w

/-- Body of the enemy bullet loop (lines 836-860) for slot `i`; `now` is the clock
reading of `playerDeathTimer.start()`. -/
def enemyBulletStep (now : Int) (i : Nat) (w : World) : Res World := do
  let b ← idx w.game.enemyBullets i
  let y ← moveY b.y b.bulletSpeed
  let bs ← setIdx w.game.enemyBullets i { b with y := y }
  if sub64 w.game.gameWidth (mul64 4 enemyBulletSprite.w) < b.x ∨ y < enemyBulletSprite.h
      ∨ w.game.gameHeight ≤ y then do
    let pool ← swapRemove bs w.game.numEnemyBullets i
    pure { w with game := { w.game with enemyBullets := pool.1, numEnemyBullets := pool.2 } }
  else if spritesIntersect playerSprite w.game.player.x w.game.player.y enemyBulletSprite b.x y then
    if w.playerDeathTimer.isRunning = false then do
      let dmg ← idx enemyBulletDamages b.enemyType.toNat
      let lives := max 0 (w.game.player.lives - (dmg : Int))
      let pool ← swapRemove bs w.game.numEnemyBullets i
      pure { w with
        game := { w.game with
          player := { w.game.player.onHit with lives := lives }
          enemyBullets := pool.1
          numEnemyBullets := pool.2 }
        playerDeathTimer :=
          if lives ≤ 0 then w.playerDeathTimer.start now else w.playerDeathTimer }
    else pure { w with game := { w.game with enemyBullets := bs } }
  else pure { w with game := { w.game with enemyBullets := bs } }

/-- The enemy bullet loop of lines 834-861, started at index `i`. -/
def enemyBulletLoop (now : Int) : Nat → Nat → World → Res World
  | 0, i, w =>
    if i < w.game.numEnemyBullets then Except.error Fault.outOfFuel else Except.ok w
  | fuel + 1, i, w =>
    if i < w.game.numEnemyBullets then do
      let w1 ← enemyBulletStep now i w
      enemyBulletLoop now fuel (i + 1) w1
    else Except.ok w

/-! ## Player movement, firing, enemy fire control (lines 863-920) -/

/-- The cast `(int)x` of a `size_t` (two's complement, 32 bits). -/
def toInt32 (x : Nat) : Int :=
  if x % 2 ^ 32 < 2 ^ 31 then ((x % 2 ^ 32 : Nat) : Int) else ((x % 2 ^ 32 : Nat) : Int) - 2 ^ 32

/-- Lines 863-874.  The product `playerSpeed*playerMoveDirection` is converted to
`size_t`, so the sum is taken modulo `2^64`. -/
def movePlayer (w : World) : World :=
  if w.playerMoveDirection ≠ 0 ∧ w.playerDeathTimer.isRunning = false then
    if sub64 w.game.gameWidth 60 ≤ add64 w.game.player.x (mul64 4 playerSprite.w)
        ∧ w.playerMoveDirection = 1 then
      { w with game := { w.game with player := { w.game.player with
          x := sub64 (sub64 w.game.gameWidth (mul64 4 playerSprite.w)) 60 } } }
    else if toInt32 w.game.player.x ≤ 60 ∧ w.playerMoveDirection = -1 then
      { w with game := { w.game with player := { w.game.player with x := 60 } } }
    else
      { w with game := { w.game with player := { w.game.player with
          x := (((w.game.player.x : Int) + (playerSpeed : Int) * w.playerMoveDirection)
                  % (SIZE : Int)).toNat } } }
  else w

/-- Lines 876-886: the three assignments to `game.bullets[game.numBullets]` leave
the slot's colour and type tag as they were. -/
def firePhase (w : World) : Res World :=
  if w.bulletFired = true ∧ w.game.numBullets < maxBullets then do
    let b ← idx w.game.bullets w.game.numBullets
    let bs ← setIdx w.game.bullets w.game.numBullets
      { b with
        x := add64 w.game.player.x (mul64 2 playerSprite.w)
        y := add64 w.game.player.y (mul64 2 playerSprite.h)
        bulletSpeed := -2 }
    pure { w with game := { w.game with bullets := bs, numBullets := add64 w.game.numBullets 1 } }
  else pure w

/-- The last conjunct of the condition of lines 903-904 for enemy `i`: last row,
or the slot one row further down holds a dead enemy.  The array is read only
when the last-row test fails. -/
def frontClear (g : GameEngine) (i : Nat) : Res Bool := do
  let wd ← idx enemyArrWidths g.level
  let ht ← idx enemyArrHeights g.level
  if mul64 wd (sub64 ht 1) ≤ i ∧ i < mul64 ht wd then pure true
  else do
    let front ← idx g.enemies (add64 i wd)
    pure (decide (front.enemyType = enemyDead))

/-- Lines 906-915: write the new enemy bullet into slot `numEnemyBullets` and
restart the cooldown of enemy `i`. -/
def spawnEnemyBullet (i : Nat) (currEnemy : Enemy) (sprite : Sprite) (w : World) : Res World := do
  let colour ← idx enemyColours (currEnemy.enemyType.toNat - 1)
  let bs ← setIdx w.game.enemyBullets w.game.numEnemyBullets
    { x := add64 currEnemy.x (mul64 2 sprite.w)
      y := add64 currEnemy.y (mul64 4 sprite.h)
      bulletColour := colour
      enemyType := currEnemy.enemyType
      bulletSpeed := 3 }
  let cds ← setIdx w.enemyBulletCooldowns i 20
  pure { w with
    game := { w.game with enemyBullets := bs, numEnemyBullets := add64 w.game.numEnemyBullets 1 }
    enemyBulletCooldowns := cds }

/-- Body of the fire-control loop (lines 890-917) for enemy `i`. -/
def enemyFire (i : Nat) (w : World) : Res World := do
  let currEnemy ← idx w.game.enemies i
  if currEnemy.enemyType = enemyDead then pure w
  else do
    let sprite ← currentSprite w.animTimeElapsed currEnemy.enemyType
    let cd ← idx w.enemyBulletCooldowns i
    if cd = 0 ∧ w.game.player.x ≤ add64 currEnemy.x (mul64 4 sprite.w)
        ∧ currEnemy.x ≤ w.game.player.x then do
      let clear ← frontClear w.game i
      if clear = true then spawnEnemyBullet i currEnemy sprite w else pure w
    else pure w

/-- The fire-control loop of lines 890-917. -/
def enemyFireControl (w : World) : Res World :=
  forRange w.game.numEnemies enemyFire w

/-! ## The frame (lines 602-943) and the key callback (lines 958-1020) -/

/-- The clock readings of one frame: `title` for line 627, `deathCheck` for line
635, `wave` for lines 663 and 669, `hit` for line 857. -/
structure Clock where
  title : Int
  deathCheck : Int
  wave : Int
  hit : Int
deriving DecidableEq, Repr

/-- One pass through `case GameState::inGame` after the death-timer test
(lines 640-920). -/
def inGameTick (clk : Clock) (w : World) : Res World := do
  let w1 ← waveController clk.wave w
  let w2 ← updateCooldowns w1
  let w3 ← renderEnemies w2
  let w4 ← advanceAnimations (blinkPlayer w3)
  let w5 ← updateDeathFrames w4
  let w6 ← playerBulletLoop w5.game.numBullets 0 w5
  let w7 ← enemyBulletLoop clk.hit w6.game.numEnemyBullets 0 w6
  let w8 ← firePhase (movePlayer w7)
  let w9 ← enemyFireControl w8
  pure { w9 with bulletFired := false }

/-- One iteration of the game loop body (the `switch` of lines 605-937). -/
def frame (clk : Clock) (w : World) : Res World :=
  match w.gameState with
  | GameState.titleScreen =>
    if w.titleDelayTimer.hasElapsed 2 clk.title then pure { w with gameState := GameState.inGame }
    else pure w
  | GameState.inGame =>
    if w.playerDeathTimer.hasElapsed 2 clk.deathCheck then
      pure { w with gameState := GameState.gameOver }
    else inGameTick clk w
  | GameState.gameOver => pure w

/-- The keys that `inputCallback` distinguishes. -/
inductive Key where
  | escape
  | enter
  | right
  | left
  | z
  | other
deriving DecidableEq, Repr

/-- The GLFW key actions. -/
inductive Action where
  | press
  | release
  | held
deriving DecidableEq, Repr

/-- The function `inputCallback`; `now` is the clock reading of
`titleDelayTimer.start()`. -/
def inputCallback (key : Key) (action : Action) (now : Int) (w : World) : World :=
  match w.gameState with
  | GameState.titleScreen =>
    match key with
    | Key.escape => if action = Action.press then { w with gameRunning := false } else w
    | Key.enter =>
      if action = Action.press then
        if w.titleDelayTimer.isRunning = false then
          { w with titleDelayTimer := w.titleDelayTimer.start now }
        else w
      else w
    | _ => w
  | GameState.inGame =>
    match key with
    | Key.escape => if action = Action.press then { w with gameRunning := false } else w
    | Key.right =>
      if action = Action.press then { w with playerMoveDirection := w.playerMoveDirection + 1 }
      else if action = Action.release then
        { w with playerMoveDirection := w.playerMoveDirection - 1 }
      else w
    | Key.left =>
      if action = Action.press then { w with playerMoveDirection := w.playerMoveDirection - 1 }
      else if action = Action.release then
        { w with playerMoveDirection := w.playerMoveDirection + 1 }
      else w
    | Key.z =>
      if action = Action.release ∧ w.bulletCooldown = 0 ∧ w.enemyRespawnTimer.isRunning = false then
        { w with bulletFired := true, bulletCooldown := maxBulletCooldown }
      else w
    | _ => w
  | GameState.gameOver =>
    match key with
    | Key.escape => if action = Action.press then { w with gameRunning := false } else w
    | _ => w

/-! ## Initial state (lines 464-520, 600) and reachable states -/

/-- The state on entry to the game loop.  The two bullet arrays are not
initialised by `main`; their contents are the parameters `bullets` and
`enemyBullets`. -/
def initialWorld (bullets enemyBullets : List Bullet) : Res World := do
  let wd ← idx enemyArrWidths 0
  let ht ← idx enemyArrHeights 0
  let es ← spawnEnemies GAME_WIDTH 0 (List.replicate (mul64 wd ht) freshEnemy)
  pure
    { game :=
        { gameWidth := GAME_WIDTH
          gameHeight := GAME_HEIGHT
          numEnemies := mul64 wd ht
          numBullets := 0
          numEnemyBullets := 0
          level := 0
          enemies := es
          player := { x := 400 - 16, y := 600, lives := PLAYER_MAX_HEALTH,
                      isBlinking := false, blinkTimer := 0 }
          bullets := bullets
          enemyBullets := enemyBullets }
      gameRunning := true
      bulletFired := false
      playerMoveDirection := 0
      playerScore := 0
      bulletCooldown := 0
      enemyRespawnTimer := { startTime := 0, isRunning := false }
      titleDelayTimer := { startTime := 0, isRunning := false }
      playerDeathTimer := { startTime := 0, isRunning := false }
      gameState := GameState.titleScreen
      deathFrameCounter := List.replicate (mul64 wd ht) 10
      enemyBulletCooldowns := List.replicate (mul64 wd ht) 0
      animTimeElapsed := [0, 0, 0] }

/-- States the program can be in between two frames: the initial state, closed
under frames that complete and under key events. -/
inductive Reachable : World → Prop where
  | init (bullets enemyBullets : List Bullet) (w : World)
      (hb : bullets.length = maxBullets) (he : enemyBullets.length = maxEnemyBullets)
      (h : initialWorld bullets enemyBullets = Except.ok w) : Reachable w
  | frame (clk : Clock) (w w1 : World) (hw : Reachable w) (hr : w.gameRunning = true)
      (h : frame clk w = Except.ok w1) : Reachable w1
  | key (k : Key) (a : Action) (now : Int) (w : World) (hw : Reachable w) :
      Reachable (inputCallback k a now w)

/-! ## Definitions used in the statements -/

/-- The live part of a pool: its first `n` slots, as a multiset. -/
def live (pool : List Bullet) (n : Nat) : Multiset Bullet := (pool.take n : List Bullet)

/-- Width of the enemy grid of a level (0 outside the table). -/
def waveWidth (level : Nat) : Nat := enemyArrWidths.getD level 0

/-- Height of the enemy grid of a level (0 outside the table). -/
def waveHeight (level : Nat) : Nat := enemyArrHeights.getD level 0

/-- The enemy that the spawn loops leave at row `i`, column `j` of a grid of
width `wd`. -/
def spawned (gameWidth wd i j : Nat) : Enemy :=
  { x := add64 (add64 (mul64 64 j) (sub64 gameWidth (mul64 wd 64) / 2)) 8
    y := add64 (mul64 64 i) 100
    enemyHealth := enemyHealths.getD (spawnType i) 0
    enemyBulletDamage := enemyBulletDamages.getD (spawnType i) 0
    isBlinking := false
    blinkTimer := 0
    enemyType := EnemyType.fromSize (spawnType i) }

/-- Contents of slot `k` once the spawn loops have passed the first `m` slots. -/
def spawnTarget (gameWidth wd m k : Nat) : Enemy :=
  if k < m then spawned gameWidth wd (k / wd) (k % wd) else freshEnemy

/-- Loop invariant of the spawn loops. -/
def SpawnInv (gameWidth wd n m : Nat) (es : List Enemy) : Prop :=
  es.length = n ∧ ∀ k, k < n → es[k]? = some (spawnTarget gameWidth wd m k)

/-- An enemy record is consistent when it is dead exactly if its health is 0. -/
def EnemyOK (e : Enemy) : Prop := e.enemyType = enemyDead ↔ e.enemyHealth = 0

/-- The invariant carried through every frame: lives in range, every enemy
consistent, the player bullet array has its 128 slots and the bullet count does
not exceed them. -/
def CoreInv (g : GameEngine) : Prop :=
  (0 ≤ g.player.lives ∧ g.player.lives ≤ PLAYER_MAX_HEALTH)
    ∧ (∀ e ∈ g.enemies, EnemyOK e)
    ∧ g.bullets.length = maxBullets ∧ g.numBullets ≤ maxBullets

/-- The computation does not stop for lack of fuel. -/
def NoFuel {α : Type} (r : Res α) : Prop := r ≠ Except.error Fault.outOfFuel

/-- The part of the state that describes the enemy grid: level, enemy count,
lengths of the enemy array and of its two parallel arrays, respawn timer. -/
def shape (w : World) : Nat × Nat × Nat × Nat × Nat × Timer :=
  (w.game.level, w.game.numEnemies, w.game.enemies.length, w.deathFrameCounter.length,
    w.enemyBulletCooldowns.length, w.enemyRespawnTimer)

/-- Consistency of the enemy grid: the level is inside the tables, the three
arrays have `numEnemies` slots, and while the respawn timer is not running
`numEnemies` is width × height of the level. -/
def ShapeOK (s : Nat × Nat × Nat × Nat × Nat × Timer) : Prop :=
  s.1 < 5 ∧ s.2.2.1 = s.2.1 ∧ s.2.2.2.1 = s.2.1 ∧ s.2.2.2.2.1 = s.2.1
    ∧ (s.2.2.2.2.2.isRunning = false → s.2.1 = waveWidth s.1 * waveHeight s.1)

/-- The fields that no phase of the in-game tick writes: game state, run flag,
title timer, move direction, game size and the player's vertical position. -/
def fixedPart (w : World) : GameState × Bool × Timer × Int × Nat × Nat × Nat :=
  (w.gameState, w.gameRunning, w.titleDelayTimer, w.playerMoveDirection, w.game.gameWidth,
    w.game.gameHeight, w.game.player.y)

/-- The animation clocks are three counters below `frameTime * numFrames`. -/
def AnimOK (ts : List Nat) : Prop := ts.length = 3 ∧ ∀ t ∈ ts, t < frameTime * numFrames

/-! ## Concrete states used as witnesses and failing inputs -/

/-- Content of a bullet slot that was never written. -/
def junkBullet : Bullet :=
  { x := 0, y := 0, bulletSpeed := 0, bulletColour := 0, enemyType := enemyDead }

/-- A live enemy of the level-0 grid at `(x, y)`. -/
def gridEnemy (x y : Nat) (t : EnemyType) (hp : Nat) : Enemy :=
  { x := x, y := y, enemyHealth := hp, enemyBulletDamage := hp, isBlinking := false,
    blinkTimer := 0, enemyType := t }

/-- The state on entry to the game loop when the unwritten bullet slots hold
`junkBullet`. -/
def startWorld : World :=
  { game :=
      { gameWidth := 800
        gameHeight := 800
        numEnemies := 9
        numBullets := 0
        numEnemyBullets := 0
        level := 0
        enemies :=
          [gridEnemy 312 100 enemyTypeC 3, gridEnemy 376 100 enemyTypeC 3,
           gridEnemy 440 100 enemyTypeC 3, gridEnemy 312 164 enemyTypeC 3,
           gridEnemy 376 164 enemyTypeC 3, gridEnemy 440 164 enemyTypeC 3,
           gridEnemy 312 228 enemyTypeB 2, gridEnemy 376 228 enemyTypeB 2,
           gridEnemy 440 228 enemyTypeB 2]
        player := { x := 384, y := 600, lives := 10, isBlinking := false, blinkTimer := 0 }
        bullets := List.replicate 128 junkBullet
        enemyBullets := List.replicate 128 junkBullet }
    gameRunning := true
    bulletFired := false
    playerMoveDirection := 0
    playerScore := 0
    bulletCooldown := 0
    enemyRespawnTimer := { startTime := 0, isRunning := false }
    titleDelayTimer := { startTime := 0, isRunning := false }
    playerDeathTimer := { startTime := 0, isRunning := false }
    gameState := GameState.titleScreen
    deathFrameCounter := List.replicate 9 10
    enemyBulletCooldowns := List.replicate 9 0
    animTimeElapsed := [0, 0, 0] }

/-- The start state with the game state set to `inGame`. -/
def playWorld : World := { startWorld with gameState := GameState.inGame }

/-- Clock readings of a frame three seconds after program start. -/
def clockAt3s : Clock :=
  { title := 3000000000, deathCheck := 3000000000, wave := 3000000000, hit := 3000000000 }

/-- The start state after Enter was pressed at time 0, one title frame at 3 s, and
the release of Z. -/
def armedWorld : World :=
  { startWorld with
    titleDelayTimer := { startTime := 0, isRunning := true }
    gameState := GameState.inGame
    bulletFired := true
    bulletCooldown := 10 }

/-- The state one in-game frame after `armedWorld`: the player has fired and the
enemy above the player has fired. -/
def tickedWorld : World :=
  { armedWorld with
    game := { armedWorld.game with
      numBullets := 1
      bullets := (List.replicate 128 junkBullet).set 0
        { junkBullet with x := 406, y := 614, bulletSpeed := -2 }
      numEnemyBullets := 1
      enemyBullets := (List.replicate 128 junkBullet).set 0
        { x := 398, y := 260, bulletSpeed := 3, bulletColour := 16711935,
          enemyType := enemyTypeB } }
    bulletFired := false
    bulletCooldown := 9
    enemyBulletCooldowns := [0, 0, 0, 0, 0, 0, 0, 20, 0]
    animTimeElapsed := [1, 1, 1] }

/-- An in-game state whose nine enemies are all dead; the respawn timer has not
been started and the player has 9 lives. -/
def clearedWorld : World :=
  { playWorld with
    game := { playWorld.game with
      enemies := playWorld.game.enemies.map
        (fun e => { e with enemyHealth := 0, enemyType := enemyDead })
      player := { playWorld.game.player with lives := 9 } }
    deathFrameCounter := List.replicate 9 0 }

/-- The state `clearedWorld` after the wave controller has started the respawn
timer at 3 s and advanced the level. -/
def waitingWorld : World :=
  { clearedWorld with
    game := { clearedWorld.game with level := 1 }
    enemyRespawnTimer := { startTime := 3000000000, isRunning := true } }

/-- A pool of three enemy bullets in a five-slot array. -/
def smallPool : List Bullet :=
  [{ x := 10, y := 100, bulletSpeed := 3, bulletColour := 1, enemyType := enemyTypeA },
   { x := 20, y := 200, bulletSpeed := 3, bulletColour := 2, enemyType := enemyTypeB },
   { x := 30, y := 300, bulletSpeed := 3, bulletColour := 3, enemyType := enemyTypeC },
   junkBullet, junkBullet]

/-- An in-game state with one player bullet overlapping the enemy of row 2,
column 0 (type B, health 2). -/
def shotWorld : World :=
  { playWorld with
    game := { playWorld.game with
      numBullets := 1
      bullets := (List.replicate 128 junkBullet).set 0
        { junkBullet with x := 320, y := 240, bulletSpeed := -2 } } }

/-- An in-game state with one lives left and one type-B enemy bullet that reaches
the player with its next move. -/
def lastLifeWorld : World :=
  { playWorld with
    game := { playWorld.game with
      player := { playWorld.game.player with lives := 1 }
      numEnemyBullets := 1
      enemyBullets := (List.replicate 128 junkBullet).set 0
        { x := 398, y := 597, bulletSpeed := 3, bulletColour := 16711935,
          enemyType := enemyTypeB } } }

/-- An in-game state whose player bullet array is full, with the fire latch set. -/
def fullMagazineWorld : World :=
  { playWorld with
    bulletFired := true
    game := { playWorld.game with
      numBullets := 128
      bullets := List.replicate 128 { junkBullet with x := 406, y := 400, bulletSpeed := -2 } } }

/-- An in-game state whose enemy bullet array holds 128 live bullets while the
player stands below the type-B enemy of row 2, column 1, which is ready to fire. -/
def fullEnemyPoolWorld : World :=
  { playWorld with
    game := { playWorld.game with
      numEnemyBullets := 128
      enemyBullets := List.replicate 128
        { x := 398, y := 300, bulletSpeed := 3, bulletColour := 16711935,
          enemyType := enemyTypeB } } }

/-- An in-game state of level 0 in which the enemy of row 1, column 0 has been
killed while those of rows 0 and 2 of that column are alive, with the player at
x = 335 below that column. -/
def gapColumnWorld : World :=
  { playWorld with
    game := { playWorld.game with
      enemies := playWorld.game.enemies.set 3
        { gridEnemy 312 164 enemyDead 0 with enemyBulletDamage := 3 }
      player := { playWorld.game.player with x := 335 } }
    deathFrameCounter := [10, 10, 10, 0, 10, 10, 10, 10, 10] }

/-- The state that the fire-control loop produces from `gapColumnWorld`: the
enemies of rows 0 and 2 of column 0 have both fired. -/
def gapColumnFired : World :=
  { gapColumnWorld with
    game := { gapColumnWorld.game with
      numEnemyBullets := 2
      enemyBullets := ((List.replicate 128 junkBullet).set 0
        { x := 336, y := 132, bulletSpeed := 3, bulletColour := 4278255615,
          enemyType := enemyTypeC }).set 1
        { x := 334, y := 260, bulletSpeed := 3, bulletColour := 16711935,
          enemyType := enemyTypeB } }
    enemyBulletCooldowns := [20, 0, 0, 0, 0, 0, 20, 0, 0] }

/-! ## Definitions used in the statements about movement, levels and collisions -/

/-- The player's horizontal position. -/
def playerX (w : World) : Nat := w.game.player.x

/-- Which of the two arrow keys are down. -/
structure Held where
  left : Bool
  right : Bool
deriving DecidableEq, Repr

/-- The effect of an arrow-key event on the keys that are down: the press of a key
that is up, the release of a key that is down, or the repeat of a key that is down.
Every other event does not belong to a sequence that alternates press and release
per key. -/
def Held.step (h : Held) (k : Key) (a : Action) : Option Held :=
  match k, a with
  | Key.left, Action.press => if h.left = false then some { h with left := true } else none
  | Key.left, Action.release => if h.left = true then some { h with left := false } else none
  | Key.left, Action.held => if h.left = true then some h else none
  | Key.right, Action.press => if h.right = false then some { h with right := true } else none
  | Key.right, Action.release => if h.right = true then some { h with right := false } else none
  | Key.right, Action.held => if h.right = true then some h else none
  | _, _ => none

/-- The value `(Right held ? 1 : 0) - (Left held ? 1 : 0)`. -/
def heldDirection (h : Held) : Int :=
  (if h.right = true then 1 else 0) - (if h.left = true then 1 else 0)

/-- What happens between two observations of the in-game state: an arrow-key
event delivered to `inputCallback`, or a completed pass through
`case GameState::inGame`. -/
inductive ArrowInput where
  | key (k : Key) (a : Action) (now : Int)
  | tick (clk : Clock)
deriving Repr

/-- Run a sequence of arrow-key events and in-game ticks, tracking the keys that
are down; `none` when the key events do not alternate or a tick does not complete. -/
def arrowRun : List ArrowInput → Held → World → Option (Held × World)
  | [], h, w => some (h, w)
  | ArrowInput.key k a now :: rest, h, w =>
    match h.step k a with
    | some h1 => arrowRun rest h1 (inputCallback k a now w)
    | none => none
  | ArrowInput.tick clk :: rest, h, w =>
    match inGameTick clk w with
    | Except.ok w1 => arrowRun rest h w1
    | Except.error _ => none

/-- The in-game start state after Left and then Right were pressed. -/
def bothHeldWorld : World :=
  inputCallback Key.right Action.press 0 (inputCallback Key.left Action.press 0 playWorld)

/-- The in-game start state with Left held down: the player at the spawn position
x = 384, move direction -1. -/
def leftHeldWorld : World := { playWorld with playerMoveDirection := -1 }

/-- The in-game start state with Right held down: move direction +1. -/
def rightHeldWorld : World := { playWorld with playerMoveDirection := 1 }

/-- The state `leftHeldWorld` after the player has walked 64 ticks to the left:
x = 384 - 64 * 5 = 64. -/
def leftEdgeWorld : World :=
  { leftHeldWorld with
    game := { leftHeldWorld.game with player := { leftHeldWorld.game.player with x := 64 } } }

/-- The state `rightHeldWorld` after the player has walked 62 ticks to the right:
x = 384 + 62 * 5 = 694. -/
def rightEdgeWorld : World :=
  { rightHeldWorld with
    game := { rightHeldWorld.game with player := { rightHeldWorld.game.player with x := 694 } } }

/-- A state of the game-over screen. -/
def overWorld : World := { lastLifeWorld with gameState := GameState.gameOver }

/-- The state of play in which the level-0 wave has just been shot down: the last
of the nine enemies died in the frame before, all 24 player bullets are spent (the
slots keep their last contents), three enemy bullets have left the screen, the
player stands at x = 434 with 10 lives and 240 points, and the respawn timer has
not been started yet. -/
def shotDownWorld : World :=
  { game :=
      { gameWidth := 800
        gameHeight := 800
        numEnemies := 9
        numBullets := 0
        numEnemyBullets := 0
        level := 0
        enemies :=
          [⟨312, 100, 0, 3, true, 11, enemyDead⟩, ⟨376, 100, 0, 3, true, 11, enemyDead⟩,
           ⟨440, 100, 0, 3, true, 12, enemyDead⟩, ⟨312, 164, 0, 3, true, 12, enemyDead⟩,
           ⟨376, 164, 0, 3, true, 11, enemyDead⟩, ⟨440, 164, 0, 3, true, 12, enemyDead⟩,
           ⟨311, 228, 0, 2, true, 11, enemyDead⟩, ⟨375, 228, 0, 2, true, 11, enemyDead⟩,
           ⟨439, 228, 0, 2, true, 11, enemyDead⟩]
        player := ⟨434, 600, 10, false, 0⟩
        bullets :=
          [⟨456, 132, -2, 0, enemyDead⟩, ⟨456, 156, -2, 0, enemyDead⟩, ⟨456, 132, -2, 0, enemyDead⟩,
           ⟨456, 264, -2, 0, enemyDead⟩, ⟨456, 196, -2, 0, enemyDead⟩, ⟨456, 308, -2, 0, enemyDead⟩,
           ⟨456, 296, -2, 0, enemyDead⟩, ⟨456, 364, -2, 0, enemyDead⟩, ⟨456, 350, -2, 0, enemyDead⟩,
           ⟨456, 382, -2, 0, enemyDead⟩, ⟨326, 144, -2, 0, enemyDead⟩, ⟨326, 196, -2, 0, enemyDead⟩,
           ⟨326, 220, -2, 0, enemyDead⟩, ⟨326, 264, -2, 0, enemyDead⟩, ⟨456, 410, -2, 0, enemyDead⟩,
           ⟨456, 520, -2, 0, enemyDead⟩, ⟨456, 608, -2, 0, enemyDead⟩]
            ++ List.replicate 111 junkBullet
        enemyBullets :=
          [⟨400, 802, 3, 4278255615, enemyTypeC⟩, ⟨334, 800, 3, 16711935, enemyTypeB⟩,
           ⟨400, 397, 3, 4278255615, enemyTypeC⟩] ++ List.replicate 125 junkBullet }
    gameRunning := true
    bulletFired := false
    playerMoveDirection := 0
    playerScore := 240
    bulletCooldown := 0
    enemyRespawnTimer := ⟨0, false⟩
    titleDelayTimer := ⟨0, true⟩
    playerDeathTimer := ⟨0, false⟩
    gameState := GameState.inGame
    deathFrameCounter := [0, 0, 10, 0, 0, 0, 0, 0, 0]
    enemyBulletCooldowns := [0, 0, 0, 0, 0, 0, 0, 0, 0]
    animTimeElapsed := [1, 1, 1] }

/-- Game state, respawn timer flag, level and enemy count of a state. -/
def waveSummary (w : World) : GameState × Bool × Nat × Nat :=
  (w.gameState, w.enemyRespawnTimer.isRunning, w.game.level, w.game.numEnemies)

/-- The enemy count during the respawn delay: while the respawn timer is running,
`numEnemies` is still width × height of the level `l0` of the wave that was cleared,
and the level is already `min (l0 + 1) 4`. -/
def DelayOK (s : Nat × Nat × Nat × Nat × Nat × Timer) : Prop :=
  s.2.2.2.2.2.isRunning = true →
    ∃ l0, l0 < 5 ∧ s.1 = min (l0 + 1) 4 ∧ s.2.1 = waveWidth l0 * waveHeight l0

/-- The vertical positions of the live enemy bullets, in pool order. -/
def enemyPoolYs (w : World) : List Nat :=
  (w.game.enemyBullets.take w.game.numEnemyBullets).map (fun b => b.y)

/-- The vertical positions of the live player bullets, in pool order. -/
def playerPoolYs (w : World) : List Nat :=
  (w.game.bullets.take w.game.numBullets).map (fun b => b.y)

/-- An in-game state with the player at x = 369 (under no enemy column) and two
live enemy bullets: slot 0 at y = 798, which leaves the screen with its next move,
and slot 1 at y = 300. -/
def twoEnemyBullets : World :=
  { playWorld with
    game := { playWorld.game with
      player := { playWorld.game.player with x := 369 }
      numEnemyBullets := 2
      enemyBullets :=
        [⟨398, 798, 3, 16711935, enemyTypeB⟩, ⟨200, 300, 3, 16711935, enemyTypeB⟩]
          ++ List.replicate 126 junkBullet } }

/-- An in-game state with the player at x = 369 and two live player bullets: slot 0
overlaps the enemy of row 2, column 0 after its move, slot 1 is at y = 500 far from
every enemy. -/
def twoPlayerBullets : World :=
  { playWorld with
    game := { playWorld.game with
      player := { playWorld.game.player with x := 369 }
      numBullets := 2
      bullets :=
        [⟨320, 240, -2, 0, enemyDead⟩, ⟨100, 500, -2, 0, enemyDead⟩]
          ++ List.replicate 126 junkBullet } }

/-- The in-game start state after Left was pressed and one tick has passed: the
player has moved to x = 379 and the enemy above the player has fired. -/
def steppedLeftWorld : World :=
  { playWorld with
    game := { playWorld.game with
      player := { playWorld.game.player with x := 379 }
      numEnemyBullets := 1
      enemyBullets := (List.replicate 128 junkBullet).set 0
        { x := 398, y := 260, bulletSpeed := 3, bulletColour := 16711935,
          enemyType := enemyTypeB } }
    playerMoveDirection := -1
    enemyBulletCooldowns := [0, 0, 0, 0, 0, 0, 0, 20, 0]
    animTimeElapsed := [1, 1, 1] }

/-! ## The lookups in the animation table and the slot in front of an enemy -/

/-- The index expression `enemy.enemyType - 1` of the lookups
`alienAnimations[enemy.enemyType - 1]`: the `uint8_t` enumerator is promoted to
`int` before the subtraction. -/
def animIndex (t : EnemyType) : Int := (t.toNat : Int) - 1

/-- The read `alienAnimations[k].timeElapsed / alienAnimations[k].frameTime` of
line 720 as a checked read; the table has the three entries whose clocks are
`animTimeElapsed`. -/
def frameNumber (animTimeElapsed : List Nat) (k : Int) : Res Nat :=
  if 0 ≤ k then
    match idx animTimeElapsed k.toNat with
    | Except.ok timeElapsed => Except.ok (timeElapsed / frameTime)
    | Except.error e => Except.error e
  else Except.error Fault.outOfBounds

/-- The enemy render loop (lines 715-739) with the read of line 720 as a checked
read: the frame number is computed for every slot whose death-hold counter is not
0, before the test for `enemyDead`. -/
def renderEnemiesChecked (w : World) : Res World := do
  let es ← forRange w.game.numEnemies
    (fun i es => do
      let d ← idx w.deathFrameCounter i
      if d = 0 then pure es
      else do
        let e ← idx es i
        let _ ← frameNumber w.animTimeElapsed (animIndex e.enemyType)
        setIdx es i (blinkEnemy e)) w.game.enemies
  pure { w with game := { w.game with enemies := es } }

/-- One pass through `case GameState::inGame` (lines 640-920) in which the read of
line 720 is a checked read. -/
def inGameTickChecked (clk : Clock) (w : World) : Res World := do
  let w1 ← waveController clk.wave w
  let w2 ← updateCooldowns w1
  let w3 ← renderEnemiesChecked w2
  let w4 ← advanceAnimations (blinkPlayer w3)
  let w5 ← updateDeathFrames w4
  let w6 ← playerBulletLoop w5.game.numBullets 0 w5
  let w7 ← enemyBulletLoop clk.hit w6.game.numEnemyBullets 0 w6
  let w8 ← firePhase (movePlayer w7)
  let w9 ← enemyFireControl w8
  pure { w9 with bulletFired := false }

/-- Type of every enemy and the death-hold counters, in array order. -/
def dyingSummary (w : World) : List EnemyType × List Nat :=
  (w.game.enemies.map (fun e => e.enemyType), w.deathFrameCounter)

/-- An in-game state with the player at x = 369 (under no enemy column), the enemy
of row 2, column 0 (type B) down to health 1, and one player bullet that overlaps
this enemy after its next move. -/
def lastHitWorld : World :=
  { playWorld with
    game := { playWorld.game with
      enemies := playWorld.game.enemies.set 6
        { gridEnemy 312 228 enemyTypeB 1 with enemyBulletDamage := 2 }
      player := { playWorld.game.player with x := 369 }
      numBullets := 1
      bullets := [⟨320, 240, -2, 0, enemyDead⟩] ++ List.replicate 127 junkBullet } }

/-- The enemy array of a state. -/
def enemiesOf (w : World) : List Enemy := w.game.enemies

/-- Every enemy of the array is dead. -/
def AllDead (es : List Enemy) : Prop := ∀ e ∈ es, e.enemyType = enemyDead

/-- While the respawn timer is running, every enemy is dead. -/
def DelayDead (w : World) : Prop :=
  w.enemyRespawnTimer.isRunning = true → AllDead w.game.enemies

/-- The first disjunct of the condition of lines 903-904: slot `i` lies in the last
row of the grid of the level. -/
def lastRow (level i : Nat) : Prop :=
  mul64 (waveWidth level) (sub64 (waveHeight level) 1) ≤ i
    ∧ i < mul64 (waveHeight level) (waveWidth level)

/-- The phases of `inGameTick` that precede the fire-control loop (lines 654-886). -/
def beforeFireControl (clk : Clock) (w : World) : Res World := do
  let w1 ← waveController clk.wave w
  let w2 ← updateCooldowns w1
  let w3 ← renderEnemies w2
  let w4 ← advanceAnimations (blinkPlayer w3)
  let w5 ← updateDeathFrames w4
  let w6 ← playerBulletLoop w5.game.numBullets 0 w5
  let w7 ← enemyBulletLoop clk.hit w6.game.numEnemyBullets 0 w6
  firePhase (movePlayer w7)

/-- The state `armedWorld` at the start of the fire-control loop of its next tick:
the player has fired, no enemy has fired yet. -/
def muzzleWorld : World :=
  { armedWorld with
    game := { armedWorld.game with
      numBullets := 1
      bullets := (List.replicate 128 junkBullet).set 0
        { junkBullet with x := 406, y := 614, bulletSpeed := -2 } }
    bulletCooldown := 9
    animTimeElapsed := [1, 1, 1] }

/-! ## Definitions for runs with arbitrary key events, and further states -/

/-- Run a sequence of key events (any key, any action) and in-game ticks in which
every tick starts with a move direction in {-1, 0, 1}; `none` when a tick starts
with another direction or does not complete. -/
def boundedRun : List ArrowInput → World → Option World
  | [], w => some w
  | ArrowInput.key k a now :: rest, w => boundedRun rest (inputCallback k a now w)
  | ArrowInput.tick clk :: rest, w =>
    if -1 ≤ w.playerMoveDirection ∧ w.playerMoveDirection ≤ 1 then
      match inGameTick clk w with
      | Except.ok w1 => boundedRun rest w1
      | Except.error _ => none
    else none

/-- Lives, blink flag and the live enemy bullets (position and type tag) of a
state. -/
def hitSummary (w : World) : Int × Bool × List (Nat × Nat × EnemyType) :=
  (w.game.player.lives, w.game.player.isBlinking,
    (w.game.enemyBullets.take w.game.numEnemyBullets).map
      (fun b => (b.x, b.y, b.enemyType)))

/-- An in-game state with the player at x = 369 (under no enemy column), 10 lives,
the death timer not running, and two live enemy bullets of type B: slot 0 at
(398, 797) leaves the screen with its next move, slot 1 at (398, 596) overlaps
the player. -/
def skippedHitWorld : World :=
  { playWorld with
    game := { playWorld.game with
      player := { playWorld.game.player with x := 369 }
      numEnemyBullets := 2
      enemyBullets :=
        [⟨398, 797, 3, 16711935, enemyTypeB⟩, ⟨398, 596, 3, 16711935, enemyTypeB⟩]
          ++ List.replicate 126 junkBullet } }

/-- The state `skippedHitWorld` without the bullet of slot 0: the bullet at
(398, 596) is the only live enemy bullet. -/
def plainHitWorld : World :=
  { playWorld with
    game := { playWorld.game with
      player := { playWorld.game.player with x := 369 }
      numEnemyBullets := 1
      enemyBullets := [⟨398, 596, 3, 16711935, enemyTypeB⟩] ++ List.replicate 127 junkBullet } }

/-- The in-game start state after Z was released, Left was pressed and one tick
has passed: the player has moved to x = 379 and fired, and the enemy above the
player has fired. -/
def firedLeftWorld : World :=
  { steppedLeftWorld with
    game := { steppedLeftWorld.game with
      numBullets := 1
      bullets := (List.replicate 128 junkBullet).set 0
        { junkBullet with x := 401, y := 614, bulletSpeed := -2 } }
    bulletCooldown := 9 }

/-- No bullet position is overlapped by two live enemies at once: for every
position (x, y), the collision test of lines 807-810 succeeds for at most one
non-dead enemy of the array. -/
def HitBoxesDisjoint (es : List Enemy) (anim : List Nat) : Prop :=
  ∀ (x y j k : Nat) (ej ek : Enemy) (sj sk : Sprite), j ≠ k →
    es[j]? = some ej → es[k]? = some ek →
    ej.enemyType ≠ enemyDead → ek.enemyType ≠ enemyDead →
    currentSprite anim ej.enemyType = Except.ok sj →
    currentSprite anim ek.enemyType = Except.ok sk →
    ¬ (spritesIntersect sj ej.x ej.y bulletSprite x y = true
        ∧ spritesIntersect sk ek.x ek.y bulletSprite x y = true)

/-- Two enemies on the screen that are dead or stand more than a hit box apart:
more than 52 pixels horizontally or more than 44 pixels vertically. -/
def apart (a b : Enemy) : Prop :=
  a.enemyType = enemyDead ∨ b.enemyType = enemyDead
    ∨ ((a.x + 52 < b.x ∨ b.x + 52 < a.x ∨ a.y + 44 < b.y ∨ b.y + 44 < a.y)
        ∧ a.x < 2 ^ 32 ∧ a.y < 2 ^ 32 ∧ b.x < 2 ^ 32 ∧ b.y < 2 ^ 32)

instance (a b : Enemy) : Decidable (apart a b) := by
  unfold apart
  exact inferInstance

/-- Every two enemies of the array are `apart`. -/
def GridSeparated (es : List Enemy) : Prop := List.Pairwise apart es

/-- The phases of `inGameTick` that precede the player bullet loop (lines 654-788). -/
def beforePlayerBullets (clk : Clock) (w : World) : Res World := do
  let w1 ← waveController clk.wave w
  let w2 ← updateCooldowns w1
  let w3 ← renderEnemies w2
  let w4 ← advanceAnimations (blinkPlayer w3)
  updateDeathFrames w4

/-! ## Basic facts about results and loops -/

theorem bind_eq_ok {α β : Type} (x : Res α) (f : α → Res β) (b : β) :
    (x >>= f) = Except.ok b ↔ ∃ a, x = Except.ok a ∧ f a = Except.ok b := by
  cases x with
  | error e => simp [bind, Except.bind]
  | ok a => simp [bind, Except.bind]

theorem idx_eq_ok {α : Type} (xs : List α) (i : Nat) (a : α) :
    idx xs i = Except.ok a ↔ xs[i]? = some a := by
  unfold idx
  cases h : xs[i]? <;> simp

theorem idx_of_lt {α : Type} (xs : List α) (i : Nat) (h : i < xs.length) :
    idx xs i = Except.ok xs[i] := by
  rw [idx_eq_ok]; exact List.getElem?_eq_getElem h

theorem setIdx_eq_ok {α : Type} (xs ys : List α) (i : Nat) (v : α) :
    setIdx xs i v = Except.ok ys ↔ i < xs.length ∧ ys = xs.set i v := by
  unfold setIdx
  split <;> simp_all [eq_comm]

/-- A property kept by every completed run of the body is kept by the loop. -/
theorem loopFrom_preserves {σ : Type} (P : σ → Prop) (body : Nat → σ → Res σ)
    (hb : ∀ k s s1, P s → body k s = Except.ok s1 → P s1) :
    ∀ r k s s1, P s → loopFrom body r k s = Except.ok s1 → P s1 := by
  intro r
  induction r with
  | zero => intro k s s1 hs h; simp [loopFrom] at h; subst h; exact hs
  | succ r ih =>
    intro k s s1 hs h
    simp only [loopFrom] at h
    cases hk : body k s with
    | error e => rw [hk] at h; simp at h
    | ok s2 => rw [hk] at h; exact ih (k + 1) s2 s1 (hb k s s2 hs hk) h

theorem forRange_preserves {σ : Type} (P : σ → Prop) (body : Nat → σ → Res σ) (n : Nat)
    (hb : ∀ k s s1, P s → body k s = Except.ok s1 → P s1) (s s1 : σ) (hs : P s)
    (h : forRange n body s = Except.ok s1) : P s1 :=
  loopFrom_preserves P body hb n 0 s s1 hs h

/-- Total correctness of a counted loop from an invariant indexed by the loop
counter. -/
theorem loopFrom_invariant {σ : Type} (P : Nat → σ → Prop) (body : Nat → σ → Res σ) (n : Nat)
    (hb : ∀ k s, k < n → P k s → ∃ s1, body k s = Except.ok s1 ∧ P (k + 1) s1) :
    ∀ r k s, k + r = n → P k s → ∃ s1, loopFrom body r k s = Except.ok s1 ∧ P n s1 := by
  intro r
  induction r with
  | zero => intro k s hk hs; simp at hk; subst hk; exact ⟨s, rfl, hs⟩
  | succ r ih =>
    intro k s hk hs
    obtain ⟨s2, h2, hp⟩ := hb k s (by omega) hs
    obtain ⟨s1, h1, hp1⟩ := ih (k + 1) s2 (by omega) hp
    exact ⟨s1, by simp only [loopFrom, h2]; exact h1, hp1⟩

theorem forRange_invariant {σ : Type} (P : Nat → σ → Prop) (body : Nat → σ → Res σ) (n : Nat)
    (hb : ∀ k s, k < n → P k s → ∃ s1, body k s = Except.ok s1 ∧ P (k + 1) s1)
    (s : σ) (hs : P 0 s) : ∃ s1, forRange n body s = Except.ok s1 ∧ P n s1 :=
  loopFrom_invariant P body n hb n 0 s (by omega) hs

/-! ## Swap-remove -/

theorem take_set_last_perm {α : Type} [DecidableEq α] :
    ∀ (xs : List α) (n i : Nat) (hn : n < xs.length) (hi : i ≤ n),
      (((xs.set i xs[n]).take n : List α) : Multiset α)
        = ((xs.take (n + 1) : List α) : Multiset α).erase xs[i] := by
  intro xs
  induction xs with
  | nil => intro n i hn; simp at hn
  | cons x xs ih =>
    intro n i hn hi
    cases i with
    | zero =>
      cases n with
      | zero => simp
      | succ m =>
        have hm : m < xs.length := by simpa using hn
        simp only [List.set_cons_zero, List.take_succ_cons, List.getElem_cons_zero,
          List.getElem_cons_succ]
        rw [← Multiset.cons_coe, ← Multiset.cons_coe, Multiset.erase_cons_head]
        rw [List.take_succ, List.getElem?_eq_getElem hm, Multiset.cons_coe, Multiset.coe_eq_coe]
        exact (List.perm_append_singleton _ _).symm
    | succ j =>
      cases n with
      | zero => omega
      | succ m =>
        have hm : m < xs.length := by simpa using hn
        have hj : j ≤ m := by omega
        have h1 := ih m j hm hj
        simp only [List.set_cons_succ, List.take_succ_cons, List.getElem_cons_succ]
        rw [← Multiset.cons_coe, ← Multiset.cons_coe, h1]
        by_cases hx : x = xs[j]
        · rw [hx, Multiset.erase_cons_head]
          apply Multiset.cons_erase
          rw [Multiset.mem_coe]
          exact List.mem_take_iff_getElem.mpr ⟨j, by simp; omega, rfl⟩
        · rw [Multiset.erase_cons_tail _ hx]

theorem swapRemove_erase (pool : List Bullet) (n i : Nat) (hn : n ≤ pool.length)
    (hsz : n < SIZE) (hi : i < n) :
    ∃ pool1, swapRemove pool n i = Except.ok (pool1, n - 1) ∧ pool1.length = pool.length ∧
      live pool1 (n - 1) = (live pool n).erase pool[i] := by
  have h1 : sub64 n 1 = n - 1 := by
    unfold sub64 SIZE at *
    split <;> omega
  have hlt : n - 1 < pool.length := by omega
  refine ⟨pool.set i pool[n - 1], ?_, by simp, ?_⟩
  · simp only [swapRemove, h1, idx_of_lt pool (n - 1) hlt, bind, Except.bind, setIdx]
    rw [if_pos (by omega)]
    rfl
  · unfold live
    have h2 := take_set_last_perm pool (n - 1) i hlt (by omega)
    have h3 : n - 1 + 1 = n := by omega
    rw [h3] at h2
    exact h2

/-! ## Spawn loops -/

theorem spawnType_range (i : Nat) : 1 ≤ spawnType i ∧ spawnType i ≤ 3 := by
  unfold spawnType; omega

theorem idx_widths (level : Nat) (h : level < 5) :
    idx enemyArrWidths level = Except.ok (waveWidth level) := by
  interval_cases level <;> rfl

theorem idx_heights (level : Nat) (h : level < 5) :
    idx enemyArrHeights level = Except.ok (waveHeight level) := by
  interval_cases level <;> rfl

theorem waveWidth_le (level : Nat) : waveWidth level ≤ 10 := by
  by_cases h : level < 5
  · interval_cases level <;> decide
  · simp [waveWidth, enemyArrWidths, List.getD]
    rw [List.getElem?_eq_none (by simp; omega)]; simp

theorem idx_getD_healths (i : Nat) :
    idx enemyHealths (spawnType i) = Except.ok (enemyHealths.getD (spawnType i) 0) := by
  obtain ⟨h1, h2⟩ := spawnType_range i
  generalize spawnType i = t at h1 h2
  interval_cases t <;> rfl

theorem idx_getD_damages (i : Nat) :
    idx enemyBulletDamages (spawnType i)
      = Except.ok (enemyBulletDamages.getD (spawnType i) 0) := by
  obtain ⟨h1, h2⟩ := spawnType_range i
  generalize spawnType i = t at h1 h2
  interval_cases t <;> rfl

theorem spawnCell_fresh (gameWidth level i j : Nat) (es : List Enemy) (hl : level < 5)
    (hk : i * waveWidth level + j < es.length) (hsz : i * waveWidth level + j < SIZE)
    (hf : es[i * waveWidth level + j]? = some freshEnemy) :
    spawnCell gameWidth level i j es
      = Except.ok (es.set (i * waveWidth level + j) (spawned gameWidth (waveWidth level) i j)) := by
  have hidx : add64 (mul64 i (waveWidth level)) j = i * waveWidth level + j := by
    unfold add64 mul64
    have : i * waveWidth level < SIZE := by omega
    rw [Nat.mod_eq_of_lt this, Nat.mod_eq_of_lt hsz]
  unfold spawnCell
  simp only [idx_widths level hl, hidx, (idx_eq_ok _ _ _).mpr hf, idx_getD_healths,
    idx_getD_damages, setIdx, if_pos hk]
  rfl

theorem spawnRow_ok (gameWidth level ht i : Nat) (es : List Enemy) (hl : level < 5)
    (hi : i < ht) (hht : ht ≤ 10)
    (hP : SpawnInv gameWidth (waveWidth level) (waveWidth level * ht) (i * waveWidth level) es) :
    ∃ es1, forRange (waveWidth level) (fun j es2 => spawnCell gameWidth level i j es2) es
        = Except.ok es1
      ∧ SpawnInv gameWidth (waveWidth level) (waveWidth level * ht)
          ((i + 1) * waveWidth level) es1 := by
  have hw := waveWidth_le level
  have hmul : (i + 1) * waveWidth level ≤ waveWidth level * ht := by
    rw [Nat.mul_comm (waveWidth level) ht]
    exact Nat.mul_le_mul_right _ hi
  have hbound : waveWidth level * ht ≤ 100 := by
    calc waveWidth level * ht ≤ 10 * 10 := Nat.mul_le_mul hw hht
      _ = 100 := rfl
  have key := forRange_invariant
    (fun j es2 => SpawnInv gameWidth (waveWidth level) (waveWidth level * ht)
      (i * waveWidth level + j) es2)
    (fun j es2 => spawnCell gameWidth level i j es2) (waveWidth level)
    (by
      intro j es2 hj hP2
      obtain ⟨hlen, hall⟩ := hP2
      have hk : i * waveWidth level + j < waveWidth level * ht := by
        have : i * waveWidth level + j < (i + 1) * waveWidth level := by
          rw [Nat.add_mul]; omega
        omega
      have hfresh : es2[i * waveWidth level + j]? = some freshEnemy := by
        rw [hall _ hk]; simp [spawnTarget]
      refine ⟨_, spawnCell_fresh gameWidth level i j es2 hl (by omega)
        (by unfold SIZE; omega) hfresh, ?_, ?_⟩
      · simp [hlen]
      · intro k hkn
        rw [List.getElem?_set]
        by_cases hkk : i * waveWidth level + j = k
        · subst hkk
          have hpos : 0 < waveWidth level := by omega
          have hdiv : (i * waveWidth level + j) / waveWidth level = i := by
            rw [Nat.add_comm, Nat.add_mul_div_right _ _ hpos, Nat.div_eq_of_lt hj]; simp
          have hmod : (i * waveWidth level + j) % waveWidth level = j := by
            rw [Nat.add_comm, Nat.add_mul_mod_self_right, Nat.mod_eq_of_lt hj]
          simp [spawnTarget, hdiv, hmod, hlen, hk]
        · rw [if_neg hkk, hall k hkn]
          unfold spawnTarget
          by_cases hlt : k < i * waveWidth level + j
          · rw [if_pos hlt, if_pos (by omega)]
          · rw [if_neg hlt, if_neg (by omega)])
    es (by simpa using hP)
  obtain ⟨es1, h1, h2⟩ := key
  refine ⟨es1, h1, ?_⟩
  have : i * waveWidth level + waveWidth level = (i + 1) * waveWidth level := by
    rw [Nat.add_mul]; omega
  rw [← this]; exact h2

theorem spawnEnemies_ok (gameWidth level : Nat) (hl : level < 5) :
    ∃ es, spawnEnemies gameWidth level
        (List.replicate (mul64 (waveWidth level) (waveHeight level)) freshEnemy) = Except.ok es
      ∧ es.length = waveWidth level * waveHeight level
      ∧ ∀ k, k < waveWidth level * waveHeight level →
          es[k]? = some (spawned gameWidth (waveWidth level) (k / waveWidth level)
                          (k % waveWidth level)) := by
  have hh : waveHeight level ≤ 10 := by interval_cases level <;> decide
  have hw := waveWidth_le level
  have hbound : waveWidth level * waveHeight level ≤ 100 := by
    calc waveWidth level * waveHeight level ≤ 10 * 10 := Nat.mul_le_mul hw hh
      _ = 100 := rfl
  have hmul : mul64 (waveWidth level) (waveHeight level) = waveWidth level * waveHeight level := by
    unfold mul64 SIZE; omega
  unfold spawnEnemies
  simp only [idx_widths level hl, idx_heights level hl, hmul]
  have key := forRange_invariant
    (fun i es => SpawnInv gameWidth (waveWidth level) (waveWidth level * waveHeight level)
      (i * waveWidth level) es)
    (fun i es1 => forRange (waveWidth level)
      (fun j es2 => spawnCell gameWidth level i j es2) es1) (waveHeight level)
    (fun i es hi hP => spawnRow_ok gameWidth level (waveHeight level) i es hl hi hh hP)
    (List.replicate (waveWidth level * waveHeight level) freshEnemy)
    (by
      refine ⟨by simp, ?_⟩
      intro k hk
      simp [spawnTarget, hk])
  obtain ⟨es, h1, hlen, hall⟩ := key
  refine ⟨es, h1, hlen, ?_⟩
  intro k hk
  rw [hall k hk]
  have : k < waveHeight level * waveWidth level := by rw [Nat.mul_comm]; exact hk
  simp [spawnTarget, this]

theorem countDead_all (g : GameEngine) (hlen : g.enemies.length = g.numEnemies)
    (hall : ∀ e ∈ g.enemies, e.enemyType = enemyDead) :
    countDead g = Except.ok g.numEnemies := by
  have key := forRange_invariant (fun k (c : Nat) => c = k)
    (fun k c => do
      let e ← idx g.enemies k
      pure (if e.enemyType = enemyDead then c + 1 else c)) g.numEnemies
    (by
      intro k c hk hc
      have hk2 : k < g.enemies.length := by omega
      have hdead : g.enemies[k].enemyType = enemyDead := hall _ (List.getElem_mem hk2)
      refine ⟨c + 1, ?_, by omega⟩
      simp [idx_of_lt g.enemies k hk2, hdead, bind, Except.bind, pure, Except.pure])
    0 rfl
  obtain ⟨c, h1, h2⟩ := key
  unfold countDead
  rw [h1, h2]

theorem spawned_facts (gameWidth wd i j : Nat) :
    (spawned gameWidth wd i j).enemyType.toNat = 4 - ((i / 2) % 3 + 1)
      ∧ (spawned gameWidth wd i j).enemyType ≠ enemyDead
      ∧ enemyHealths[(spawned gameWidth wd i j).enemyType.toNat]?
          = some (spawned gameWidth wd i j).enemyHealth
      ∧ enemyBulletDamages[(spawned gameWidth wd i j).enemyType.toNat]?
          = some (spawned gameWidth wd i j).enemyBulletDamage := by
  have h3 : (i / 2) % 3 < 3 := Nat.mod_lt _ (by decide)
  unfold spawned spawnType
  generalize (i / 2) % 3 = r at h3
  interval_cases r <;> simp <;> decide

theorem waveController_start (now : Int) (w : World)
    (hrun : w.enemyRespawnTimer.isRunning = false) (hl : w.game.level < 5)
    (hlen : w.game.enemies.length = w.game.numEnemies)
    (hn : w.game.numEnemies = waveWidth w.game.level * waveHeight w.game.level)
    (hall : ∀ e ∈ w.game.enemies, e.enemyType = enemyDead) :
    ∃ w1, waveController now w = Except.ok w1
      ∧ w1.enemyRespawnTimer = { startTime := now, isRunning := true }
      ∧ w1.game.level = min (w.game.level + 1) 4 := by
  have hcount := countDead_all w.game hlen hall
  have hw := waveWidth_le w.game.level
  have hh : waveHeight w.game.level ≤ 10 := by
    generalize w.game.level = l at hl
    interval_cases l <;> decide
  have hbound : waveHeight w.game.level * waveWidth w.game.level ≤ 100 := by
    calc waveHeight w.game.level * waveWidth w.game.level ≤ 10 * 10 := Nat.mul_le_mul hh hw
      _ = 100 := rfl
  have hmul : mul64 (waveHeight w.game.level) (waveWidth w.game.level)
      = waveHeight w.game.level * waveWidth w.game.level := by
    unfold mul64 SIZE; omega
  have heq : w.game.numEnemies = mul64 (waveHeight w.game.level) (waveWidth w.game.level) := by
    rw [hmul, hn, Nat.mul_comm]
  unfold waveController
  simp only [hrun, if_true, hcount, idx_heights _ hl, idx_widths _ hl, bind, Except.bind,
    if_pos heq, pure, Except.pure]
  refine ⟨_, rfl, rfl, ?_⟩
  show (if w.game.level < enemyArrHeights.length - 1 then add64 w.game.level 1
    else w.game.level) = min (w.game.level + 1) 4
  have : enemyArrHeights.length - 1 = 4 := rfl
  rw [this]
  unfold add64 SIZE
  split <;> omega

theorem waveController_wait (now : Int) (w : World)
    (hrun : w.enemyRespawnTimer.isRunning = true)
    (hel : w.enemyRespawnTimer.hasElapsed 6 now = false) :
    waveController now w = Except.ok w := by
  unfold waveController
  simp [hrun, hel, pure, Except.pure]

/-- C6: when the respawn timer is not running and every enemy of the active wave
(the `width × height` grid of the current level) is dead, one wave-controller step
starts the timer at the current clock reading and advances the level by at most
one (capped at 4); when the timer is running and 6 seconds have not elapsed, a
step changes nothing, so neither the start time nor the level moves. -/
theorem waveController_timer_once (now : Int) (w : World) :
    (w.enemyRespawnTimer.isRunning = false → w.game.level < 5 →
      w.game.enemies.length = w.game.numEnemies →
      w.game.numEnemies = waveWidth w.game.level * waveHeight w.game.level →
      (∀ e ∈ w.game.enemies, e.enemyType = enemyDead) →
      ∃ w1, waveController now w = Except.ok w1
        ∧ w1.enemyRespawnTimer = { startTime := now, isRunning := true }
        ∧ w1.game.level = min (w.game.level + 1) 4)
    ∧ (w.enemyRespawnTimer.isRunning = true → w.enemyRespawnTimer.hasElapsed 6 now = false →
        waveController now w = Except.ok w) :=
  ⟨waveController_start now w, waveController_wait now w⟩

/-- C7: when the respawn timer is running and has elapsed 6 seconds, the
wave-controller step keeps the level, sets `numEnemies` to width × height of that
level, sets the lives to `min 10 (lives + 2)`, stops the timer, and leaves at every
slot `k` (grid row `k / width`) a non-dead enemy of type `4 - ((row/2) % 3 + 1)`
with the health and bullet damage of its type, death-hold counter 10 and fire
cooldown 0. -/
theorem waveController_respawn (now : Int) (w : World)
    (hrun : w.enemyRespawnTimer.isRunning = true)
    (hel : w.enemyRespawnTimer.hasElapsed 6 now = true) (hl : w.game.level < 5) :
    ∃ w1, waveController now w = Except.ok w1
      ∧ w1.game.level = w.game.level
      ∧ w1.game.numEnemies = waveWidth w.game.level * waveHeight w.game.level
      ∧ w1.game.enemies.length = w1.game.numEnemies
      ∧ w1.game.player.lives = min 10 (w.game.player.lives + 2)
      ∧ w1.enemyRespawnTimer.isRunning = false
      ∧ ∀ k, k < w1.game.numEnemies →
          ∃ e, w1.game.enemies[k]? = some e
            ∧ e.enemyType.toNat = 4 - (((k / waveWidth w.game.level) / 2) % 3 + 1)
            ∧ e.enemyType ≠ enemyDead
            ∧ enemyHealths[e.enemyType.toNat]? = some e.enemyHealth
            ∧ enemyBulletDamages[e.enemyType.toNat]? = some e.enemyBulletDamage
            ∧ w1.deathFrameCounter[k]? = some 10
            ∧ w1.enemyBulletCooldowns[k]? = some 0 := by
  obtain ⟨es, hes, hlen, hall⟩ := spawnEnemies_ok w.game.gameWidth w.game.level hl
  have hw := waveWidth_le w.game.level
  have hh : waveHeight w.game.level ≤ 10 := by
    generalize w.game.level = l at hl
    interval_cases l <;> decide
  have hbound : waveWidth w.game.level * waveHeight w.game.level ≤ 100 := by
    calc waveWidth w.game.level * waveHeight w.game.level ≤ 10 * 10 := Nat.mul_le_mul hw hh
      _ = 100 := rfl
  have hmul : mul64 (waveWidth w.game.level) (waveHeight w.game.level)
      = waveWidth w.game.level * waveHeight w.game.level := by
    unfold mul64 SIZE; omega
  unfold waveController respawnWave
  simp only [hrun, hel, if_true, idx_heights _ hl, idx_widths _ hl, bind, Except.bind, hes,
    pure, Except.pure, Bool.true_eq_false, if_false]
  refine ⟨_, rfl, rfl, hmul, ?_, rfl, rfl, ?_⟩
  · show es.length = mul64 _ _
    rw [hmul, hlen]
  · intro k hk
    have hk2 : k < waveWidth w.game.level * waveHeight w.game.level := by
      rw [← hmul]; exact hk
    obtain ⟨f1, f2, f3, f4⟩ := spawned_facts w.game.gameWidth (waveWidth w.game.level)
      (k / waveWidth w.game.level) (k % waveWidth w.game.level)
    refine ⟨_, hall k hk2, f1, f2, f3, f4, ?_, ?_⟩
    · show (List.replicate (mul64 _ _) 10)[k]? = some 10
      rw [hmul]; simp [hk2]
    · show (List.replicate (mul64 _ _) 0)[k]? = some 0
      rw [hmul]; simp [hk2]

theorem pure_eq_ok {α : Type} (a b : α) : (pure a : Res α) = Except.ok b ↔ a = b := by
  simp [pure, Except.pure]

theorem idx_ok_lt {α : Type} (xs : List α) (i : Nat) (a : α) (h : idx xs i = Except.ok a) :
    ∃ hi : i < xs.length, xs[i] = a := by
  rw [idx_eq_ok] at h
  exact List.getElem?_eq_some.mp h

theorem idx_ok_mem {α : Type} (xs : List α) (i : Nat) (a : α) (h : idx xs i = Except.ok a) :
    a ∈ xs := by
  obtain ⟨hi, rfl⟩ := idx_ok_lt xs i a h
  exact List.getElem_mem hi

theorem mem_set_cases {α : Type} (xs : List α) (i : Nat) (v a : α) (h : a ∈ xs.set i v) :
    a ∈ xs ∨ a = v := by
  rcases List.mem_or_eq_of_mem_set h with h1 | h1
  · exact Or.inl h1
  · exact Or.inr h1

theorem updateCooldowns_game (w w1 : World) (h : updateCooldowns w = Except.ok w1) :
    w1.game = w.game := by
  unfold updateCooldowns at h
  rw [bind_eq_ok] at h
  obtain ⟨cds, _, h⟩ := h
  rw [pure_eq_ok] at h
  subst h; rfl

theorem advanceAnimations_game (w w1 : World) (h : advanceAnimations w = Except.ok w1) :
    w1.game = w.game := by
  unfold advanceAnimations at h
  rw [bind_eq_ok] at h
  obtain ⟨ts, _, h⟩ := h
  rw [pure_eq_ok] at h
  subst h; rfl

theorem updateDeathFrames_game (w w1 : World) (h : updateDeathFrames w = Except.ok w1) :
    w1.game = w.game := by
  unfold updateDeathFrames at h
  rw [bind_eq_ok] at h
  obtain ⟨ts, _, h⟩ := h
  rw [pure_eq_ok] at h
  subst h; rfl

theorem blinkEnemy_ok (e : Enemy) (h : EnemyOK e) : EnemyOK (blinkEnemy e) := by
  unfold blinkEnemy
  split
  · exact h
  · split
    · split <;> exact h
    · exact h

theorem CoreInv_congr (g g1 : GameEngine) (hl : g1.player.lives = g.player.lives)
    (he : g1.enemies = g.enemies) (hb : g1.bullets = g.bullets)
    (hn : g1.numBullets = g.numBullets) (h : CoreInv g) : CoreInv g1 := by
  unfold CoreInv at *
  rw [hl, he, hb, hn]; exact h

theorem renderEnemies_inv (w w1 : World) (h : renderEnemies w = Except.ok w1)
    (hinv : CoreInv w.game) : CoreInv w1.game := by
  unfold renderEnemies at h
  rw [bind_eq_ok] at h
  obtain ⟨es, hes, h⟩ := h
  rw [pure_eq_ok] at h
  subst h
  obtain ⟨h1, h2, h3, h4⟩ := hinv
  refine ⟨h1, ?_, h3, h4⟩
  refine forRange_preserves (fun es => ∀ e ∈ es, EnemyOK e) _ _ ?_ _ _ h2 hes
  intro k s s1 hs hb
  rw [bind_eq_ok] at hb
  obtain ⟨d, _, hb⟩ := hb
  split at hb
  · rw [pure_eq_ok] at hb; subst hb; exact hs
  · rw [bind_eq_ok] at hb
    obtain ⟨e, he, hb⟩ := hb
    rw [setIdx_eq_ok] at hb
    obtain ⟨_, rfl⟩ := hb
    intro a ha
    rcases mem_set_cases _ _ _ _ ha with h4 | h4
    · exact hs a h4
    · subst h4; exact blinkEnemy_ok e (hs e (idx_ok_mem _ _ _ he))

theorem blinkPlayer_inv (w : World) (hinv : CoreInv w.game) : CoreInv (blinkPlayer w).game := by
  refine CoreInv_congr w.game _ ?_ ?_ ?_ ?_ hinv <;> unfold blinkPlayer <;> split <;> rfl

theorem movePlayer_inv (w : World) (hinv : CoreInv w.game) : CoreInv (movePlayer w).game := by
  refine CoreInv_congr w.game _ ?_ ?_ ?_ ?_ hinv <;> unfold movePlayer <;>
    split <;> (try split) <;> (try split) <;> rfl

theorem firePhase_inv (w w1 : World) (h : firePhase w = Except.ok w1)
    (hinv : CoreInv w.game) : CoreInv w1.game := by
  unfold firePhase at h
  split at h
  · rename_i hc
    rw [bind_eq_ok] at h
    obtain ⟨b, _, h⟩ := h
    rw [bind_eq_ok] at h
    obtain ⟨bs, hbs, h⟩ := h
    rw [pure_eq_ok] at h
    subst h
    rw [setIdx_eq_ok] at hbs
    obtain ⟨_, rfl⟩ := hbs
    obtain ⟨h1, h2, h3, h4⟩ := hinv
    refine ⟨h1, h2, ?_, ?_⟩
    · show (w.game.bullets.set _ _).length = maxBullets
      rw [List.length_set]; exact h3
    · have h5 : w.game.numBullets < 128 := hc.2
      show add64 w.game.numBullets 1 ≤ 128
      unfold add64 SIZE
      omega
  · rw [pure_eq_ok] at h; subst h; exact hinv

theorem swapRemove_ok (pool : List Bullet) (n i : Nat) (r : List Bullet × Nat)
    (h : swapRemove pool n i = Except.ok r) :
    r.1.length = pool.length ∧ r.2 < pool.length ∧ r.2 = sub64 n 1 := by
  unfold swapRemove at h
  rw [bind_eq_ok] at h
  obtain ⟨last, hl, h⟩ := h
  rw [bind_eq_ok] at h
  obtain ⟨p1, hp, h⟩ := h
  rw [pure_eq_ok] at h
  subst h
  rw [setIdx_eq_ok] at hp
  obtain ⟨_, rfl⟩ := hp
  obtain ⟨hlt, _⟩ := idx_ok_lt _ _ _ hl
  exact ⟨by simp, hlt, rfl⟩

theorem hitEnemy_ok (sprite : Sprite) (e : Enemy) (score : Nat) (r : Enemy × Nat)
    (h : hitEnemy sprite e score = Except.ok r) (he : EnemyOK e) : EnemyOK r.1 := by
  unfold hitEnemy at h
  split at h
  next hpos =>
    split at h
    next h0 =>
      rw [bind_eq_ok] at h
      obtain ⟨pts, _, h⟩ := h
      rw [pure_eq_ok] at h
      subst h
      exact ⟨fun _ => h0, fun _ => rfl⟩
    next h0 =>
      rw [pure_eq_ok] at h
      subst h
      unfold EnemyOK at *
      constructor
      · intro hd
        have h5 : e.enemyHealth = 0 := he.mp hd
        omega
      · intro hz
        exact absurd hz h0
  next hpos =>
    rw [pure_eq_ok] at h; subst h; exact he

theorem bulletVsEnemy_inv (i j : Nat) (w w1 : World) (hinv : CoreInv w.game)
    (h : bulletVsEnemy i j w = Except.ok w1) : CoreInv w1.game := by
  unfold bulletVsEnemy at h
  rw [bind_eq_ok] at h
  obtain ⟨enemy, hen, h⟩ := h
  split at h
  · rw [pure_eq_ok] at h; subst h; exact hinv
  · rw [bind_eq_ok] at h
    obtain ⟨sprite, _, h⟩ := h
    rw [bind_eq_ok] at h
    obtain ⟨b, _, h⟩ := h
    split at h
    · rw [bind_eq_ok] at h
      obtain ⟨hit, hhit, h⟩ := h
      rw [bind_eq_ok] at h
      obtain ⟨es, hes, h⟩ := h
      rw [bind_eq_ok] at h
      obtain ⟨pool, hpool, h⟩ := h
      rw [pure_eq_ok] at h
      subst h
      obtain ⟨h1, h2, h3, h4⟩ := hinv
      obtain ⟨p1, p2, _⟩ := swapRemove_ok _ _ _ _ hpool
      rw [setIdx_eq_ok] at hes
      obtain ⟨_, rfl⟩ := hes
      refine ⟨h1, ?_, ?_, ?_⟩
      · intro a ha
        rcases mem_set_cases _ _ _ _ ha with h5 | h5
        · exact h2 a h5
        · subst h5
          exact hitEnemy_ok _ _ _ _ hhit (h2 enemy (idx_ok_mem _ _ _ hen))
      · show pool.1.length = maxBullets
        rw [p1]; exact h3
      · show pool.2 ≤ maxBullets
        rw [h3] at p2; exact Nat.le_of_lt p2
    · rw [pure_eq_ok] at h; subst h; exact hinv

theorem playerBulletLoop_inv : ∀ (fuel i : Nat) (w w1 : World), CoreInv w.game →
    playerBulletLoop fuel i w = Except.ok w1 → CoreInv w1.game := by
  intro fuel
  induction fuel with
  | zero =>
    intro i w w1 hinv h
    unfold playerBulletLoop at h
    split at h
    · cases h
    · cases h; exact hinv
  | succ fuel ih =>
    intro i w w1 hinv h
    unfold playerBulletLoop at h
    split at h
    · rw [bind_eq_ok] at h
      obtain ⟨b, _, h⟩ := h
      rw [bind_eq_ok] at h
      obtain ⟨y, _, h⟩ := h
      rw [bind_eq_ok] at h
      obtain ⟨bs, hbs, h⟩ := h
      rw [setIdx_eq_ok] at hbs
      obtain ⟨_, rfl⟩ := hbs
      obtain ⟨h1, h2, h3, h4⟩ := hinv
      split at h
      · rw [bind_eq_ok] at h
        obtain ⟨pool, hpool, h⟩ := h
        obtain ⟨p1, p2, _⟩ := swapRemove_ok _ _ _ _ hpool
        rw [List.length_set] at p1 p2
        refine ih i _ w1 ?_ h
        refine ⟨h1, h2, ?_, ?_⟩
        · show pool.1.length = maxBullets
          rw [p1]; exact h3
        · show pool.2 ≤ maxBullets
          rw [h3] at p2; exact Nat.le_of_lt p2
      · rw [bind_eq_ok] at h
        obtain ⟨w2, hw2, h⟩ := h
        refine ih (i + 1) w2 w1 ?_ h
        refine forRange_preserves (fun s => CoreInv s.game) (bulletVsEnemy i) _
          (fun k s s1 hs hb => bulletVsEnemy_inv i k s s1 hs hb) _ _ ?_ hw2
        refine ⟨h1, h2, ?_, h4⟩
        show (w.game.bullets.set _ _).length = maxBullets
        rw [List.length_set]; exact h3
    · cases h; exact hinv

theorem enemyBulletStep_inv (now : Int) (i : Nat) (w w1 : World) (hinv : CoreInv w.game)
    (h : enemyBulletStep now i w = Except.ok w1) : CoreInv w1.game := by
  unfold enemyBulletStep at h
  rw [bind_eq_ok] at h
  obtain ⟨b, _, h⟩ := h
  rw [bind_eq_ok] at h
  obtain ⟨y, _, h⟩ := h
  rw [bind_eq_ok] at h
  obtain ⟨bs, _, h⟩ := h
  obtain ⟨h1, h2, h3, h4⟩ := hinv
  split at h
  · rw [bind_eq_ok] at h
    obtain ⟨pool, _, h⟩ := h
    rw [pure_eq_ok] at h; subst h
    exact ⟨h1, h2, h3, h4⟩
  · split at h
    · split at h
      · rw [bind_eq_ok] at h
        obtain ⟨dmg, _, h⟩ := h
        rw [bind_eq_ok] at h
        obtain ⟨pool, _, h⟩ := h
        rw [pure_eq_ok] at h; subst h
        refine ⟨?_, h2, h3, h4⟩
        show 0 ≤ max 0 (w.game.player.lives - (dmg : Int))
          ∧ max 0 (w.game.player.lives - (dmg : Int)) ≤ PLAYER_MAX_HEALTH
        unfold PLAYER_MAX_HEALTH at *
        omega
      · rw [pure_eq_ok] at h; subst h
        exact ⟨h1, h2, h3, h4⟩
    · rw [pure_eq_ok] at h; subst h
      exact ⟨h1, h2, h3, h4⟩

theorem enemyBulletLoop_inv (now : Int) : ∀ (fuel i : Nat) (w w1 : World), CoreInv w.game →
    enemyBulletLoop now fuel i w = Except.ok w1 → CoreInv w1.game := by
  intro fuel
  induction fuel with
  | zero =>
    intro i w w1 hinv h
    unfold enemyBulletLoop at h
    split at h
    · cases h
    · cases h; exact hinv
  | succ fuel ih =>
    intro i w w1 hinv h
    unfold enemyBulletLoop at h
    split at h
    · rw [bind_eq_ok] at h
      obtain ⟨w2, hw2, h⟩ := h
      exact ih (i + 1) w2 w1 (enemyBulletStep_inv now i w w2 hinv hw2) h
    · cases h; exact hinv

theorem spawnEnemyBullet_game (i : Nat) (e : Enemy) (sprite : Sprite) (w w1 : World)
    (h : spawnEnemyBullet i e sprite w = Except.ok w1) :
    w1.game.player = w.game.player ∧ w1.game.enemies = w.game.enemies
      ∧ w1.game.bullets = w.game.bullets ∧ w1.game.numBullets = w.game.numBullets := by
  unfold spawnEnemyBullet at h
  rw [bind_eq_ok] at h
  obtain ⟨c, _, h⟩ := h
  rw [bind_eq_ok] at h
  obtain ⟨bs, _, h⟩ := h
  rw [bind_eq_ok] at h
  obtain ⟨cds, _, h⟩ := h
  rw [pure_eq_ok] at h; subst h
  exact ⟨rfl, rfl, rfl, rfl⟩

theorem enemyFire_inv (i : Nat) (w w1 : World) (hinv : CoreInv w.game)
    (h : enemyFire i w = Except.ok w1) : CoreInv w1.game := by
  unfold enemyFire at h
  rw [bind_eq_ok] at h
  obtain ⟨e, _, h⟩ := h
  split at h
  · rw [pure_eq_ok] at h; subst h; exact hinv
  · rw [bind_eq_ok] at h
    obtain ⟨sprite, _, h⟩ := h
    rw [bind_eq_ok] at h
    obtain ⟨cd, _, h⟩ := h
    split at h
    · rw [bind_eq_ok] at h
      obtain ⟨clear, _, h⟩ := h
      split at h
      · obtain ⟨e1, e2, e3, e4⟩ := spawnEnemyBullet_game _ _ _ _ _ h
        exact CoreInv_congr w.game w1.game (by rw [e1]) e2 e3 e4 hinv
      · rw [pure_eq_ok] at h; subst h; exact hinv
    · rw [pure_eq_ok] at h; subst h; exact hinv

theorem enemyFireControl_inv (w w1 : World) (hinv : CoreInv w.game)
    (h : enemyFireControl w = Except.ok w1) : CoreInv w1.game :=
  forRange_preserves (fun s => CoreInv s.game) enemyFire _
    (fun k s s1 hs hb => enemyFire_inv k s s1 hs hb) _ _ hinv h

theorem idx_widths_inv (level wd : Nat) (h : idx enemyArrWidths level = Except.ok wd) :
    level < 5 ∧ wd = waveWidth level := by
  obtain ⟨hlt, _⟩ := idx_ok_lt _ _ _ h
  have h5 : level < 5 := hlt
  rw [idx_widths level h5] at h
  cases h
  exact ⟨h5, rfl⟩

theorem idx_heights_inv (level ht : Nat) (h : idx enemyArrHeights level = Except.ok ht) :
    level < 5 ∧ ht = waveHeight level := by
  obtain ⟨hlt, _⟩ := idx_ok_lt _ _ _ h
  have h5 : level < 5 := hlt
  rw [idx_heights level h5] at h
  cases h
  exact ⟨h5, rfl⟩

theorem spawned_ok (gameWidth wd i j : Nat) : EnemyOK (spawned gameWidth wd i j) := by
  have h3 : (i / 2) % 3 < 3 := Nat.mod_lt _ (by decide)
  unfold EnemyOK spawned spawnType
  generalize (i / 2) % 3 = r at h3
  interval_cases r <;> simp <;> decide

theorem spawnEnemies_all_ok (gameWidth level : Nat) (es : List Enemy) (hl : level < 5)
    (h : spawnEnemies gameWidth level
      (List.replicate (mul64 (waveWidth level) (waveHeight level)) freshEnemy) = Except.ok es) :
    ∀ e ∈ es, EnemyOK e := by
  obtain ⟨es1, h1, hlen, hall⟩ := spawnEnemies_ok gameWidth level hl
  rw [h1] at h
  cases h
  intro e he
  obtain ⟨k, hk, rfl⟩ := List.getElem_of_mem he
  have h2 := hall k (by rw [← hlen]; exact hk)
  rw [List.getElem?_eq_getElem hk] at h2
  have h3 := Option.some.inj h2
  rw [h3]
  exact spawned_ok _ _ _ _

theorem waveController_inv (now : Int) (w w1 : World) (hinv : CoreInv w.game)
    (h : waveController now w = Except.ok w1) : CoreInv w1.game := by
  unfold waveController at h
  split at h
  · rw [bind_eq_ok] at h
    obtain ⟨c, _, h⟩ := h
    rw [bind_eq_ok] at h
    obtain ⟨ht, _, h⟩ := h
    rw [bind_eq_ok] at h
    obtain ⟨wd, _, h⟩ := h
    split at h
    · rw [pure_eq_ok] at h; subst h
      exact CoreInv_congr w.game _ rfl rfl rfl rfl hinv
    · rw [pure_eq_ok] at h; subst h; exact hinv
  · split at h
    · unfold respawnWave at h
      rw [bind_eq_ok] at h
      obtain ⟨wd, hwd, h⟩ := h
      rw [bind_eq_ok] at h
      obtain ⟨ht, hht, h⟩ := h
      rw [bind_eq_ok] at h
      obtain ⟨es, hes, h⟩ := h
      rw [pure_eq_ok] at h; subst h
      obtain ⟨hl, rfl⟩ := idx_widths_inv _ _ hwd
      obtain ⟨_, rfl⟩ := idx_heights_inv _ _ hht
      obtain ⟨h1, h2, h3, h4⟩ := hinv
      refine ⟨?_, spawnEnemies_all_ok _ _ _ hl hes, h3, h4⟩
      show 0 ≤ min PLAYER_MAX_HEALTH (w.game.player.lives + 2)
        ∧ min PLAYER_MAX_HEALTH (w.game.player.lives + 2) ≤ PLAYER_MAX_HEALTH
      unfold PLAYER_MAX_HEALTH at *
      omega
    · rw [pure_eq_ok] at h; subst h; exact hinv

theorem inGameTick_inv (clk : Clock) (w w1 : World) (hinv : CoreInv w.game)
    (h : inGameTick clk w = Except.ok w1) : CoreInv w1.game := by
  unfold inGameTick at h
  rw [bind_eq_ok] at h
  obtain ⟨a1, e1, h⟩ := h
  rw [bind_eq_ok] at h
  obtain ⟨a2, e2, h⟩ := h
  rw [bind_eq_ok] at h
  obtain ⟨a3, e3, h⟩ := h
  rw [bind_eq_ok] at h
  obtain ⟨a4, e4, h⟩ := h
  rw [bind_eq_ok] at h
  obtain ⟨a5, e5, h⟩ := h
  rw [bind_eq_ok] at h
  obtain ⟨a6, e6, h⟩ := h
  rw [bind_eq_ok] at h
  obtain ⟨a7, e7, h⟩ := h
  rw [bind_eq_ok] at h
  obtain ⟨a8, e8, h⟩ := h
  rw [bind_eq_ok] at h
  obtain ⟨a9, e9, h⟩ := h
  rw [pure_eq_ok] at h; subst h
  have i1 := waveController_inv _ _ _ hinv e1
  have i2 : CoreInv a2.game := by rw [updateCooldowns_game _ _ e2]; exact i1
  have i3 := renderEnemies_inv _ _ e3 i2
  have i4 : CoreInv a4.game := by
    rw [advanceAnimations_game _ _ e4]; exact blinkPlayer_inv _ i3
  have i5 : CoreInv a5.game := by rw [updateDeathFrames_game _ _ e5]; exact i4
  have i6 := playerBulletLoop_inv _ _ _ _ i5 e6
  have i7 := enemyBulletLoop_inv _ _ _ _ _ i6 e7
  have i8 := firePhase_inv _ _ e8 (movePlayer_inv _ i7)
  exact enemyFireControl_inv a8 a9 i8 e9

theorem frame_inv (clk : Clock) (w w1 : World) (hinv : CoreInv w.game)
    (h : frame clk w = Except.ok w1) : CoreInv w1.game := by
  unfold frame at h
  split at h
  · split at h <;> (rw [pure_eq_ok] at h; subst h; exact hinv)
  · split at h
    · rw [pure_eq_ok] at h; subst h; exact hinv
    · exact inGameTick_inv clk w w1 hinv h
  · rw [pure_eq_ok] at h; subst h; exact hinv

theorem inputCallback_game (k : Key) (a : Action) (now : Int) (w : World) :
    (inputCallback k a now w).game = w.game := by
  unfold inputCallback
  cases w.gameState <;> cases k <;> simp only [] <;> (repeat (split <;> try rfl))

theorem initialWorld_inv (bullets enemyBullets : List Bullet) (w : World)
    (hb : bullets.length = maxBullets) (h : initialWorld bullets enemyBullets = Except.ok w) :
    CoreInv w.game := by
  unfold initialWorld at h
  rw [bind_eq_ok] at h
  obtain ⟨wd, hwd, h⟩ := h
  rw [bind_eq_ok] at h
  obtain ⟨ht, hht, h⟩ := h
  rw [bind_eq_ok] at h
  obtain ⟨es, hes, h⟩ := h
  rw [pure_eq_ok] at h; subst h
  obtain ⟨hl, rfl⟩ := idx_widths_inv _ _ hwd
  obtain ⟨_, rfl⟩ := idx_heights_inv _ _ hht
  refine ⟨⟨?_, ?_⟩, spawnEnemies_all_ok _ _ _ hl hes, hb, Nat.zero_le _⟩
  · show (0 : Int) ≤ PLAYER_MAX_HEALTH
    decide
  · show PLAYER_MAX_HEALTH ≤ PLAYER_MAX_HEALTH
    exact le_refl _

theorem reachable_inv (w : World) (h : Reachable w) : CoreInv w.game := by
  induction h with
  | init bullets enemyBullets w hb he h => exact initialWorld_inv bullets enemyBullets w hb h
  | frame clk w w1 hw hr h ih => exact frame_inv clk w w1 ih h
  | key k a now w hw ih => rw [inputCallback_game]; exact ih

theorem getElem?_lt {α : Type} (xs : List α) (i : Nat) (a : α) (h : xs[i]? = some a) :
    ∃ hi : i < xs.length, xs[i] = a := List.getElem?_eq_some.mp h

/-- C9: when the live player bullet in slot `i` overlaps the non-dead enemy `j` of
health at least 1, the collision step leaves health - 1 with the blink flag set
(timer 0), type and score unchanged if the health was above 1, and health 0, type
`enemyDead` and the score raised by `enemyPoints[type]` (10, 20, 30 for types A,
B, C) if the health was 1; in both cases the other enemies are untouched and the
bullet is removed from the pool. -/
theorem bulletVsEnemy_hit (i j : Nat) (w : World) (e : Enemy) (b : Bullet) (sprite : Sprite)
    (hj : w.game.enemies[j]? = some e) (ht : e.enemyType ≠ enemyDead)
    (hh : 1 ≤ e.enemyHealth)
    (hs : currentSprite w.animTimeElapsed e.enemyType = Except.ok sprite)
    (hb : w.game.bullets[i]? = some b) (hi : i < w.game.numBullets)
    (hn : w.game.numBullets ≤ w.game.bullets.length) (hsz : w.game.numBullets < SIZE)
    (hx : spritesIntersect sprite e.x e.y bulletSprite b.x b.y = true) :
    ∃ w1, bulletVsEnemy i j w = Except.ok w1
      ∧ (1 < e.enemyHealth →
          w1.game.enemies[j]? = some { e with enemyHealth := e.enemyHealth - 1,
                                              isBlinking := true, blinkTimer := 0 }
          ∧ w1.playerScore = w.playerScore)
      ∧ (e.enemyHealth = 1 →
          w1.game.enemies[j]? = some { e with enemyHealth := 0, enemyType := enemyDead,
                                              x := sub64 e.x (sub64 enemyDeathSprite.w sprite.w / 2) }
          ∧ w1.playerScore = add64 w.playerScore (enemyPoints.getD e.enemyType.toNat 0))
      ∧ (enemyPoints.getD enemyTypeA.toNat 0 = 10 ∧ enemyPoints.getD enemyTypeB.toNat 0 = 20
          ∧ enemyPoints.getD enemyTypeC.toNat 0 = 30)
      ∧ (∀ k, k ≠ j → w1.game.enemies[k]? = w.game.enemies[k]?)
      ∧ w1.game.numBullets = w.game.numBullets - 1
      ∧ live w1.game.bullets w1.game.numBullets
          = (live w.game.bullets w.game.numBullets).erase b := by
  obtain ⟨hjlt, hje⟩ := getElem?_lt _ _ _ hj
  obtain ⟨hilt, hib⟩ := getElem?_lt _ _ _ hb
  obtain ⟨pool1, hpool, hlen, hlive⟩ :=
    swapRemove_erase w.game.bullets w.game.numBullets i hn hsz hi
  rw [hib] at hlive
  have hpts : idx enemyPoints e.enemyType.toNat
      = Except.ok (enemyPoints.getD e.enemyType.toNat 0) := by
    cases e.enemyType <;> rfl
  have hhit : ∃ r, hitEnemy sprite e w.playerScore = Except.ok r
      ∧ (1 < e.enemyHealth → r = ({ e with enemyHealth := e.enemyHealth - 1,
                                           isBlinking := true, blinkTimer := 0 }, w.playerScore))
      ∧ (e.enemyHealth = 1 →
          r = ({ e with enemyHealth := 0, enemyType := enemyDead,
                        x := sub64 e.x (sub64 enemyDeathSprite.w sprite.w / 2) },
               add64 w.playerScore (enemyPoints.getD e.enemyType.toNat 0))) := by
    unfold hitEnemy
    rw [if_pos (by omega)]
    by_cases h1 : e.enemyHealth = 1
    · rw [if_pos (by omega), hpts]
      refine ⟨_, rfl, fun h => by omega, fun _ => ?_⟩
      simp [h1]
    · rw [if_neg (by omega)]
      exact ⟨_, rfl, fun _ => rfl, fun h => absurd h h1⟩
  obtain ⟨r, hr, hr1, hr2⟩ := hhit
  refine ⟨{ w with
      playerScore := r.2
      game := { w.game with enemies := w.game.enemies.set j r.1, bullets := pool1,
                            numBullets := w.game.numBullets - 1 } }, ?_, ?_, ?_, ?_, ?_, rfl, hlive⟩
  · unfold bulletVsEnemy
    simp only [(idx_eq_ok _ _ _).mpr hj, (idx_eq_ok _ _ _).mpr hb, hs, hx, hr, hpool, bind,
      Except.bind, if_neg ht, if_true, setIdx, if_pos hjlt, pure, Except.pure]
  · intro h1
    rw [hr1 h1]
    exact ⟨by simp [hjlt], rfl⟩
  · intro h1
    rw [hr2 h1]
    exact ⟨by simp [hjlt], rfl⟩
  · exact ⟨rfl, rfl, rfl⟩
  · intro k hk
    show (w.game.enemies.set j r.1)[k]? = w.game.enemies[k]?
    rw [List.getElem?_set, if_neg (Ne.symm hk)]

/-- One iteration of the enemy bullet loop (lines 836-860), for a live enemy bullet
in slot `i` that after its move to `y` is in bounds and overlaps the player: if the
player-death timer is not running, the step sets the lives to
`max 0 (lives - enemyBulletDamages[tag])`, sets the blink flag, removes that bullet,
and the death timer runs afterwards exactly if the new lives are 0 (it is then
started at the clock reading); if the timer is already running, the step only
stores the moved bullet, leaving lives and pool count unchanged. -/
theorem enemyBulletStep_player_hit (now : Int) (i : Nat) (w : World) (b : Bullet) (y : Nat)
    (hb : w.game.enemyBullets[i]? = some b) (hi : i < w.game.numEnemyBullets)
    (hn : w.game.numEnemyBullets ≤ w.game.enemyBullets.length)
    (hsz : w.game.numEnemyBullets < SIZE)
    (hy : moveY b.y b.bulletSpeed = Except.ok y)
    (hin : ¬ (sub64 w.game.gameWidth (mul64 4 enemyBulletSprite.w) < b.x
              ∨ y < enemyBulletSprite.h ∨ w.game.gameHeight ≤ y))
    (hx : spritesIntersect playerSprite w.game.player.x w.game.player.y enemyBulletSprite b.x y
            = true) :
    (w.playerDeathTimer.isRunning = false →
      ∃ w1, enemyBulletStep now i w = Except.ok w1
        ∧ w1.game.player.lives
            = max 0 (w.game.player.lives - ((enemyBulletDamages.getD b.enemyType.toNat 0 : Nat) : Int))
        ∧ w1.game.player.isBlinking = true ∧ w1.game.player.blinkTimer = 0
        ∧ w1.game.numEnemyBullets = w.game.numEnemyBullets - 1
        ∧ live w1.game.enemyBullets w1.game.numEnemyBullets
            = (live (w.game.enemyBullets.set i { b with y := y }) w.game.numEnemyBullets).erase
                { b with y := y }
        ∧ (w1.playerDeathTimer.isRunning = true ↔ w1.game.player.lives = 0)
        ∧ (w1.game.player.lives = 0 → w1.playerDeathTimer = { startTime := now, isRunning := true }))
    ∧ (w.playerDeathTimer.isRunning = true →
        enemyBulletStep now i w = Except.ok
          { w with game := { w.game with
              enemyBullets := w.game.enemyBullets.set i { b with y := y } } }) := by
  obtain ⟨hilt, hib⟩ := getElem?_lt _ _ _ hb
  have hdmg : idx enemyBulletDamages b.enemyType.toNat
      = Except.ok (enemyBulletDamages.getD b.enemyType.toNat 0) := by
    cases b.enemyType <;> rfl
  constructor
  · intro hrun
    obtain ⟨pool1, hpool, hlen, hlive⟩ :=
      swapRemove_erase (w.game.enemyBullets.set i { b with y := y }) w.game.numEnemyBullets i
        (by rw [List.length_set]; exact hn) hsz hi
    have hl2 : i < (w.game.enemyBullets.set i { b with y := y }).length := by
      rw [List.length_set]; exact hilt
    have hget : (w.game.enemyBullets.set i { b with y := y })[i] = { b with y := y } := by simp
    rw [hget] at hlive
    refine ⟨{ w with
        game := { w.game with
          player := { w.game.player.onHit with
            lives := max 0 (w.game.player.lives
                      - ((enemyBulletDamages.getD b.enemyType.toNat 0 : Nat) : Int)) }
          enemyBullets := pool1
          numEnemyBullets := w.game.numEnemyBullets - 1 }
        playerDeathTimer :=
          if max 0 (w.game.player.lives
                      - ((enemyBulletDamages.getD b.enemyType.toNat 0 : Nat) : Int)) ≤ 0
          then w.playerDeathTimer.start now else w.playerDeathTimer }, ?_, rfl, rfl, rfl, rfl,
        hlive, ?_, ?_⟩
    · unfold enemyBulletStep
      simp only [(idx_eq_ok _ _ _).mpr hb, hy, bind, Except.bind, setIdx, if_pos hilt, if_neg hin,
        hx, if_true, hrun, hdmg, hpool, pure, Except.pure]
    · show (if _ then w.playerDeathTimer.start now else w.playerDeathTimer).isRunning = true
        ↔ max 0 (w.game.player.lives
            - ((enemyBulletDamages.getD b.enemyType.toNat 0 : Nat) : Int)) = 0
      split
      · simp only [Timer.start, true_iff]; omega
      · rw [hrun]
        constructor
        · intro h; cases h
        · intro h; omega
    · intro h0
      show (if _ then w.playerDeathTimer.start now else w.playerDeathTimer) = _
      have h1 : max 0 (w.game.player.lives
          - ((enemyBulletDamages.getD b.enemyType.toNat 0 : Nat) : Int)) ≤ 0 := by
        have h2 : max 0 (w.game.player.lives
          - ((enemyBulletDamages.getD b.enemyType.toNat 0 : Nat) : Int)) = 0 := h0
        omega
      rw [if_pos h1]
      rfl
  · intro hrun
    unfold enemyBulletStep
    simp only [(idx_eq_ok _ _ _).mpr hb, hy, bind, Except.bind, setIdx, if_pos hilt, if_neg hin,
      hx, if_true, hrun, pure, Except.pure, Bool.true_eq_false, if_false]

theorem initialWorld_start :
    initialWorld (List.replicate 128 junkBullet) (List.replicate 128 junkBullet)
      = Except.ok startWorld := by
  rfl

theorem start_reachable : Reachable startWorld :=
  Reachable.init _ _ _ (by rfl) (by rfl) initialWorld_start

theorem armed_reachable : Reachable armedWorld :=
  Reachable.key Key.z Action.release 3000000000 _
    (Reachable.frame clockAt3s _ _
      (Reachable.key Key.enter Action.press 0 _ start_reachable) rfl rfl)

theorem frame_armed : frame clockAt3s armedWorld = Except.ok tickedWorld := by
  set_option maxRecDepth 100000 in
  rfl

theorem ticked_reachable : Reachable tickedWorld :=
  Reachable.frame clockAt3s armedWorld tickedWorld armed_reachable rfl frame_armed

/-! ## The claims -/

/-- C1: in every state reachable from the initial state by frames of the game loop
(in-game ticks with their enemy-bullet hits and wave respawns) and key events, the
player's lives lie between 0 and `PLAYER_MAX_HEALTH` = 10. -/
theorem lives_in_range (w : World) (h : Reachable w) :
    0 ≤ w.game.player.lives ∧ w.game.player.lives ≤ PLAYER_MAX_HEALTH :=
  (reachable_inv w h).1

theorem lives_in_range_witness :
    Reachable tickedWorld
      ∧ 0 ≤ tickedWorld.game.player.lives ∧ tickedWorld.game.player.lives ≤ PLAYER_MAX_HEALTH :=
  ⟨ticked_reachable, lives_in_range tickedWorld ticked_reachable⟩

/-- C2: in every reachable state every enemy of the enemy array has type
`enemyDead` if and only if its health is 0; this covers the initial spawn, every
wave respawn and every in-game tick with its player-bullet hits. -/
theorem dead_iff_health_zero (w : World) (h : Reachable w) (e : Enemy)
    (he : e ∈ w.game.enemies) : e.enemyType = enemyDead ↔ e.enemyHealth = 0 :=
  (reachable_inv w h).2.1 e he

theorem dead_iff_health_zero_witness :
    Reachable tickedWorld ∧ gridEnemy 312 228 enemyTypeB 2 ∈ tickedWorld.game.enemies
      ∧ ((gridEnemy 312 228 enemyTypeB 2).enemyType = enemyDead
          ↔ (gridEnemy 312 228 enemyTypeB 2).enemyHealth = 0) :=
  ⟨ticked_reachable, by decide,
    dead_iff_health_zero tickedWorld ticked_reachable (gridEnemy 312 228 enemyTypeB 2)
      (by decide)⟩

/-- C3: with `numBullets` equal to `maxBullets` = 128 and the fire latch set the
fire action changes nothing (pool contents and count included), and in every
reachable state `numBullets` is at most 128. -/
theorem fire_at_capacity (w : World) :
    (w.game.numBullets = maxBullets → w.bulletFired = true → firePhase w = Except.ok w)
      ∧ (Reachable w → w.game.numBullets ≤ maxBullets) := by
  constructor
  · intro hn _
    unfold firePhase
    rw [if_neg (by rw [hn]; exact fun h => Nat.lt_irrefl _ h.2)]
    rfl
  · intro h
    exact (reachable_inv w h).2.2.2

theorem fire_at_capacity_witness :
    (fullMagazineWorld.game.numBullets = maxBullets ∧ fullMagazineWorld.bulletFired = true
        ∧ firePhase fullMagazineWorld = Except.ok fullMagazineWorld)
      ∧ (Reachable tickedWorld ∧ tickedWorld.game.numBullets ≤ maxBullets) :=
  ⟨⟨rfl, rfl, (fire_at_capacity fullMagazineWorld).1 rfl rfl⟩,
    ⟨ticked_reachable, (fire_at_capacity tickedWorld).2 ticked_reachable⟩⟩

/-- C4 (failing input): with 128 live enemy bullets and an enemy that qualifies to
fire, the fire-control loop writes `enemyBullets[128]`, outside the array; the
insertion is not dropped. -/
theorem enemyFireControl_full_pool :
    fullEnemyPoolWorld.game.numEnemyBullets = maxEnemyBullets
      ∧ fullEnemyPoolWorld.game.enemyBullets.length = maxEnemyBullets
      ∧ enemyFire 7 fullEnemyPoolWorld = Except.error Fault.outOfBounds
      ∧ enemyFireControl fullEnemyPoolWorld = Except.error Fault.outOfBounds := by
  set_option maxRecDepth 100000 in
  exact ⟨rfl, rfl, rfl, rfl⟩

/-- C5: for a pool with live count `n ≥ 1` and an index `i < n`, the removal
`pool[i] = pool[n-1]; n--` returns the count `n - 1` and a pool whose live bullets
are, as a multiset, the old live bullets minus the one that was at index `i`. -/
theorem swapRemove_removes_one (pool : List Bullet) (n i : Nat) (hn : n ≤ pool.length)
    (hsz : n < SIZE) (hi : i < n) :
    ∃ pool1, swapRemove pool n i = Except.ok (pool1, n - 1) ∧ pool1.length = pool.length
      ∧ live pool1 (n - 1) = (live pool n).erase pool[i] :=
  swapRemove_erase pool n i hn hsz hi

theorem swapRemove_removes_one_witness :
    ∃ pool1, swapRemove smallPool 3 0 = Except.ok (pool1, 2) ∧ pool1.length = 5
      ∧ live pool1 2 = (live smallPool 3).erase
          { x := 10, y := 100, bulletSpeed := 3, bulletColour := 1, enemyType := enemyTypeA } :=
  swapRemove_removes_one smallPool 3 0 (by decide) (by decide) (by decide)

theorem waveController_timer_once_witness :
    (∃ w1, waveController 3000000000 clearedWorld = Except.ok w1
        ∧ w1.enemyRespawnTimer = { startTime := 3000000000, isRunning := true }
        ∧ w1.game.level = min (clearedWorld.game.level + 1) 4)
      ∧ waveController 5000000000 waitingWorld = Except.ok waitingWorld :=
  ⟨(waveController_timer_once 3000000000 clearedWorld).1 rfl (by decide) rfl rfl (by decide),
    (waveController_timer_once 5000000000 waitingWorld).2 rfl (by decide)⟩

theorem waveController_respawn_witness :
    ∃ w1, waveController 9000000000 waitingWorld = Except.ok w1
      ∧ w1.game.level = 1 ∧ w1.game.numEnemies = 25 ∧ w1.game.player.lives = 10
      ∧ w1.enemyRespawnTimer.isRunning = false := by
  obtain ⟨w1, h, hlev, hn, _, hlives, hrun, _⟩ :=
    waveController_respawn 9000000000 waitingWorld rfl (by decide) (by decide)
  exact ⟨w1, h, hlev, hn, hlives, hrun⟩

/-- C8 (failing input): in `gapColumnWorld` the enemy of row 0, column 0 fires in the
same pass of the fire-control loop as the enemy of row 2 of that column, although
the latter is alive and closer to the player. -/
theorem enemyFireControl_gap_column :
    gapColumnWorld.game.enemies[0]? = some (gridEnemy 312 100 enemyTypeC 3)
      ∧ gapColumnWorld.game.enemies[6]? = some (gridEnemy 312 228 enemyTypeB 2)
      ∧ enemyFireControl gapColumnWorld = Except.ok gapColumnFired := by
  set_option maxRecDepth 100000 in
  exact ⟨rfl, rfl, rfl⟩

theorem bulletVsEnemy_hit_witness :
    ∃ w1, bulletVsEnemy 0 6 shotWorld = Except.ok w1
      ∧ w1.game.enemies[6]? = some { gridEnemy 312 228 enemyTypeB 2 with
                                     enemyHealth := 1, isBlinking := true }
      ∧ w1.playerScore = 0 ∧ w1.game.numBullets = 0 := by
  set_option maxRecDepth 100000 in
  obtain ⟨w1, h, h1, _, _, _, hn, _⟩ :=
    bulletVsEnemy_hit 0 6 shotWorld (gridEnemy 312 228 enemyTypeB 2)
      { junkBullet with x := 320, y := 240, bulletSpeed := -2 } ⟨11, 8⟩
      rfl (by decide) (by decide) rfl rfl (by decide) (by decide) (by decide) (by decide)
  exact ⟨w1, h, (h1 (by decide)).1, (h1 (by decide)).2, hn⟩

theorem enemyBulletStep_player_hit_witness :
    ∃ w1, enemyBulletStep 7000000000 0 lastLifeWorld = Except.ok w1
      ∧ w1.game.player.lives = 0 ∧ w1.game.player.isBlinking = true
      ∧ w1.game.numEnemyBullets = 0
      ∧ w1.playerDeathTimer = { startTime := 7000000000, isRunning := true } := by
  set_option maxRecDepth 100000 in
  obtain ⟨w1, h, hl, hb, _, hn, _, _, ht⟩ :=
    (enemyBulletStep_player_hit 7000000000 0 lastLifeWorld
      { x := 398, y := 597, bulletSpeed := 3, bulletColour := 16711935, enemyType := enemyTypeB }
      600 rfl (by decide) (by decide) (by decide) rfl (by decide) (by decide)).1 rfl
  have hl0 : w1.game.player.lives = 0 := by rw [hl]; decide
  exact ⟨w1, h, hl0, hb, hn, ht hl0⟩

/-! ## The fuel of the bullet loops is sufficient -/

theorem nf_ok {α : Type} (a : α) : NoFuel (Except.ok a : Res α) := by
  intro h; cases h

theorem nf_pure {α : Type} (a : α) : NoFuel (pure a : Res α) := by
  intro h; cases h

theorem nf_bounds {α : Type} : NoFuel (Except.error Fault.outOfBounds : Res α) := by
  intro h; cases h

theorem nf_error {α β : Type} (e : Fault) (h : NoFuel (Except.error e : Res α)) :
    NoFuel (Except.error e : Res β) := by
  intro hh; cases hh; exact h rfl

theorem nf_idx {α : Type} (xs : List α) (i : Nat) : NoFuel (idx xs i) := by
  unfold idx; split
  · exact nf_ok _
  · exact nf_bounds

theorem nf_setIdx {α : Type} (xs : List α) (i : Nat) (v : α) : NoFuel (setIdx xs i v) := by
  unfold setIdx; split
  · exact nf_ok _
  · exact nf_bounds

theorem nf_moveY (y : Nat) (v : Int) : NoFuel (moveY y v) := by
  unfold moveY; split
  · exact nf_ok _
  · intro h; cases h

theorem nf_bind {α β : Type} (x : Res α) (f : α → Res β) (hx : NoFuel x)
    (hf : ∀ a, x = Except.ok a → NoFuel (f a)) : NoFuel (x >>= f) := by
  cases x with
  | error e =>
    intro h
    apply hx
    simpa [bind, Except.bind] using h
  | ok a => exact hf a rfl

theorem nf_ite {α : Type} (c : Prop) [Decidable c] (a b : Res α) (ha : c → NoFuel a)
    (hb : ¬ c → NoFuel b) : NoFuel (if c then a else b) := by
  split
  · exact ha ‹_›
  · exact hb ‹_›

theorem nf_loopFrom {σ : Type} (body : Nat → σ → Res σ) (hb : ∀ k s, NoFuel (body k s)) :
    ∀ r k s, NoFuel (loopFrom body r k s) := by
  intro r
  induction r with
  | zero => intro k s; exact nf_ok _
  | succ r ih =>
    intro k s
    unfold loopFrom
    have h1 := hb k s
    split
    · exact ih _ _
    · rename_i e he
      rw [he] at h1
      exact nf_error e h1

theorem nf_forRange {σ : Type} (n : Nat) (body : Nat → σ → Res σ) (s : σ)
    (hb : ∀ k s, NoFuel (body k s)) : NoFuel (forRange n body s) :=
  nf_loopFrom body hb n 0 s

theorem nf_swapRemove (pool : List Bullet) (n i : Nat) : NoFuel (swapRemove pool n i) := by
  unfold swapRemove
  exact nf_bind _ _ (nf_idx _ _) (fun _ _ => nf_bind _ _ (nf_setIdx _ _ _) (fun _ _ => nf_pure _))

theorem nf_currentSprite (ts : List Nat) (t : EnemyType) : NoFuel (currentSprite ts t) := by
  unfold currentSprite
  split
  · exact nf_bounds
  · have h1 := nf_idx ts (t.toNat - 1)
    split
    · rename_i e he; rw [he] at h1; exact nf_error e h1
    · split
      · exact nf_idx _ _
      · exact nf_bounds

theorem nf_spawnCell (gw level i j : Nat) (es : List Enemy) :
    NoFuel (spawnCell gw level i j es) := by
  unfold spawnCell
  have h1 := nf_idx enemyArrWidths level
  split
  · rename_i e he; rw [he] at h1; exact nf_error e h1
  · rename_i wd _
    have h2 := nf_idx es (add64 (mul64 i wd) j)
    split
    · rename_i e he; rw [he] at h2; exact nf_error e h2
    · split
      · exact nf_setIdx _ _ _
      · exact nf_bounds

theorem nf_spawnEnemies (gw level : Nat) (es : List Enemy) :
    NoFuel (spawnEnemies gw level es) := by
  unfold spawnEnemies
  split
  · exact nf_forRange _ _ _ (fun i s => nf_forRange _ _ _ (fun j s2 => nf_spawnCell _ _ _ _ _))
  · exact nf_bounds

theorem nf_waveController (now : Int) (w : World) : NoFuel (waveController now w) := by
  unfold waveController
  refine nf_ite _ _ _ (fun _ => ?_) (fun _ => nf_ite _ _ _ (fun _ => ?_) (fun _ => nf_pure _))
  · refine nf_bind _ _ ?_ (fun _ _ => nf_bind _ _ (nf_idx _ _) (fun _ _ =>
      nf_bind _ _ (nf_idx _ _) (fun _ _ => nf_ite _ _ _ (fun _ => nf_pure _) (fun _ => nf_pure _))))
    unfold countDead
    exact nf_forRange _ _ _ (fun k s => nf_bind _ _ (nf_idx _ _) (fun _ _ => nf_pure _))
  · unfold respawnWave
    exact nf_bind _ _ (nf_idx _ _) (fun _ _ => nf_bind _ _ (nf_idx _ _) (fun _ _ =>
      nf_bind _ _ (nf_spawnEnemies _ _ _) (fun _ _ => nf_pure _)))

theorem nf_updateCooldowns (w : World) : NoFuel (updateCooldowns w) := by
  unfold updateCooldowns
  exact nf_bind _ _ (nf_forRange _ _ _ (fun k s => nf_bind _ _ (nf_idx _ _) (fun _ _ =>
    nf_ite _ _ _ (fun _ => nf_setIdx _ _ _) (fun _ => nf_pure _)))) (fun _ _ => nf_pure _)

theorem nf_renderEnemies (w : World) : NoFuel (renderEnemies w) := by
  unfold renderEnemies
  exact nf_bind _ _ (nf_forRange _ _ _ (fun k s => nf_bind _ _ (nf_idx _ _) (fun _ _ =>
    nf_ite _ _ _ (fun _ => nf_pure _)
      (fun _ => nf_bind _ _ (nf_idx _ _) (fun _ _ => nf_setIdx _ _ _)))))
    (fun _ _ => nf_pure _)

theorem nf_advanceAnimations (w : World) : NoFuel (advanceAnimations w) := by
  unfold advanceAnimations
  exact nf_bind _ _ (nf_forRange _ _ _ (fun k s => nf_bind _ _ (nf_idx _ _) (fun _ _ =>
    nf_setIdx _ _ _))) (fun _ _ => nf_pure _)

theorem nf_updateDeathFrames (w : World) : NoFuel (updateDeathFrames w) := by
  unfold updateDeathFrames
  exact nf_bind _ _ (nf_forRange _ _ _ (fun k s => nf_bind _ _ (nf_idx _ _) (fun _ _ =>
    nf_ite _ _ _
      (fun _ => nf_bind _ _ (nf_idx _ _) (fun _ _ =>
        nf_ite _ _ _ (fun _ => nf_setIdx _ _ _) (fun _ => nf_pure _)))
      (fun _ => nf_pure _)))) (fun _ _ => nf_pure _)

theorem nf_hitEnemy (sprite : Sprite) (e : Enemy) (score : Nat) :
    NoFuel (hitEnemy sprite e score) := by
  unfold hitEnemy
  exact nf_ite _ _ _
    (fun _ => nf_ite _ _ _ (fun _ => nf_bind _ _ (nf_idx _ _) (fun _ _ => nf_pure _))
      (fun _ => nf_pure _))
    (fun _ => nf_pure _)

theorem nf_bulletVsEnemy (i j : Nat) (w : World) : NoFuel (bulletVsEnemy i j w) := by
  unfold bulletVsEnemy
  exact nf_bind _ _ (nf_idx _ _) (fun _ _ => nf_ite _ _ _ (fun _ => nf_pure _) (fun _ =>
    nf_bind _ _ (nf_currentSprite _ _) (fun _ _ => nf_bind _ _ (nf_idx _ _) (fun _ _ =>
      nf_ite _ _ _
        (fun _ => nf_bind _ _ (nf_hitEnemy _ _ _) (fun _ _ => nf_bind _ _ (nf_setIdx _ _ _)
          (fun _ _ => nf_bind _ _ (nf_swapRemove _ _ _) (fun _ _ => nf_pure _))))
        (fun _ => nf_pure _)))))

theorem nf_firePhase (w : World) : NoFuel (firePhase w) := by
  unfold firePhase
  exact nf_ite _ _ _
    (fun _ => nf_bind _ _ (nf_idx _ _) (fun _ _ => nf_bind _ _ (nf_setIdx _ _ _)
      (fun _ _ => nf_pure _)))
    (fun _ => nf_pure _)

theorem nf_enemyFire (i : Nat) (w : World) : NoFuel (enemyFire i w) := by
  unfold enemyFire
  refine nf_bind _ _ (nf_idx _ _) (fun _ _ => nf_ite _ _ _ (fun _ => nf_pure _) (fun _ =>
    nf_bind _ _ (nf_currentSprite _ _) (fun _ _ => nf_bind _ _ (nf_idx _ _) (fun _ _ =>
      nf_ite _ _ _ (fun _ => nf_bind _ _ ?_ (fun _ _ => nf_ite _ _ _ (fun _ => ?_)
        (fun _ => nf_pure _))) (fun _ => nf_pure _)))))
  · unfold frontClear
    exact nf_bind _ _ (nf_idx _ _) (fun _ _ => nf_bind _ _ (nf_idx _ _) (fun _ _ =>
      nf_ite _ _ _ (fun _ => nf_pure _)
        (fun _ => nf_bind _ _ (nf_idx _ _) (fun _ _ => nf_pure _))))
  · unfold spawnEnemyBullet
    exact nf_bind _ _ (nf_idx _ _) (fun _ _ => nf_bind _ _ (nf_setIdx _ _ _) (fun _ _ =>
      nf_bind _ _ (nf_setIdx _ _ _) (fun _ _ => nf_pure _)))

theorem nf_enemyBulletStep (now : Int) (i : Nat) (w : World) :
    NoFuel (enemyBulletStep now i w) := by
  unfold enemyBulletStep
  exact nf_bind _ _ (nf_idx _ _) (fun _ _ => nf_bind _ _ (nf_moveY _ _) (fun _ _ =>
    nf_bind _ _ (nf_setIdx _ _ _) (fun _ _ => nf_ite _ _ _
      (fun _ => nf_bind _ _ (nf_swapRemove _ _ _) (fun _ _ => nf_pure _))
      (fun _ => nf_ite _ _ _
        (fun _ => nf_ite _ _ _
          (fun _ => nf_bind _ _ (nf_idx _ _) (fun _ _ =>
            nf_bind _ _ (nf_swapRemove _ _ _) (fun _ _ => nf_pure _)))
          (fun _ => nf_pure _))
        (fun _ => nf_pure _)))))

theorem sub64_one_lt (n : Nat) (h : 1 ≤ n) : sub64 n 1 < n := by
  unfold sub64 SIZE
  split <;> omega

theorem enemyBulletStep_count (now : Int) (i : Nat) (w w1 : World)
    (hi : i < w.game.numEnemyBullets) (h : enemyBulletStep now i w = Except.ok w1) :
    w1.game.numEnemyBullets ≤ w.game.numEnemyBullets := by
  have hlt := sub64_one_lt w.game.numEnemyBullets (by omega)
  unfold enemyBulletStep at h
  rw [bind_eq_ok] at h
  obtain ⟨b, _, h⟩ := h
  rw [bind_eq_ok] at h
  obtain ⟨y, _, h⟩ := h
  rw [bind_eq_ok] at h
  obtain ⟨bs, _, h⟩ := h
  split at h
  · rw [bind_eq_ok] at h
    obtain ⟨pool, hp, h⟩ := h
    rw [pure_eq_ok] at h; subst h
    obtain ⟨_, _, p3⟩ := swapRemove_ok _ _ _ _ hp
    show pool.2 ≤ _
    rw [p3]; exact Nat.le_of_lt hlt
  · split at h
    · split at h
      · rw [bind_eq_ok] at h
        obtain ⟨dmg, _, h⟩ := h
        rw [bind_eq_ok] at h
        obtain ⟨pool, hp, h⟩ := h
        rw [pure_eq_ok] at h; subst h
        obtain ⟨_, _, p3⟩ := swapRemove_ok _ _ _ _ hp
        show pool.2 ≤ _
        rw [p3]; exact Nat.le_of_lt hlt
      · rw [pure_eq_ok] at h; subst h; exact Nat.le_refl _
    · rw [pure_eq_ok] at h; subst h; exact Nat.le_refl _

theorem nf_enemyBulletLoop (now : Int) : ∀ (fuel i : Nat) (w : World),
    w.game.numEnemyBullets ≤ i + fuel → NoFuel (enemyBulletLoop now fuel i w) := by
  intro fuel
  induction fuel with
  | zero =>
    intro i w h
    unfold enemyBulletLoop
    rw [if_neg (by omega)]
    exact nf_ok _
  | succ fuel ih =>
    intro i w h
    unfold enemyBulletLoop
    refine nf_ite _ _ _ (fun hi => ?_) (fun _ => nf_ok _)
    refine nf_bind _ _ (nf_enemyBulletStep _ _ _) (fun w1 h1 => ih (i + 1) w1 ?_)
    have := enemyBulletStep_count now i w w1 hi h1
    omega

theorem bulletVsEnemy_count (i j : Nat) (w w1 : World) (hinv : CoreInv w.game)
    (h : bulletVsEnemy i j w = Except.ok w1) : w1.game.numBullets ≤ w.game.numBullets := by
  unfold bulletVsEnemy at h
  rw [bind_eq_ok] at h
  obtain ⟨enemy, _, h⟩ := h
  split at h
  · rw [pure_eq_ok] at h; subst h; exact Nat.le_refl _
  · rw [bind_eq_ok] at h
    obtain ⟨sprite, _, h⟩ := h
    rw [bind_eq_ok] at h
    obtain ⟨b, _, h⟩ := h
    split at h
    · rw [bind_eq_ok] at h
      obtain ⟨hit, _, h⟩ := h
      rw [bind_eq_ok] at h
      obtain ⟨es, _, h⟩ := h
      rw [bind_eq_ok] at h
      obtain ⟨pool, hp, h⟩ := h
      rw [pure_eq_ok] at h; subst h
      obtain ⟨_, p2, p3⟩ := swapRemove_ok _ _ _ _ hp
      have h3 : w.game.bullets.length = 128 := hinv.2.2.1
      show pool.2 ≤ _
      by_cases h0 : w.game.numBullets = 0
      · rw [h0] at p3
        have h5 : sub64 0 1 = 2 ^ 64 - 1 := by decide
        rw [h5] at p3
        omega
      · have := sub64_one_lt w.game.numBullets (by omega)
        omega
    · rw [pure_eq_ok] at h; subst h; exact Nat.le_refl _

theorem nf_playerBulletLoop : ∀ (fuel i : Nat) (w : World), CoreInv w.game →
    w.game.numBullets ≤ i + fuel → NoFuel (playerBulletLoop fuel i w) := by
  intro fuel
  induction fuel with
  | zero =>
    intro i w _ h
    unfold playerBulletLoop
    rw [if_neg (by omega)]
    exact nf_ok _
  | succ fuel ih =>
    intro i w hinv h
    unfold playerBulletLoop
    refine nf_ite _ _ _ (fun hi => ?_) (fun _ => nf_ok _)
    refine nf_bind _ _ (nf_idx _ _) (fun b _ => nf_bind _ _ (nf_moveY _ _) (fun y _ =>
      nf_bind _ _ (nf_setIdx _ _ _) (fun bs hbs => ?_)))
    rw [setIdx_eq_ok] at hbs
    obtain ⟨_, rfl⟩ := hbs
    obtain ⟨h1, h2, h3, h4⟩ := hinv
    refine nf_ite _ _ _ (fun _ => ?_) (fun _ => ?_)
    · refine nf_bind _ _ (nf_swapRemove _ _ _) (fun pool hp => ih i _ ?_ ?_)
      · obtain ⟨p1, p2, _⟩ := swapRemove_ok _ _ _ _ hp
        rw [List.length_set] at p1 p2
        refine ⟨h1, h2, ?_, ?_⟩
        · show pool.1.length = maxBullets
          rw [p1]; exact h3
        · show pool.2 ≤ maxBullets
          rw [h3] at p2; exact Nat.le_of_lt p2
      · obtain ⟨_, _, p3⟩ := swapRemove_ok _ _ _ _ hp
        have := sub64_one_lt w.game.numBullets (by omega)
        show pool.2 ≤ i + fuel
        omega
    · refine nf_bind _ _ (nf_forRange _ _ _ (fun k s => nf_bulletVsEnemy _ _ _))
        (fun w2 hw2 => ?_)
      have h0 : CoreInv ({ w with game := { w.game with
          bullets := w.game.bullets.set i { b with y := y } } } : World).game := by
        refine ⟨h1, h2, ?_, h4⟩
        show (w.game.bullets.set _ _).length = maxBullets
        rw [List.length_set]; exact h3
      have hP := forRange_preserves
        (fun s : World => CoreInv s.game ∧ s.game.numBullets ≤ w.game.numBullets)
        (bulletVsEnemy i) w.game.numEnemies
        (fun k s s1 hs hb => ⟨bulletVsEnemy_inv i k s s1 hs.1 hb,
          Nat.le_trans (bulletVsEnemy_count i k s s1 hs.1 hb) hs.2⟩)
        _ w2 ⟨h0, Nat.le_refl _⟩ hw2
      exact ih (i + 1) w2 hP.1 (by have := hP.2; omega)

theorem nf_inGameTick (clk : Clock) (w : World) (hinv : CoreInv w.game) :
    NoFuel (inGameTick clk w) := by
  unfold inGameTick
  refine nf_bind _ _ (nf_waveController _ _) (fun a1 e1 => ?_)
  refine nf_bind _ _ (nf_updateCooldowns _) (fun a2 e2 => ?_)
  refine nf_bind _ _ (nf_renderEnemies _) (fun a3 e3 => ?_)
  refine nf_bind _ _ (nf_advanceAnimations _) (fun a4 e4 => ?_)
  refine nf_bind _ _ (nf_updateDeathFrames _) (fun a5 e5 => ?_)
  have i1 := waveController_inv _ _ _ hinv e1
  have i2 : CoreInv a2.game := by rw [updateCooldowns_game _ _ e2]; exact i1
  have i3 := renderEnemies_inv _ _ e3 i2
  have i4 : CoreInv a4.game := by
    rw [advanceAnimations_game _ _ e4]; exact blinkPlayer_inv _ i3
  have i5 : CoreInv a5.game := by rw [updateDeathFrames_game _ _ e5]; exact i4
  refine nf_bind _ _ (nf_playerBulletLoop _ _ _ i5 (by omega)) (fun a6 e6 => ?_)
  refine nf_bind _ _ (nf_enemyBulletLoop _ _ _ _ (by omega)) (fun a7 e7 => ?_)
  refine nf_bind _ _ (nf_firePhase _) (fun a8 e8 => ?_)
  exact nf_bind _ _ (nf_forRange _ _ _ (fun k s => nf_enemyFire _ _)) (fun _ _ => nf_pure _)

/-- A frame started in a reachable state never stops for lack of fuel: the fuel
given to the two bullet loops covers every iteration they make. -/
theorem frame_fuel (clk : Clock) (w : World) (h : Reachable w) : NoFuel (frame clk w) := by
  unfold frame
  split
  · exact nf_ite _ _ _ (fun _ => nf_pure _) (fun _ => nf_pure _)
  · exact nf_ite _ _ _ (fun _ => nf_pure _) (fun _ => nf_inGameTick clk w (reachable_inv w h))
  · exact nf_pure _

/-! ## The enemy grid stays consistent -/

theorem forRange_length {α : Type} (n : Nat) (body : Nat → List α → Res (List α))
    (hb : ∀ k s s1, body k s = Except.ok s1 → s1.length = s.length) (s s1 : List α)
    (h : forRange n body s = Except.ok s1) : s1.length = s.length :=
  forRange_preserves (fun t => t.length = s.length) body n
    (fun k t t1 ht hk => (hb k t t1 hk).trans ht) s s1 rfl h

theorem setIdx_length {α : Type} (xs ys : List α) (i : Nat) (v : α)
    (h : setIdx xs i v = Except.ok ys) : ys.length = xs.length := by
  rw [setIdx_eq_ok] at h
  obtain ⟨_, rfl⟩ := h
  exact List.length_set _ _ _

theorem updateCooldowns_shape (w w1 : World) (h : updateCooldowns w = Except.ok w1) :
    shape w1 = shape w := by
  unfold updateCooldowns at h
  rw [bind_eq_ok] at h
  obtain ⟨cds, hc, h⟩ := h
  rw [pure_eq_ok] at h; subst h
  have hlen : cds.length = w.enemyBulletCooldowns.length := by
    refine forRange_length _ _ ?_ _ _ hc
    intro k s s1 hk
    rw [bind_eq_ok] at hk
    obtain ⟨c, _, hk⟩ := hk
    split at hk
    · exact setIdx_length _ _ _ _ hk
    · rw [pure_eq_ok] at hk; subst hk; rfl
  simp only [shape, hlen]

theorem renderEnemies_shape (w w1 : World) (h : renderEnemies w = Except.ok w1) :
    shape w1 = shape w := by
  unfold renderEnemies at h
  rw [bind_eq_ok] at h
  obtain ⟨es, hc, h⟩ := h
  rw [pure_eq_ok] at h; subst h
  have hlen : es.length = w.game.enemies.length := by
    refine forRange_length _ _ ?_ _ _ hc
    intro k s s1 hk
    rw [bind_eq_ok] at hk
    obtain ⟨c, _, hk⟩ := hk
    split at hk
    · rw [pure_eq_ok] at hk; subst hk; rfl
    · rw [bind_eq_ok] at hk
      obtain ⟨e, _, hk⟩ := hk
      exact setIdx_length _ _ _ _ hk
  simp only [shape, hlen]

theorem advanceAnimations_shape (w w1 : World) (h : advanceAnimations w = Except.ok w1) :
    shape w1 = shape w := by
  unfold advanceAnimations at h
  rw [bind_eq_ok] at h
  obtain ⟨ts, _, h⟩ := h
  rw [pure_eq_ok] at h; subst h
  rfl

theorem updateDeathFrames_shape (w w1 : World) (h : updateDeathFrames w = Except.ok w1) :
    shape w1 = shape w := by
  unfold updateDeathFrames at h
  rw [bind_eq_ok] at h
  obtain ⟨dfc, hc, h⟩ := h
  rw [pure_eq_ok] at h; subst h
  have hlen : dfc.length = w.deathFrameCounter.length := by
    refine forRange_length _ _ ?_ _ _ hc
    intro k s s1 hk
    rw [bind_eq_ok] at hk
    obtain ⟨e, _, hk⟩ := hk
    split at hk
    · rw [bind_eq_ok] at hk
      obtain ⟨d, _, hk⟩ := hk
      split at hk
      · exact setIdx_length _ _ _ _ hk
      · rw [pure_eq_ok] at hk; subst hk; rfl
    · rw [pure_eq_ok] at hk; subst hk; rfl
  simp only [shape, hlen]

theorem blinkPlayer_shape (w : World) : shape (blinkPlayer w) = shape w := by
  unfold blinkPlayer
  split <;> rfl

theorem movePlayer_shape (w : World) : shape (movePlayer w) = shape w := by
  unfold movePlayer
  split
  · split
    · rfl
    · split <;> rfl
  · rfl

theorem firePhase_shape (w w1 : World) (h : firePhase w = Except.ok w1) :
    shape w1 = shape w := by
  unfold firePhase at h
  split at h
  · rw [bind_eq_ok] at h
    obtain ⟨b, _, h⟩ := h
    rw [bind_eq_ok] at h
    obtain ⟨bs, _, h⟩ := h
    rw [pure_eq_ok] at h; subst h
    rfl
  · rw [pure_eq_ok] at h; subst h; rfl

theorem bulletVsEnemy_shape (i j : Nat) (w w1 : World)
    (h : bulletVsEnemy i j w = Except.ok w1) : shape w1 = shape w := by
  unfold bulletVsEnemy at h
  rw [bind_eq_ok] at h
  obtain ⟨enemy, _, h⟩ := h
  split at h
  · rw [pure_eq_ok] at h; subst h; rfl
  · rw [bind_eq_ok] at h
    obtain ⟨sprite, _, h⟩ := h
    rw [bind_eq_ok] at h
    obtain ⟨b, _, h⟩ := h
    split at h
    · rw [bind_eq_ok] at h
      obtain ⟨hit, _, h⟩ := h
      rw [bind_eq_ok] at h
      obtain ⟨es, hes, h⟩ := h
      rw [bind_eq_ok] at h
      obtain ⟨pool, _, h⟩ := h
      rw [pure_eq_ok] at h; subst h
      have hlen := setIdx_length _ _ _ _ hes
      simp only [shape, hlen]
    · rw [pure_eq_ok] at h; subst h; rfl

theorem playerBulletLoop_shape : ∀ (fuel i : Nat) (w w1 : World),
    playerBulletLoop fuel i w = Except.ok w1 → shape w1 = shape w := by
  intro fuel
  induction fuel with
  | zero =>
    intro i w w1 h
    unfold playerBulletLoop at h
    split at h
    · cases h
    · cases h; rfl
  | succ fuel ih =>
    intro i w w1 h
    unfold playerBulletLoop at h
    split at h
    · rw [bind_eq_ok] at h
      obtain ⟨b, _, h⟩ := h
      rw [bind_eq_ok] at h
      obtain ⟨y, _, h⟩ := h
      rw [bind_eq_ok] at h
      obtain ⟨bs, _, h⟩ := h
      split at h
      · rw [bind_eq_ok] at h
        obtain ⟨pool, _, h⟩ := h
        rw [ih i _ w1 h]
        rfl
      · rw [bind_eq_ok] at h
        obtain ⟨w2, hw2, h⟩ := h
        rw [ih (i + 1) w2 w1 h]
        exact forRange_preserves (fun s => shape s = shape w) (bulletVsEnemy i) _
          (fun k s s1 hs hb => (bulletVsEnemy_shape i k s s1 hb).trans hs)
          { w with game := { w.game with bullets := bs } } w2 rfl hw2
    · cases h; rfl

theorem enemyBulletStep_shape (now : Int) (i : Nat) (w w1 : World)
    (h : enemyBulletStep now i w = Except.ok w1) : shape w1 = shape w := by
  unfold enemyBulletStep at h
  rw [bind_eq_ok] at h
  obtain ⟨b, _, h⟩ := h
  rw [bind_eq_ok] at h
  obtain ⟨y, _, h⟩ := h
  rw [bind_eq_ok] at h
  obtain ⟨bs, _, h⟩ := h
  split at h
  · rw [bind_eq_ok] at h
    obtain ⟨pool, _, h⟩ := h
    rw [pure_eq_ok] at h; subst h; rfl
  · split at h
    · split at h
      · rw [bind_eq_ok] at h
        obtain ⟨dmg, _, h⟩ := h
        rw [bind_eq_ok] at h
        obtain ⟨pool, _, h⟩ := h
        rw [pure_eq_ok] at h; subst h; rfl
      · rw [pure_eq_ok] at h; subst h; rfl
    · rw [pure_eq_ok] at h; subst h; rfl

theorem enemyBulletLoop_shape (now : Int) : ∀ (fuel i : Nat) (w w1 : World),
    enemyBulletLoop now fuel i w = Except.ok w1 → shape w1 = shape w := by
  intro fuel
  induction fuel with
  | zero =>
    intro i w w1 h
    unfold enemyBulletLoop at h
    split at h
    · cases h
    · cases h; rfl
  | succ fuel ih =>
    intro i w w1 h
    unfold enemyBulletLoop at h
    split at h
    · rw [bind_eq_ok] at h
      obtain ⟨w2, hw2, h⟩ := h
      rw [ih (i + 1) w2 w1 h, enemyBulletStep_shape now i w w2 hw2]
    · cases h; rfl

theorem enemyFire_shape (i : Nat) (w w1 : World) (h : enemyFire i w = Except.ok w1) :
    shape w1 = shape w := by
  unfold enemyFire at h
  rw [bind_eq_ok] at h
  obtain ⟨e, _, h⟩ := h
  split at h
  · rw [pure_eq_ok] at h; subst h; rfl
  · rw [bind_eq_ok] at h
    obtain ⟨sprite, _, h⟩ := h
    rw [bind_eq_ok] at h
    obtain ⟨cd, _, h⟩ := h
    split at h
    · rw [bind_eq_ok] at h
      obtain ⟨clear, _, h⟩ := h
      split at h
      · unfold spawnEnemyBullet at h
        rw [bind_eq_ok] at h
        obtain ⟨c, _, h⟩ := h
        rw [bind_eq_ok] at h
        obtain ⟨bs, _, h⟩ := h
        rw [bind_eq_ok] at h
        obtain ⟨cds, hcds, h⟩ := h
        rw [pure_eq_ok] at h; subst h
        have hlen := setIdx_length _ _ _ _ hcds
        simp only [shape, hlen]
      · rw [pure_eq_ok] at h; subst h; rfl
    · rw [pure_eq_ok] at h; subst h; rfl

theorem enemyFireControl_shape (w w1 : World) (h : enemyFireControl w = Except.ok w1) :
    shape w1 = shape w :=
  forRange_preserves (fun s => shape s = shape w) enemyFire _
    (fun k s s1 hs hb => (enemyFire_shape k s s1 hb).trans hs) _ _ rfl h

theorem mul64_wave (level : Nat) (hl : level < 5) :
    mul64 (waveWidth level) (waveHeight level) = waveWidth level * waveHeight level := by
  interval_cases level <;> decide

theorem waveController_shape (now : Int) (w w1 : World) (hs : ShapeOK (shape w))
    (h : waveController now w = Except.ok w1) : ShapeOK (shape w1) := by
  obtain ⟨s1, s2, s3, s4, s5⟩ := hs
  unfold waveController at h
  split at h
  · rw [bind_eq_ok] at h
    obtain ⟨c, _, h⟩ := h
    rw [bind_eq_ok] at h
    obtain ⟨ht, _, h⟩ := h
    rw [bind_eq_ok] at h
    obtain ⟨wd, _, h⟩ := h
    split at h
    · rw [pure_eq_ok] at h; subst h
      refine ⟨?_, s2, s3, s4, fun hr => by cases hr⟩
      show (if w.game.level < enemyArrHeights.length - 1 then add64 w.game.level 1
        else w.game.level) < 5
      have h4 : enemyArrHeights.length - 1 = 4 := rfl
      have h5 : w.game.level < 5 := s1
      rw [h4]
      unfold add64 SIZE
      split <;> omega
    · rw [pure_eq_ok] at h; subst h
      exact ⟨s1, s2, s3, s4, s5⟩
  · split at h
    · unfold respawnWave at h
      rw [bind_eq_ok] at h
      obtain ⟨wd, hwd, h⟩ := h
      rw [bind_eq_ok] at h
      obtain ⟨ht, hht, h⟩ := h
      rw [bind_eq_ok] at h
      obtain ⟨es, hes, h⟩ := h
      rw [pure_eq_ok] at h; subst h
      obtain ⟨hl, rfl⟩ := idx_widths_inv _ _ hwd
      obtain ⟨_, rfl⟩ := idx_heights_inv _ _ hht
      obtain ⟨es1, h1, hlen, _⟩ := spawnEnemies_ok w.game.gameWidth w.game.level hl
      rw [h1] at hes
      cases hes
      have hm := mul64_wave w.game.level hl
      refine ⟨s1, ?_, ?_, ?_, fun _ => hm⟩
      · show List.length _ = mul64 _ _
        rw [hm]; exact hlen
      · show (List.replicate _ 10).length = mul64 _ _
        exact List.length_replicate _ _
      · show (List.replicate _ 0).length = mul64 _ _
        exact List.length_replicate _ _
    · rw [pure_eq_ok] at h; subst h
      exact ⟨s1, s2, s3, s4, s5⟩

theorem inGameTick_shape (clk : Clock) (w w1 : World) (hs : ShapeOK (shape w))
    (h : inGameTick clk w = Except.ok w1) : ShapeOK (shape w1) := by
  unfold inGameTick at h
  rw [bind_eq_ok] at h
  obtain ⟨a1, e1, h⟩ := h
  rw [bind_eq_ok] at h
  obtain ⟨a2, e2, h⟩ := h
  rw [bind_eq_ok] at h
  obtain ⟨a3, e3, h⟩ := h
  rw [bind_eq_ok] at h
  obtain ⟨a4, e4, h⟩ := h
  rw [bind_eq_ok] at h
  obtain ⟨a5, e5, h⟩ := h
  rw [bind_eq_ok] at h
  obtain ⟨a6, e6, h⟩ := h
  rw [bind_eq_ok] at h
  obtain ⟨a7, e7, h⟩ := h
  rw [bind_eq_ok] at h
  obtain ⟨a8, e8, h⟩ := h
  rw [bind_eq_ok] at h
  obtain ⟨a9, e9, h⟩ := h
  rw [pure_eq_ok] at h; subst h
  have i1 := waveController_shape _ _ _ hs e1
  have i9 : shape a9 = shape a1 := by
    rw [enemyFireControl_shape a8 a9 e9, firePhase_shape _ a8 e8, movePlayer_shape,
      enemyBulletLoop_shape _ _ _ _ a7 e7, playerBulletLoop_shape _ _ _ a6 e6,
      updateDeathFrames_shape _ a5 e5, advanceAnimations_shape _ a4 e4, blinkPlayer_shape,
      renderEnemies_shape _ a3 e3, updateCooldowns_shape _ a2 e2]
  show ShapeOK (shape a9)
  rw [i9]; exact i1

theorem frame_shape (clk : Clock) (w w1 : World) (hs : ShapeOK (shape w))
    (h : frame clk w = Except.ok w1) : ShapeOK (shape w1) := by
  unfold frame at h
  split at h
  · split at h <;> (rw [pure_eq_ok] at h; subst h; exact hs)
  · split at h
    · rw [pure_eq_ok] at h; subst h; exact hs
    · exact inGameTick_shape clk w w1 hs h
  · rw [pure_eq_ok] at h; subst h; exact hs

theorem inputCallback_shape (k : Key) (a : Action) (now : Int) (w : World) :
    shape (inputCallback k a now w) = shape w := by
  unfold inputCallback
  cases w.gameState <;> cases k <;> simp only [] <;> (repeat (split <;> try rfl))

theorem initialWorld_shape (bullets enemyBullets : List Bullet) (w : World)
    (h : initialWorld bullets enemyBullets = Except.ok w) : ShapeOK (shape w) := by
  unfold initialWorld at h
  rw [bind_eq_ok] at h
  obtain ⟨wd, hwd, h⟩ := h
  rw [bind_eq_ok] at h
  obtain ⟨ht, hht, h⟩ := h
  rw [bind_eq_ok] at h
  obtain ⟨es, hes, h⟩ := h
  rw [pure_eq_ok] at h; subst h
  obtain ⟨hl, rfl⟩ := idx_widths_inv _ _ hwd
  obtain ⟨_, rfl⟩ := idx_heights_inv _ _ hht
  obtain ⟨es1, h1, hlen, _⟩ := spawnEnemies_ok GAME_WIDTH 0 hl
  rw [h1] at hes
  cases hes
  have hm := mul64_wave 0 hl
  refine ⟨hl, ?_, ?_, ?_, fun _ => hm⟩
  · show List.length _ = mul64 _ _
    rw [hm]; exact hlen
  · show (List.replicate _ 10).length = mul64 _ _
    exact List.length_replicate _ _
  · show (List.replicate _ 0).length = mul64 _ _
    exact List.length_replicate _ _

/-- In every reachable state the level is inside the tables, the enemy array and
its two parallel arrays have `numEnemies` slots, and `numEnemies` is width × height
of the level whenever the respawn timer is not running. -/
theorem reachable_shape (w : World) (h : Reachable w) : ShapeOK (shape w) := by
  induction h with
  | init bullets enemyBullets w hb he h => exact initialWorld_shape bullets enemyBullets w h
  | frame clk w w1 hw hr h ih => exact frame_shape clk w w1 ih h
  | key k a now w hw ih => rw [inputCallback_shape]; exact ih

/-! ## Fields outside the reach of the tick, and the animation clocks -/

theorem updateCooldowns_fixed (w w1 : World) (h : updateCooldowns w = Except.ok w1) :
    fixedPart w1 = fixedPart w := by
  unfold updateCooldowns at h
  rw [bind_eq_ok] at h
  obtain ⟨cds, hc, h⟩ := h
  rw [pure_eq_ok] at h; subst h
  rfl

theorem renderEnemies_fixed (w w1 : World) (h : renderEnemies w = Except.ok w1) :
    fixedPart w1 = fixedPart w := by
  unfold renderEnemies at h
  rw [bind_eq_ok] at h
  obtain ⟨es, hc, h⟩ := h
  rw [pure_eq_ok] at h; subst h
  rfl

theorem advanceAnimations_fixed (w w1 : World) (h : advanceAnimations w = Except.ok w1) :
    fixedPart w1 = fixedPart w := by
  unfold advanceAnimations at h
  rw [bind_eq_ok] at h
  obtain ⟨ts, _, h⟩ := h
  rw [pure_eq_ok] at h; subst h
  rfl

theorem updateDeathFrames_fixed (w w1 : World) (h : updateDeathFrames w = Except.ok w1) :
    fixedPart w1 = fixedPart w := by
  unfold updateDeathFrames at h
  rw [bind_eq_ok] at h
  obtain ⟨dfc, hc, h⟩ := h
  rw [pure_eq_ok] at h; subst h
  rfl

theorem blinkPlayer_fixed (w : World) : fixedPart (blinkPlayer w) = fixedPart w := by
  unfold blinkPlayer
  split <;> rfl

theorem movePlayer_fixed (w : World) : fixedPart (movePlayer w) = fixedPart w := by
  unfold movePlayer
  split
  · split
    · rfl
    · split <;> rfl
  · rfl

theorem firePhase_fixed (w w1 : World) (h : firePhase w = Except.ok w1) :
    fixedPart w1 = fixedPart w := by
  unfold firePhase at h
  split at h
  · rw [bind_eq_ok] at h
    obtain ⟨b, _, h⟩ := h
    rw [bind_eq_ok] at h
    obtain ⟨bs, _, h⟩ := h
    rw [pure_eq_ok] at h; subst h
    rfl
  · rw [pure_eq_ok] at h; subst h; rfl

theorem bulletVsEnemy_fixed (i j : Nat) (w w1 : World)
    (h : bulletVsEnemy i j w = Except.ok w1) : fixedPart w1 = fixedPart w := by
  unfold bulletVsEnemy at h
  rw [bind_eq_ok] at h
  obtain ⟨enemy, _, h⟩ := h
  split at h
  · rw [pure_eq_ok] at h; subst h; rfl
  · rw [bind_eq_ok] at h
    obtain ⟨sprite, _, h⟩ := h
    rw [bind_eq_ok] at h
    obtain ⟨b, _, h⟩ := h
    split at h
    · rw [bind_eq_ok] at h
      obtain ⟨hit, _, h⟩ := h
      rw [bind_eq_ok] at h
      obtain ⟨es, hes, h⟩ := h
      rw [bind_eq_ok] at h
      obtain ⟨pool, _, h⟩ := h
      rw [pure_eq_ok] at h; subst h
      rfl
    · rw [pure_eq_ok] at h; subst h; rfl

theorem playerBulletLoop_fixed : ∀ (fuel i : Nat) (w w1 : World),
    playerBulletLoop fuel i w = Except.ok w1 → fixedPart w1 = fixedPart w := by
  intro fuel
  induction fuel with
  | zero =>
    intro i w w1 h
    unfold playerBulletLoop at h
    split at h
    · cases h
    · cases h; rfl
  | succ fuel ih =>
    intro i w w1 h
    unfold playerBulletLoop at h
    split at h
    · rw [bind_eq_ok] at h
      obtain ⟨b, _, h⟩ := h
      rw [bind_eq_ok] at h
      obtain ⟨y, _, h⟩ := h
      rw [bind_eq_ok] at h
      obtain ⟨bs, _, h⟩ := h
      split at h
      · rw [bind_eq_ok] at h
        obtain ⟨pool, _, h⟩ := h
        exact (ih i _ w1 h).trans rfl
      · rw [bind_eq_ok] at h
        obtain ⟨w2, hw2, h⟩ := h
        rw [ih (i + 1) w2 w1 h]
        exact forRange_preserves (fun s => fixedPart s = fixedPart w) (bulletVsEnemy i) _
          (fun k s s1 hs hb => (bulletVsEnemy_fixed i k s s1 hb).trans hs)
          { w with game := { w.game with bullets := bs } } w2 rfl hw2
    · cases h; rfl

theorem enemyBulletStep_fixed (now : Int) (i : Nat) (w w1 : World)
    (h : enemyBulletStep now i w = Except.ok w1) : fixedPart w1 = fixedPart w := by
  unfold enemyBulletStep at h
  rw [bind_eq_ok] at h
  obtain ⟨b, _, h⟩ := h
  rw [bind_eq_ok] at h
  obtain ⟨y, _, h⟩ := h
  rw [bind_eq_ok] at h
  obtain ⟨bs, _, h⟩ := h
  split at h
  · rw [bind_eq_ok] at h
    obtain ⟨pool, _, h⟩ := h
    rw [pure_eq_ok] at h; subst h; rfl
  · split at h
    · split at h
      · rw [bind_eq_ok] at h
        obtain ⟨dmg, _, h⟩ := h
        rw [bind_eq_ok] at h
        obtain ⟨pool, _, h⟩ := h
        rw [pure_eq_ok] at h; subst h; rfl
      · rw [pure_eq_ok] at h; subst h; rfl
    · rw [pure_eq_ok] at h; subst h; rfl

theorem enemyBulletLoop_fixed (now : Int) : ∀ (fuel i : Nat) (w w1 : World),
    enemyBulletLoop now fuel i w = Except.ok w1 → fixedPart w1 = fixedPart w := by
  intro fuel
  induction fuel with
  | zero =>
    intro i w w1 h
    unfold enemyBulletLoop at h
    split at h
    · cases h
    · cases h; rfl
  | succ fuel ih =>
    intro i w w1 h
    unfold enemyBulletLoop at h
    split at h
    · rw [bind_eq_ok] at h
      obtain ⟨w2, hw2, h⟩ := h
      rw [ih (i + 1) w2 w1 h, enemyBulletStep_fixed now i w w2 hw2]
    · cases h; rfl

theorem enemyFire_fixed (i : Nat) (w w1 : World) (h : enemyFire i w = Except.ok w1) :
    fixedPart w1 = fixedPart w := by
  unfold enemyFire at h
  rw [bind_eq_ok] at h
  obtain ⟨e, _, h⟩ := h
  split at h
  · rw [pure_eq_ok] at h; subst h; rfl
  · rw [bind_eq_ok] at h
    obtain ⟨sprite, _, h⟩ := h
    rw [bind_eq_ok] at h
    obtain ⟨cd, _, h⟩ := h
    split at h
    · rw [bind_eq_ok] at h
      obtain ⟨clear, _, h⟩ := h
      split at h
      · unfold spawnEnemyBullet at h
        rw [bind_eq_ok] at h
        obtain ⟨c, _, h⟩ := h
        rw [bind_eq_ok] at h
        obtain ⟨bs, _, h⟩ := h
        rw [bind_eq_ok] at h
        obtain ⟨cds, hcds, h⟩ := h
        rw [pure_eq_ok] at h; subst h
        rfl
      · rw [pure_eq_ok] at h; subst h; rfl
    · rw [pure_eq_ok] at h; subst h; rfl

theorem enemyFireControl_fixed (w w1 : World) (h : enemyFireControl w = Except.ok w1) :
    fixedPart w1 = fixedPart w :=
  forRange_preserves (fun s => fixedPart s = fixedPart w) enemyFire _
    (fun k s s1 hs hb => (enemyFire_fixed k s s1 hb).trans hs) _ _ rfl h

theorem updateCooldowns_anim (w w1 : World) (h : updateCooldowns w = Except.ok w1) :
    w1.animTimeElapsed = w.animTimeElapsed := by
  unfold updateCooldowns at h
  rw [bind_eq_ok] at h
  obtain ⟨cds, hc, h⟩ := h
  rw [pure_eq_ok] at h; subst h
  rfl

theorem renderEnemies_anim (w w1 : World) (h : renderEnemies w = Except.ok w1) :
    w1.animTimeElapsed = w.animTimeElapsed := by
  unfold renderEnemies at h
  rw [bind_eq_ok] at h
  obtain ⟨es, hc, h⟩ := h
  rw [pure_eq_ok] at h; subst h
  rfl

theorem updateDeathFrames_anim (w w1 : World) (h : updateDeathFrames w = Except.ok w1) :
    w1.animTimeElapsed = w.animTimeElapsed := by
  unfold updateDeathFrames at h
  rw [bind_eq_ok] at h
  obtain ⟨dfc, hc, h⟩ := h
  rw [pure_eq_ok] at h; subst h
  rfl

theorem blinkPlayer_anim (w : World) : (blinkPlayer w).animTimeElapsed = w.animTimeElapsed := by
  unfold blinkPlayer
  split <;> rfl

theorem movePlayer_anim (w : World) : (movePlayer w).animTimeElapsed = w.animTimeElapsed := by
  unfold movePlayer
  split
  · split
    · rfl
    · split <;> rfl
  · rfl

theorem firePhase_anim (w w1 : World) (h : firePhase w = Except.ok w1) :
    w1.animTimeElapsed = w.animTimeElapsed := by
  unfold firePhase at h
  split at h
  · rw [bind_eq_ok] at h
    obtain ⟨b, _, h⟩ := h
    rw [bind_eq_ok] at h
    obtain ⟨bs, _, h⟩ := h
    rw [pure_eq_ok] at h; subst h
    rfl
  · rw [pure_eq_ok] at h; subst h; rfl

theorem bulletVsEnemy_anim (i j : Nat) (w w1 : World)
    (h : bulletVsEnemy i j w = Except.ok w1) : w1.animTimeElapsed = w.animTimeElapsed := by
  unfold bulletVsEnemy at h
  rw [bind_eq_ok] at h
  obtain ⟨enemy, _, h⟩ := h
  split at h
  · rw [pure_eq_ok] at h; subst h; rfl
  · rw [bind_eq_ok] at h
    obtain ⟨sprite, _, h⟩ := h
    rw [bind_eq_ok] at h
    obtain ⟨b, _, h⟩ := h
    split at h
    · rw [bind_eq_ok] at h
      obtain ⟨hit, _, h⟩ := h
      rw [bind_eq_ok] at h
      obtain ⟨es, hes, h⟩ := h
      rw [bind_eq_ok] at h
      obtain ⟨pool, _, h⟩ := h
      rw [pure_eq_ok] at h; subst h
      rfl
    · rw [pure_eq_ok] at h; subst h; rfl

theorem playerBulletLoop_anim : ∀ (fuel i : Nat) (w w1 : World),
    playerBulletLoop fuel i w = Except.ok w1 → w1.animTimeElapsed = w.animTimeElapsed := by
  intro fuel
  induction fuel with
  | zero =>
    intro i w w1 h
    unfold playerBulletLoop at h
    split at h
    · cases h
    · cases h; rfl
  | succ fuel ih =>
    intro i w w1 h
    unfold playerBulletLoop at h
    split at h
    · rw [bind_eq_ok] at h
      obtain ⟨b, _, h⟩ := h
      rw [bind_eq_ok] at h
      obtain ⟨y, _, h⟩ := h
      rw [bind_eq_ok] at h
      obtain ⟨bs, _, h⟩ := h
      split at h
      · rw [bind_eq_ok] at h
        obtain ⟨pool, _, h⟩ := h
        exact (ih i _ w1 h).trans rfl
      · rw [bind_eq_ok] at h
        obtain ⟨w2, hw2, h⟩ := h
        rw [ih (i + 1) w2 w1 h]
        exact forRange_preserves (fun s => s.animTimeElapsed = w.animTimeElapsed) (bulletVsEnemy i) _
          (fun k s s1 hs hb => (bulletVsEnemy_anim i k s s1 hb).trans hs)
          { w with game := { w.game with bullets := bs } } w2 rfl hw2
    · cases h; rfl

theorem enemyBulletStep_anim (now : Int) (i : Nat) (w w1 : World)
    (h : enemyBulletStep now i w = Except.ok w1) : w1.animTimeElapsed = w.animTimeElapsed := by
  unfold enemyBulletStep at h
  rw [bind_eq_ok] at h
  obtain ⟨b, _, h⟩ := h
  rw [bind_eq_ok] at h
  obtain ⟨y, _, h⟩ := h
  rw [bind_eq_ok] at h
  obtain ⟨bs, _, h⟩ := h
  split at h
  · rw [bind_eq_ok] at h
    obtain ⟨pool, _, h⟩ := h
    rw [pure_eq_ok] at h; subst h; rfl
  · split at h
    · split at h
      · rw [bind_eq_ok] at h
        obtain ⟨dmg, _, h⟩ := h
        rw [bind_eq_ok] at h
        obtain ⟨pool, _, h⟩ := h
        rw [pure_eq_ok] at h; subst h; rfl
      · rw [pure_eq_ok] at h; subst h; rfl
    · rw [pure_eq_ok] at h; subst h; rfl

theorem enemyBulletLoop_anim (now : Int) : ∀ (fuel i : Nat) (w w1 : World),
    enemyBulletLoop now fuel i w = Except.ok w1 → w1.animTimeElapsed = w.animTimeElapsed := by
  intro fuel
  induction fuel with
  | zero =>
    intro i w w1 h
    unfold enemyBulletLoop at h
    split at h
    · cases h
    · cases h; rfl
  | succ fuel ih =>
    intro i w w1 h
    unfold enemyBulletLoop at h
    split at h
    · rw [bind_eq_ok] at h
      obtain ⟨w2, hw2, h⟩ := h
      rw [ih (i + 1) w2 w1 h, enemyBulletStep_anim now i w w2 hw2]
    · cases h; rfl

theorem enemyFire_anim (i : Nat) (w w1 : World) (h : enemyFire i w = Except.ok w1) :
    w1.animTimeElapsed = w.animTimeElapsed := by
  unfold enemyFire at h
  rw [bind_eq_ok] at h
  obtain ⟨e, _, h⟩ := h
  split at h
  · rw [pure_eq_ok] at h; subst h; rfl
  · rw [bind_eq_ok] at h
    obtain ⟨sprite, _, h⟩ := h
    rw [bind_eq_ok] at h
    obtain ⟨cd, _, h⟩ := h
    split at h
    · rw [bind_eq_ok] at h
      obtain ⟨clear, _, h⟩ := h
      split at h
      · unfold spawnEnemyBullet at h
        rw [bind_eq_ok] at h
        obtain ⟨c, _, h⟩ := h
        rw [bind_eq_ok] at h
        obtain ⟨bs, _, h⟩ := h
        rw [bind_eq_ok] at h
        obtain ⟨cds, hcds, h⟩ := h
        rw [pure_eq_ok] at h; subst h
        rfl
      · rw [pure_eq_ok] at h; subst h; rfl
    · rw [pure_eq_ok] at h; subst h; rfl

theorem enemyFireControl_anim (w w1 : World) (h : enemyFireControl w = Except.ok w1) :
    w1.animTimeElapsed = w.animTimeElapsed :=
  forRange_preserves (fun s => s.animTimeElapsed = w.animTimeElapsed) enemyFire _
    (fun k s s1 hs hb => (enemyFire_anim k s s1 hb).trans hs) _ _ rfl h

theorem waveController_fixed (now : Int) (w w1 : World)
    (h : waveController now w = Except.ok w1) :
    fixedPart w1 = fixedPart w ∧ w1.animTimeElapsed = w.animTimeElapsed := by
  unfold waveController at h
  split at h
  · rw [bind_eq_ok] at h
    obtain ⟨c, _, h⟩ := h
    rw [bind_eq_ok] at h
    obtain ⟨ht, _, h⟩ := h
    rw [bind_eq_ok] at h
    obtain ⟨wd, _, h⟩ := h
    split at h
    · rw [pure_eq_ok] at h; subst h; exact ⟨rfl, rfl⟩
    · rw [pure_eq_ok] at h; subst h; exact ⟨rfl, rfl⟩
  · split at h
    · unfold respawnWave at h
      rw [bind_eq_ok] at h
      obtain ⟨wd, _, h⟩ := h
      rw [bind_eq_ok] at h
      obtain ⟨ht, _, h⟩ := h
      rw [bind_eq_ok] at h
      obtain ⟨es, _, h⟩ := h
      rw [pure_eq_ok] at h; subst h; exact ⟨rfl, rfl⟩
    · rw [pure_eq_ok] at h; subst h; exact ⟨rfl, rfl⟩

theorem advanceAnimations_anim (w w1 : World) (h : advanceAnimations w = Except.ok w1)
    (ha : AnimOK w.animTimeElapsed) : AnimOK w1.animTimeElapsed := by
  unfold advanceAnimations at h
  rw [bind_eq_ok] at h
  obtain ⟨ts, hts, h⟩ := h
  rw [pure_eq_ok] at h; subst h
  refine forRange_preserves AnimOK _ 3 ?_ _ ts ha hts
  intro k s s1 hs hk
  rw [bind_eq_ok] at hk
  obtain ⟨t, ht, hk⟩ := hk
  rw [setIdx_eq_ok] at hk
  obtain ⟨_, rfl⟩ := hk
  obtain ⟨h1, h2⟩ := hs
  refine ⟨by rw [List.length_set]; exact h1, ?_⟩
  intro a ha2
  rcases mem_set_cases _ _ _ _ ha2 with h3 | h3
  · exact h2 a h3
  · subst h3
    have h4 : t < 20 := h2 t (idx_ok_mem _ _ _ ht)
    show (if add64 t 1 = frameTime * numFrames then 0 else add64 t 1) < 20
    have h5 : frameTime * numFrames = 20 := rfl
    rw [h5]
    unfold add64 SIZE
    split <;> omega

theorem inGameTick_fixed (clk : Clock) (w w1 : World) (ha : AnimOK w.animTimeElapsed)
    (h : inGameTick clk w = Except.ok w1) :
    (w1.gameState, w1.gameRunning, w1.titleDelayTimer, w1.playerMoveDirection, w1.game.gameWidth,
        w1.game.gameHeight, w1.game.player.y) = fixedPart w
      ∧ AnimOK w1.animTimeElapsed := by
  unfold inGameTick at h
  rw [bind_eq_ok] at h
  obtain ⟨a1, e1, h⟩ := h
  rw [bind_eq_ok] at h
  obtain ⟨a2, e2, h⟩ := h
  rw [bind_eq_ok] at h
  obtain ⟨a3, e3, h⟩ := h
  rw [bind_eq_ok] at h
  obtain ⟨a4, e4, h⟩ := h
  rw [bind_eq_ok] at h
  obtain ⟨a5, e5, h⟩ := h
  rw [bind_eq_ok] at h
  obtain ⟨a6, e6, h⟩ := h
  rw [bind_eq_ok] at h
  obtain ⟨a7, e7, h⟩ := h
  rw [bind_eq_ok] at h
  obtain ⟨a8, e8, h⟩ := h
  rw [bind_eq_ok] at h
  obtain ⟨a9, e9, h⟩ := h
  rw [pure_eq_ok] at h; subst h
  constructor
  · show fixedPart a9 = fixedPart w
    rw [enemyFireControl_fixed a8 a9 e9, firePhase_fixed _ a8 e8, movePlayer_fixed,
      enemyBulletLoop_fixed _ _ _ _ a7 e7, playerBulletLoop_fixed _ _ _ a6 e6,
      updateDeathFrames_fixed _ a5 e5, advanceAnimations_fixed _ a4 e4, blinkPlayer_fixed,
      renderEnemies_fixed _ a3 e3, updateCooldowns_fixed _ a2 e2,
      (waveController_fixed _ _ a1 e1).1]
  · show AnimOK a9.animTimeElapsed
    rw [enemyFireControl_anim a8 a9 e9, firePhase_anim _ a8 e8, movePlayer_anim,
      enemyBulletLoop_anim _ _ _ _ a7 e7, playerBulletLoop_anim _ _ _ a6 e6,
      updateDeathFrames_anim _ a5 e5]
    refine advanceAnimations_anim _ a4 e4 ?_
    rw [blinkPlayer_anim, renderEnemies_anim _ a3 e3, updateCooldowns_anim _ a2 e2,
      (waveController_fixed _ _ a1 e1).2]
    exact ha

/-- In every reachable state the game size is 800 × 800, the player's vertical
position is 600 and the three animation clocks are below 20. -/
theorem reachable_fixed (w : World) (h : Reachable w) :
    w.game.gameWidth = 800 ∧ w.game.gameHeight = 800 ∧ w.game.player.y = 600
      ∧ AnimOK w.animTimeElapsed := by
  induction h with
  | init bullets enemyBullets w hb he h =>
    unfold initialWorld at h
    rw [bind_eq_ok] at h
    obtain ⟨wd, _, h⟩ := h
    rw [bind_eq_ok] at h
    obtain ⟨ht, _, h⟩ := h
    rw [bind_eq_ok] at h
    obtain ⟨es, _, h⟩ := h
    rw [pure_eq_ok] at h; subst h
    have h0 : ∀ t ∈ [0, 0, 0], t < frameTime * numFrames := by decide
    exact ⟨rfl, rfl, rfl, rfl, h0⟩
  | frame clk w w1 hw hr h ih =>
    unfold frame at h
    split at h
    · split at h <;> (rw [pure_eq_ok] at h; subst h; exact ih)
    · split at h
      · rw [pure_eq_ok] at h; subst h; exact ih
      · obtain ⟨f1, f2⟩ := inGameTick_fixed clk w w1 ih.2.2.2 h
        unfold fixedPart at f1
        simp only [Prod.mk.injEq] at f1
        obtain ⟨_, _, _, _, g1, g2, g3⟩ := f1
        exact ⟨g1.trans ih.1, g2.trans ih.2.1, g3.trans ih.2.2.1, f2⟩
    · rw [pure_eq_ok] at h; subst h; exact ih
  | key k a now w hw ih =>
    have hg := inputCallback_game k a now w
    have ha : (inputCallback k a now w).animTimeElapsed = w.animTimeElapsed := by
      unfold inputCallback
      cases w.gameState <;> cases k <;> simp only [] <;> (repeat (split <;> try rfl))
    rw [hg, ha]; exact ih

theorem currentSprite_ok (ts : List Nat) (t : EnemyType) (ha : AnimOK ts)
    (ht : t ≠ enemyDead) :
    ∃ sprite, currentSprite ts t = Except.ok sprite ∧ sprite.h = 8
      ∧ (sprite.w = 8 ∨ sprite.w = 11 ∨ sprite.w = 12) := by
  obtain ⟨hlen, hall⟩ := ha
  have h20 : frameTime * numFrames = 20 := rfl
  rw [h20] at hall
  rcases ts with _ | ⟨a, _ | ⟨b, _ | ⟨c, _ | ⟨d, r⟩⟩⟩⟩ <;> simp at hlen
  have ha : a < 20 := hall a (by simp)
  have hb : b < 20 := hall b (by simp)
  have hc : c < 20 := hall c (by simp)
  have hda : a / 10 = 0 ∨ a / 10 = 1 := by omega
  have hdb : b / 10 = 0 ∨ b / 10 = 1 := by omega
  have hdc : c / 10 = 0 ∨ c / 10 = 1 := by omega
  cases t with
  | enemyDead => exact absurd rfl ht
  | enemyTypeA =>
    rcases hda with h | h <;>
      simp [currentSprite, EnemyType.toNat, idx, frameTime, numFrames, enemySprites, h]
  | enemyTypeB =>
    rcases hdb with h | h <;>
      simp [currentSprite, EnemyType.toNat, idx, frameTime, numFrames, enemySprites, h]
  | enemyTypeC =>
    rcases hdc with h | h <;>
      simp [currentSprite, EnemyType.toNat, idx, frameTime, numFrames, enemySprites, h]

/-- In a reachable state whose respawn timer is idle and whose enemies are all
dead, the wave controller starts the timer: the side conditions of
`waveController_start` hold in every reachable state. -/
theorem waveController_start_reachable (now : Int) (w : World) (h : Reachable w)
    (hrun : w.enemyRespawnTimer.isRunning = false)
    (hall : ∀ e ∈ w.game.enemies, e.enemyType = enemyDead) :
    ∃ w1, waveController now w = Except.ok w1
      ∧ w1.enemyRespawnTimer = { startTime := now, isRunning := true }
      ∧ w1.game.level = min (w.game.level + 1) 4 := by
  obtain ⟨s1, s2, _, _, s5⟩ := reachable_shape w h
  exact waveController_start now w hrun s1 s2 (s5 hrun) hall

/-! ## The player's horizontal position is written by the movement phase only -/

theorem updateCooldowns_px (w w1 : World) (h : updateCooldowns w = Except.ok w1) :
    playerX w1 = playerX w := by
  unfold updateCooldowns at h
  rw [bind_eq_ok] at h
  obtain ⟨cds, hc, h⟩ := h
  rw [pure_eq_ok] at h; subst h
  rfl

theorem renderEnemies_px (w w1 : World) (h : renderEnemies w = Except.ok w1) :
    playerX w1 = playerX w := by
  unfold renderEnemies at h
  rw [bind_eq_ok] at h
  obtain ⟨es, hc, h⟩ := h
  rw [pure_eq_ok] at h; subst h
  rfl

theorem advanceAnimations_px (w w1 : World) (h : advanceAnimations w = Except.ok w1) :
    playerX w1 = playerX w := by
  unfold advanceAnimations at h
  rw [bind_eq_ok] at h
  obtain ⟨ts, _, h⟩ := h
  rw [pure_eq_ok] at h; subst h
  rfl

theorem updateDeathFrames_px (w w1 : World) (h : updateDeathFrames w = Except.ok w1) :
    playerX w1 = playerX w := by
  unfold updateDeathFrames at h
  rw [bind_eq_ok] at h
  obtain ⟨dfc, hc, h⟩ := h
  rw [pure_eq_ok] at h; subst h
  rfl

theorem blinkPlayer_px (w : World) : playerX (blinkPlayer w) = playerX w := by
  unfold blinkPlayer
  split <;> rfl

theorem firePhase_px (w w1 : World) (h : firePhase w = Except.ok w1) :
    playerX w1 = playerX w := by
  unfold firePhase at h
  split at h
  · rw [bind_eq_ok] at h
    obtain ⟨b, _, h⟩ := h
    rw [bind_eq_ok] at h
    obtain ⟨bs, _, h⟩ := h
    rw [pure_eq_ok] at h; subst h
    rfl
  · rw [pure_eq_ok] at h; subst h; rfl

theorem bulletVsEnemy_px (i j : Nat) (w w1 : World)
    (h : bulletVsEnemy i j w = Except.ok w1) : playerX w1 = playerX w := by
  unfold bulletVsEnemy at h
  rw [bind_eq_ok] at h
  obtain ⟨enemy, _, h⟩ := h
  split at h
  · rw [pure_eq_ok] at h; subst h; rfl
  · rw [bind_eq_ok] at h
    obtain ⟨sprite, _, h⟩ := h
    rw [bind_eq_ok] at h
    obtain ⟨b, _, h⟩ := h
    split at h
    · rw [bind_eq_ok] at h
      obtain ⟨hit, _, h⟩ := h
      rw [bind_eq_ok] at h
      obtain ⟨es, hes, h⟩ := h
      rw [bind_eq_ok] at h
      obtain ⟨pool, _, h⟩ := h
      rw [pure_eq_ok] at h; subst h
      rfl
    · rw [pure_eq_ok] at h; subst h; rfl

theorem playerBulletLoop_px : ∀ (fuel i : Nat) (w w1 : World),
    playerBulletLoop fuel i w = Except.ok w1 → playerX w1 = playerX w := by
  intro fuel
  induction fuel with
  | zero =>
    intro i w w1 h
    unfold playerBulletLoop at h
    split at h
    · cases h
    · cases h; rfl
  | succ fuel ih =>
    intro i w w1 h
    unfold playerBulletLoop at h
    split at h
    · rw [bind_eq_ok] at h
      obtain ⟨b, _, h⟩ := h
      rw [bind_eq_ok] at h
      obtain ⟨y, _, h⟩ := h
      rw [bind_eq_ok] at h
      obtain ⟨bs, _, h⟩ := h
      split at h
      · rw [bind_eq_ok] at h
        obtain ⟨pool, _, h⟩ := h
        exact (ih i _ w1 h).trans rfl
      · rw [bind_eq_ok] at h
        obtain ⟨w2, hw2, h⟩ := h
        rw [ih (i + 1) w2 w1 h]
        exact forRange_preserves (fun s => playerX s = playerX w) (bulletVsEnemy i) _
          (fun k s s1 hs hb => (bulletVsEnemy_px i k s s1 hb).trans hs)
          { w with game := { w.game with bullets := bs } } w2 rfl hw2
    · cases h; rfl

theorem enemyBulletStep_px (now : Int) (i : Nat) (w w1 : World)
    (h : enemyBulletStep now i w = Except.ok w1) : playerX w1 = playerX w := by
  unfold enemyBulletStep at h
  rw [bind_eq_ok] at h
  obtain ⟨b, _, h⟩ := h
  rw [bind_eq_ok] at h
  obtain ⟨y, _, h⟩ := h
  rw [bind_eq_ok] at h
  obtain ⟨bs, _, h⟩ := h
  split at h
  · rw [bind_eq_ok] at h
    obtain ⟨pool, _, h⟩ := h
    rw [pure_eq_ok] at h; subst h; rfl
  · split at h
    · split at h
      · rw [bind_eq_ok] at h
        obtain ⟨dmg, _, h⟩ := h
        rw [bind_eq_ok] at h
        obtain ⟨pool, _, h⟩ := h
        rw [pure_eq_ok] at h; subst h; rfl
      · rw [pure_eq_ok] at h; subst h; rfl
    · rw [pure_eq_ok] at h; subst h; rfl

theorem enemyBulletLoop_px (now : Int) : ∀ (fuel i : Nat) (w w1 : World),
    enemyBulletLoop now fuel i w = Except.ok w1 → playerX w1 = playerX w := by
  intro fuel
  induction fuel with
  | zero =>
    intro i w w1 h
    unfold enemyBulletLoop at h
    split at h
    · cases h
    · cases h; rfl
  | succ fuel ih =>
    intro i w w1 h
    unfold enemyBulletLoop at h
    split at h
    · rw [bind_eq_ok] at h
      obtain ⟨w2, hw2, h⟩ := h
      rw [ih (i + 1) w2 w1 h, enemyBulletStep_px now i w w2 hw2]
    · cases h; rfl

theorem enemyFire_px (i : Nat) (w w1 : World) (h : enemyFire i w = Except.ok w1) :
    playerX w1 = playerX w := by
  unfold enemyFire at h
  rw [bind_eq_ok] at h
  obtain ⟨e, _, h⟩ := h
  split at h
  · rw [pure_eq_ok] at h; subst h; rfl
  · rw [bind_eq_ok] at h
    obtain ⟨sprite, _, h⟩ := h
    rw [bind_eq_ok] at h
    obtain ⟨cd, _, h⟩ := h
    split at h
    · rw [bind_eq_ok] at h
      obtain ⟨clear, _, h⟩ := h
      split at h
      · unfold spawnEnemyBullet at h
        rw [bind_eq_ok] at h
        obtain ⟨c, _, h⟩ := h
        rw [bind_eq_ok] at h
        obtain ⟨bs, _, h⟩ := h
        rw [bind_eq_ok] at h
        obtain ⟨cds, hcds, h⟩ := h
        rw [pure_eq_ok] at h; subst h
        rfl
      · rw [pure_eq_ok] at h; subst h; rfl
    · rw [pure_eq_ok] at h; subst h; rfl

theorem enemyFireControl_px (w w1 : World) (h : enemyFireControl w = Except.ok w1) :
    playerX w1 = playerX w :=
  forRange_preserves (fun s => playerX s = playerX w) enemyFire _
    (fun k s s1 hs hb => (enemyFire_px k s s1 hb).trans hs) _ _ rfl h

theorem waveController_px (now : Int) (w w1 : World)
    (h : waveController now w = Except.ok w1) :
    playerX w1 = playerX w := by
  unfold waveController at h
  split at h
  · rw [bind_eq_ok] at h
    obtain ⟨c, _, h⟩ := h
    rw [bind_eq_ok] at h
    obtain ⟨ht, _, h⟩ := h
    rw [bind_eq_ok] at h
    obtain ⟨wd, _, h⟩ := h
    split at h
    · rw [pure_eq_ok] at h; subst h; rfl
    · rw [pure_eq_ok] at h; subst h; rfl
  · split at h
    · unfold respawnWave at h
      rw [bind_eq_ok] at h
      obtain ⟨wd, _, h⟩ := h
      rw [bind_eq_ok] at h
      obtain ⟨ht, _, h⟩ := h
      rw [bind_eq_ok] at h
      obtain ⟨es, _, h⟩ := h
      rw [pure_eq_ok] at h; subst h; rfl
    · rw [pure_eq_ok] at h; subst h; rfl

theorem movePlayer_px (w : World) (h : w.playerMoveDirection = 0) :
    playerX (movePlayer w) = playerX w := by
  unfold movePlayer
  rw [if_neg (fun hc => hc.1 h)]

theorem inGameTick_fixedPart (clk : Clock) (w w1 : World)
    (h : inGameTick clk w = Except.ok w1) : fixedPart w1 = fixedPart w := by
  unfold inGameTick at h
  rw [bind_eq_ok] at h
  obtain ⟨a1, e1, h⟩ := h
  rw [bind_eq_ok] at h
  obtain ⟨a2, e2, h⟩ := h
  rw [bind_eq_ok] at h
  obtain ⟨a3, e3, h⟩ := h
  rw [bind_eq_ok] at h
  obtain ⟨a4, e4, h⟩ := h
  rw [bind_eq_ok] at h
  obtain ⟨a5, e5, h⟩ := h
  rw [bind_eq_ok] at h
  obtain ⟨a6, e6, h⟩ := h
  rw [bind_eq_ok] at h
  obtain ⟨a7, e7, h⟩ := h
  rw [bind_eq_ok] at h
  obtain ⟨a8, e8, h⟩ := h
  rw [bind_eq_ok] at h
  obtain ⟨a9, e9, h⟩ := h
  rw [pure_eq_ok] at h; subst h
  show fixedPart a9 = fixedPart w
  rw [enemyFireControl_fixed a8 a9 e9, firePhase_fixed _ a8 e8, movePlayer_fixed,
    enemyBulletLoop_fixed _ _ _ _ a7 e7, playerBulletLoop_fixed _ _ _ a6 e6,
    updateDeathFrames_fixed _ a5 e5, advanceAnimations_fixed _ a4 e4, blinkPlayer_fixed,
    renderEnemies_fixed _ a3 e3, updateCooldowns_fixed _ a2 e2,
    (waveController_fixed _ _ a1 e1).1]

/-- A completed tick that starts with move direction 0 leaves `player.x` as it was. -/
theorem inGameTick_px (clk : Clock) (w w1 : World) (h0 : w.playerMoveDirection = 0)
    (h : inGameTick clk w = Except.ok w1) : playerX w1 = playerX w := by
  unfold inGameTick at h
  rw [bind_eq_ok] at h
  obtain ⟨a1, e1, h⟩ := h
  rw [bind_eq_ok] at h
  obtain ⟨a2, e2, h⟩ := h
  rw [bind_eq_ok] at h
  obtain ⟨a3, e3, h⟩ := h
  rw [bind_eq_ok] at h
  obtain ⟨a4, e4, h⟩ := h
  rw [bind_eq_ok] at h
  obtain ⟨a5, e5, h⟩ := h
  rw [bind_eq_ok] at h
  obtain ⟨a6, e6, h⟩ := h
  rw [bind_eq_ok] at h
  obtain ⟨a7, e7, h⟩ := h
  rw [bind_eq_ok] at h
  obtain ⟨a8, e8, h⟩ := h
  rw [bind_eq_ok] at h
  obtain ⟨a9, e9, h⟩ := h
  rw [pure_eq_ok] at h; subst h
  have hf : fixedPart a7 = fixedPart w := by
    rw [enemyBulletLoop_fixed _ _ _ _ a7 e7, playerBulletLoop_fixed _ _ _ a6 e6,
      updateDeathFrames_fixed _ a5 e5, advanceAnimations_fixed _ a4 e4, blinkPlayer_fixed,
      renderEnemies_fixed _ a3 e3, updateCooldowns_fixed _ a2 e2,
      (waveController_fixed _ _ a1 e1).1]
  have hd : a7.playerMoveDirection = 0 := by
    have h1 : (fixedPart a7).2.2.2.1 = (fixedPart w).2.2.2.1 := by rw [hf]
    exact h1.trans h0
  show playerX a9 = playerX w
  rw [enemyFireControl_px a8 a9 e9, firePhase_px _ a8 e8, movePlayer_px a7 hd,
    enemyBulletLoop_px _ _ _ _ a7 e7, playerBulletLoop_px _ _ _ a6 e6,
    updateDeathFrames_px _ a5 e5, advanceAnimations_px _ a4 e4, blinkPlayer_px,
    renderEnemies_px _ a3 e3, updateCooldowns_px _ a2 e2, waveController_px _ _ a1 e1]

/-! ## Move direction under alternating arrow-key events -/

theorem inputCallback_gameState (k : Key) (a : Action) (now : Int) (w : World) :
    (inputCallback k a now w).gameState = w.gameState := by
  unfold inputCallback
  cases hg : w.gameState <;> cases k <;> simp only [] <;>
    (repeat (split <;> try first | rfl | exact hg)) <;> first | rfl | exact hg

theorem step_direction (h h1 : Held) (k : Key) (a : Action) (now : Int) (w : World)
    (hg : w.gameState = GameState.inGame) (hd : w.playerMoveDirection = heldDirection h)
    (hs : h.step k a = some h1) :
    (inputCallback k a now w).playerMoveDirection = heldDirection h1 := by
  obtain ⟨l, r⟩ := h
  unfold inputCallback
  rw [hg]
  unfold heldDirection at hd
  cases k <;> cases a <;> cases l <;> cases r <;> simp [Held.step] at hs <;> subst hs <;>
    simp [heldDirection] at hd ⊢ <;> omega

theorem arrowRun_direction : ∀ (evs : List ArrowInput) (h h1 : Held) (w w1 : World),
    w.gameState = GameState.inGame → w.playerMoveDirection = heldDirection h →
    arrowRun evs h w = some (h1, w1) →
    w1.gameState = GameState.inGame ∧ w1.playerMoveDirection = heldDirection h1 := by
  intro evs
  induction evs with
  | nil =>
    intro h h1 w w1 hg hd hr
    unfold arrowRun at hr
    cases hr
    exact ⟨hg, hd⟩
  | cons ev rest ih =>
    intro h h1 w w1 hg hd hr
    cases ev with
    | key k a now =>
      unfold arrowRun at hr
      cases hs : h.step k a with
      | none => rw [hs] at hr; cases hr
      | some h2 =>
        rw [hs] at hr
        exact ih h2 h1 _ w1 ((inputCallback_gameState k a now w).trans hg)
          (step_direction h h2 k a now w hg hd hs) hr
    | tick clk =>
      unfold arrowRun at hr
      cases ht : inGameTick clk w with
      | error e => rw [ht] at hr; cases hr
      | ok w2 =>
        rw [ht] at hr
        have hf := inGameTick_fixedPart clk w w2 ht
        unfold fixedPart at hf
        simp only [Prod.mk.injEq] at hf
        exact ih h h1 w2 w1 (hf.1.trans hg) (hf.2.2.2.1.trans hd) hr

/-- C11: for every sequence of Left/Right key events handled by `inputCallback` in
the in-game state (with any completed in-game ticks in between) that starts with
neither key down and `playerMoveDirection = 0` and alternates press and release per
key, `playerMoveDirection` equals (Right down ? 1 : 0) - (Left down ? 1 : 0); it
lies in {-1, 0, 1}, it is 0 when both keys are down, and a completed tick that
starts with `playerMoveDirection = 0` leaves `player.x` unchanged. -/
theorem arrow_keys_direction (evs : List ArrowInput) (w w1 : World) (h1 : Held)
    (hg : w.gameState = GameState.inGame) (h0 : w.playerMoveDirection = 0)
    (hrun : arrowRun evs ⟨false, false⟩ w = some (h1, w1)) :
    w1.playerMoveDirection = heldDirection h1
      ∧ (-1 ≤ w1.playerMoveDirection ∧ w1.playerMoveDirection ≤ 1)
      ∧ (h1.left = true → h1.right = true → w1.playerMoveDirection = 0)
      ∧ (w1.playerMoveDirection = 0 → ∀ (clk : Clock) (w2 : World),
          inGameTick clk w1 = Except.ok w2 → w2.game.player.x = w1.game.player.x) := by
  have hd := (arrowRun_direction evs ⟨false, false⟩ h1 w w1 hg (h0.trans rfl) hrun).2
  refine ⟨hd, ?_, ?_, fun hz clk w2 ht => inGameTick_px clk w1 w2 hz ht⟩
  · rw [hd]
    obtain ⟨l, r⟩ := h1
    cases l <;> cases r <;> decide
  · intro hl hr
    rw [hd]
    unfold heldDirection
    rw [if_pos hl, if_pos hr]
    rfl

theorem arrow_keys_direction_witness :
    playWorld.gameState = GameState.inGame ∧ playWorld.playerMoveDirection = 0
      ∧ arrowRun [ArrowInput.key Key.left Action.press 0, ArrowInput.key Key.right Action.press 0]
          ⟨false, false⟩ playWorld = some (⟨true, true⟩, bothHeldWorld)
      ∧ bothHeldWorld.playerMoveDirection = heldDirection ⟨true, true⟩
      ∧ (-1 ≤ bothHeldWorld.playerMoveDirection ∧ bothHeldWorld.playerMoveDirection ≤ 1)
      ∧ ((⟨true, true⟩ : Held).left = true → (⟨true, true⟩ : Held).right = true →
          bothHeldWorld.playerMoveDirection = 0)
      ∧ (bothHeldWorld.playerMoveDirection = 0 → ∀ (clk : Clock) (w2 : World),
          inGameTick clk bothHeldWorld = Except.ok w2 →
          w2.game.player.x = bothHeldWorld.game.player.x) :=
  ⟨rfl, rfl, rfl,
    arrow_keys_direction
      [ArrowInput.key Key.left Action.press 0, ArrowInput.key Key.right Action.press 0]
      playWorld bothHeldWorld ⟨true, true⟩ rfl rfl rfl⟩

/-! ## The inset of the player's position -/

/-- C12 (counterexample): with Left held, the movement phase takes the player from
the spawn position 384 to 64 in 64 ticks, then to 59, which is left of the
60-pixel inset, and only the tick after that back to 60; with Right held it takes
the player to 694 in 62 ticks and then to 699, where `x + 4 * playerSprite.w` is
743, right of `gameWidth - 60` = 740, and only the tick after that back to 696.
A whole in-game tick from x = 64 (resp. 694) ends with x = 59 (resp. 699). -/
theorem movePlayer_leaves_inset :
    (movePlayer^[64] leftHeldWorld).game.player.x = 64
      ∧ (movePlayer^[65] leftHeldWorld).game.player.x = 59
      ∧ (movePlayer^[66] leftHeldWorld).game.player.x = 60
      ∧ (movePlayer^[62] rightHeldWorld).game.player.x = 694
      ∧ (movePlayer^[63] rightHeldWorld).game.player.x = 699
      ∧ 699 + 4 * playerSprite.w = 743
      ∧ (movePlayer^[64] rightHeldWorld).game.player.x = 696
      ∧ (inGameTick clockAt3s leftEdgeWorld).map playerX = Except.ok 59
      ∧ (inGameTick clockAt3s rightEdgeWorld).map playerX = Except.ok 699 := by
  set_option maxRecDepth 100000 in
  refine ⟨by decide, by decide, by decide, by decide, by decide, by decide, by decide, ?_, ?_⟩
  · rfl
  · rfl

/-! ## Transitions of the game state -/

theorem hasElapsed_iff (t : Timer) (duration now : Int) :
    t.hasElapsed duration now = true
      ↔ t.isRunning = true ∧ duration ≤ Int.tdiv (now - t.startTime) ticksPerSecond := by
  unfold Timer.hasElapsed
  cases hr : t.isRunning <;> simp

theorem inputCallback_over (k : Key) (a : Action) (now : Int) (w : World)
    (hg : w.gameState = GameState.gameOver) :
    (inputCallback k a now w).game = w.game
      ∧ (inputCallback k a now w).playerScore = w.playerScore := by
  unfold inputCallback
  rw [hg]
  cases k <;> simp only [] <;> (repeat (split <;> try exact ⟨rfl, rfl⟩)) <;>
    first | exact ⟨rfl, rfl⟩ | exact ⟨trivial, trivial⟩

/-- C13: the game state only makes the transitions title screen to in-game (exactly
when the title timer is running and at least 2 whole seconds have elapsed on it at
the frame's clock reading) and in-game to game-over (exactly when the player-death
timer is running and at least 2 whole seconds have elapsed on it); a key event
never changes the game state; in the game-over state a frame completes and changes
nothing, and a key event leaves the game engine (player, enemies, both bullet
pools) and the score unchanged. -/
theorem game_state_transitions (clk : Clock) (k : Key) (a : Action) (now : Int)
    (w w1 : World) (h : frame clk w = Except.ok w1) :
    (w.gameState = GameState.titleScreen →
        w1 = { w with gameState :=
                if w.titleDelayTimer.isRunning = true
                    ∧ 2 ≤ Int.tdiv (clk.title - w.titleDelayTimer.startTime) ticksPerSecond
                then GameState.inGame else GameState.titleScreen })
      ∧ (w.gameState = GameState.inGame →
          if w.playerDeathTimer.isRunning = true
              ∧ 2 ≤ Int.tdiv (clk.deathCheck - w.playerDeathTimer.startTime) ticksPerSecond
          then w1 = { w with gameState := GameState.gameOver }
          else w1.gameState = GameState.inGame)
      ∧ (w.gameState = GameState.gameOver → w1 = w ∧ frame clk w = Except.ok w)
      ∧ (inputCallback k a now w).gameState = w.gameState
      ∧ (w.gameState = GameState.gameOver →
          (inputCallback k a now w).gameState = GameState.gameOver
            ∧ (inputCallback k a now w).game = w.game
            ∧ (inputCallback k a now w).playerScore = w.playerScore) := by
  refine ⟨?_, ?_, ?_, inputCallback_gameState k a now w, ?_⟩
  · intro hg
    unfold frame at h
    rw [hg] at h
    simp only [] at h
    by_cases he : w.titleDelayTimer.hasElapsed 2 clk.title = true
    · rw [if_pos he, pure_eq_ok] at h
      rw [if_pos ((hasElapsed_iff _ _ _).1 he)]
      exact h.symm
    · rw [if_neg he, pure_eq_ok] at h
      rw [if_neg (fun hc => he ((hasElapsed_iff _ _ _).2 hc))]
      subst h
      cases w
      cases hg
      rfl
  · intro hg
    unfold frame at h
    rw [hg] at h
    simp only [] at h
    by_cases he : w.playerDeathTimer.hasElapsed 2 clk.deathCheck = true
    · rw [if_pos he, pure_eq_ok] at h
      rw [if_pos ((hasElapsed_iff _ _ _).1 he)]
      exact h.symm
    · rw [if_neg he] at h
      rw [if_neg (fun hc => he ((hasElapsed_iff _ _ _).2 hc))]
      have hf := inGameTick_fixedPart clk w w1 h
      unfold fixedPart at hf
      simp only [Prod.mk.injEq] at hf
      exact hf.1.trans hg
  · intro hg
    have hf : frame clk w = Except.ok w := by
      unfold frame
      rw [hg]
      rfl
    rw [hf] at h
    cases h
    exact ⟨rfl, hf⟩
  · intro hg
    exact ⟨(inputCallback_gameState k a now w).trans hg, inputCallback_over k a now w hg⟩

theorem game_state_transitions_witness :
    frame clockAt3s overWorld = Except.ok overWorld
      ∧ (overWorld.gameState = GameState.gameOver →
          overWorld = overWorld ∧ frame clockAt3s overWorld = Except.ok overWorld)
      ∧ (inputCallback Key.enter Action.press 0 overWorld).gameState = overWorld.gameState
      ∧ (overWorld.gameState = GameState.gameOver →
          (inputCallback Key.enter Action.press 0 overWorld).gameState = GameState.gameOver
            ∧ (inputCallback Key.enter Action.press 0 overWorld).game = overWorld.game
            ∧ (inputCallback Key.enter Action.press 0 overWorld).playerScore
                = overWorld.playerScore) :=
  ⟨rfl, (game_state_transitions clockAt3s Key.enter Action.press 0 overWorld overWorld rfl).2.2⟩

/-! ## Level and enemy count -/

theorem inGameTick_shape_eq (clk : Clock) (w w1 : World)
    (h : inGameTick clk w = Except.ok w1) :
    ∃ a1, waveController clk.wave w = Except.ok a1 ∧ shape w1 = shape a1 := by
  unfold inGameTick at h
  rw [bind_eq_ok] at h
  obtain ⟨a1, e1, h⟩ := h
  rw [bind_eq_ok] at h
  obtain ⟨a2, e2, h⟩ := h
  rw [bind_eq_ok] at h
  obtain ⟨a3, e3, h⟩ := h
  rw [bind_eq_ok] at h
  obtain ⟨a4, e4, h⟩ := h
  rw [bind_eq_ok] at h
  obtain ⟨a5, e5, h⟩ := h
  rw [bind_eq_ok] at h
  obtain ⟨a6, e6, h⟩ := h
  rw [bind_eq_ok] at h
  obtain ⟨a7, e7, h⟩ := h
  rw [bind_eq_ok] at h
  obtain ⟨a8, e8, h⟩ := h
  rw [bind_eq_ok] at h
  obtain ⟨a9, e9, h⟩ := h
  rw [pure_eq_ok] at h; subst h
  refine ⟨a1, e1, ?_⟩
  show shape a9 = shape a1
  rw [enemyFireControl_shape a8 a9 e9, firePhase_shape _ a8 e8, movePlayer_shape,
    enemyBulletLoop_shape _ _ _ _ a7 e7, playerBulletLoop_shape _ _ _ a6 e6,
    updateDeathFrames_shape _ a5 e5, advanceAnimations_shape _ a4 e4, blinkPlayer_shape,
    renderEnemies_shape _ a3 e3, updateCooldowns_shape _ a2 e2]

/-- What the wave controller does to the level: it stays, or it becomes
`min (level + 1) 4` while the enemy count stays and the timer starts. -/
theorem waveController_level (now : Int) (w w1 : World)
    (h : waveController now w = Except.ok w1) :
    w1.game.level = w.game.level
      ∨ (w.enemyRespawnTimer.isRunning = false ∧ w.game.level < 4
          ∧ w1.game.level = w.game.level + 1) := by
  unfold waveController at h
  split at h
  next hidle =>
    rw [bind_eq_ok] at h
    obtain ⟨c, _, h⟩ := h
    rw [bind_eq_ok] at h
    obtain ⟨ht, _, h⟩ := h
    rw [bind_eq_ok] at h
    obtain ⟨wd, _, h⟩ := h
    split at h
    · rw [pure_eq_ok] at h; subst h
      have h4 : enemyArrHeights.length - 1 = 4 := rfl
      show (if w.game.level < enemyArrHeights.length - 1 then add64 w.game.level 1
          else w.game.level) = w.game.level
        ∨ (w.enemyRespawnTimer.isRunning = false ∧ w.game.level < 4
          ∧ (if w.game.level < enemyArrHeights.length - 1 then add64 w.game.level 1
              else w.game.level) = w.game.level + 1)
      rw [h4]
      by_cases hl : w.game.level < 4
      · rw [if_pos hl]
        refine Or.inr ⟨hidle, hl, ?_⟩
        unfold add64 SIZE
        omega
      · rw [if_neg hl]
        exact Or.inl rfl
    · rw [pure_eq_ok] at h; subst h
      exact Or.inl rfl
  next =>
    split at h
    · unfold respawnWave at h
      rw [bind_eq_ok] at h
      obtain ⟨wd, _, h⟩ := h
      rw [bind_eq_ok] at h
      obtain ⟨ht, _, h⟩ := h
      rw [bind_eq_ok] at h
      obtain ⟨es, _, h⟩ := h
      rw [pure_eq_ok] at h; subst h
      exact Or.inl rfl
    · rw [pure_eq_ok] at h; subst h
      exact Or.inl rfl

theorem waveController_delay (now : Int) (w w1 : World) (hs : ShapeOK (shape w))
    (hd : DelayOK (shape w)) (h : waveController now w = Except.ok w1) :
    DelayOK (shape w1) := by
  obtain ⟨s1, s2, s3, s4, s5⟩ := hs
  unfold waveController at h
  split at h
  next hidle =>
    rw [bind_eq_ok] at h
    obtain ⟨c, _, h⟩ := h
    rw [bind_eq_ok] at h
    obtain ⟨ht, _, h⟩ := h
    rw [bind_eq_ok] at h
    obtain ⟨wd, _, h⟩ := h
    split at h
    · rw [pure_eq_ok] at h; subst h
      intro _
      refine ⟨w.game.level, s1, ?_, s5 hidle⟩
      have h4 : enemyArrHeights.length - 1 = 4 := rfl
      have h5 : w.game.level < 5 := s1
      show (if w.game.level < enemyArrHeights.length - 1 then add64 w.game.level 1
          else w.game.level) = min (w.game.level + 1) 4
      rw [h4]
      unfold add64 SIZE
      split <;> omega
    · rw [pure_eq_ok] at h; subst h
      exact hd
  next =>
    split at h
    · unfold respawnWave at h
      rw [bind_eq_ok] at h
      obtain ⟨wd, _, h⟩ := h
      rw [bind_eq_ok] at h
      obtain ⟨ht, _, h⟩ := h
      rw [bind_eq_ok] at h
      obtain ⟨es, _, h⟩ := h
      rw [pure_eq_ok] at h; subst h
      intro hr
      cases hr
    · rw [pure_eq_ok] at h; subst h
      exact hd

theorem frame_delay (clk : Clock) (w w1 : World) (hs : ShapeOK (shape w))
    (hd : DelayOK (shape w)) (h : frame clk w = Except.ok w1) : DelayOK (shape w1) := by
  unfold frame at h
  split at h
  · split at h <;> (rw [pure_eq_ok] at h; subst h; exact hd)
  · split at h
    · rw [pure_eq_ok] at h; subst h; exact hd
    · obtain ⟨a1, e1, he⟩ := inGameTick_shape_eq clk w w1 h
      rw [he]
      exact waveController_delay _ w a1 hs hd e1
  · rw [pure_eq_ok] at h; subst h; exact hd

theorem reachable_delay (w : World) (h : Reachable w) : DelayOK (shape w) := by
  induction h with
  | init bullets enemyBullets w hb he h =>
    unfold initialWorld at h
    rw [bind_eq_ok] at h
    obtain ⟨wd, _, h⟩ := h
    rw [bind_eq_ok] at h
    obtain ⟨ht, _, h⟩ := h
    rw [bind_eq_ok] at h
    obtain ⟨es, _, h⟩ := h
    rw [pure_eq_ok] at h; subst h
    intro hr
    cases hr
  | frame clk w w1 hw hr h ih => exact frame_delay clk w w1 (reachable_shape w hw) ih h
  | key k a now w hw ih => rw [inputCallback_shape]; exact ih

theorem frame_level (clk : Clock) (w w1 : World) (h : frame clk w = Except.ok w1) :
    w1.game.level = w.game.level ∨ (w.game.level < 4 ∧ w1.game.level = w.game.level + 1) := by
  unfold frame at h
  split at h
  · split at h <;> (rw [pure_eq_ok] at h; subst h; exact Or.inl rfl)
  · split at h
    · rw [pure_eq_ok] at h; subst h; exact Or.inl rfl
    · obtain ⟨a1, e1, he⟩ := inGameTick_shape_eq clk w w1 h
      have hl : w1.game.level = a1.game.level := congrArg (fun s => s.1) he
      rw [hl]
      rcases waveController_level _ w a1 e1 with h1 | ⟨_, h2, h3⟩
      · exact Or.inl h1
      · exact Or.inr ⟨h2, h3⟩
  · rw [pure_eq_ok] at h; subst h; exact Or.inl rfl

/-- C14 (counterexample): in the state of play `shotDownWorld` the level is 0 and
`numEnemies` is 9 = 3 × 3, and all nine enemies are dead; the next frame completes
in the in-game state with the respawn timer running, level 1 and `numEnemies`
still 9, while width × height of level 1 is 5 × 5 = 25. -/
theorem enemy_count_during_delay :
    waveSummary shotDownWorld = (GameState.inGame, false, 0, 9)
      ∧ waveWidth 0 * waveHeight 0 = 9
      ∧ (∀ e ∈ shotDownWorld.game.enemies, e.enemyType = enemyDead)
      ∧ (frame clockAt3s shotDownWorld).map waveSummary
          = Except.ok (GameState.inGame, true, 1, 9)
      ∧ waveWidth 1 * waveHeight 1 = 25 := by
  set_option maxRecDepth 100000 in
  refine ⟨rfl, rfl, by decide, ?_, rfl⟩
  rfl

/-- C14 (amended): in every reachable state `numEnemies` is the length of the enemy
array; it is width × height of the current level whenever the respawn timer is not
running, and while the timer is running (the respawn delay after a wave of level
`l0` was cleared) it is still width × height of `l0`, the level being already
`min (l0 + 1) 4`. -/
theorem enemy_count_of_level (w : World) (h : Reachable w) :
    w.game.enemies.length = w.game.numEnemies
      ∧ (w.enemyRespawnTimer.isRunning = false →
          w.game.numEnemies = waveWidth w.game.level * waveHeight w.game.level)
      ∧ (w.enemyRespawnTimer.isRunning = true →
          ∃ l0, l0 < 5 ∧ w.game.level = min (l0 + 1) 4
            ∧ w.game.numEnemies = waveWidth l0 * waveHeight l0) := by
  obtain ⟨_, s2, _, _, s5⟩ := reachable_shape w h
  exact ⟨s2, s5, reachable_delay w h⟩

theorem enemy_count_of_level_witness :
    Reachable tickedWorld
      ∧ tickedWorld.game.enemies.length = tickedWorld.game.numEnemies
      ∧ (tickedWorld.enemyRespawnTimer.isRunning = false →
          tickedWorld.game.numEnemies
            = waveWidth tickedWorld.game.level * waveHeight tickedWorld.game.level)
      ∧ (tickedWorld.enemyRespawnTimer.isRunning = true →
          ∃ l0, l0 < 5 ∧ tickedWorld.game.level = min (l0 + 1) 4
            ∧ tickedWorld.game.numEnemies = waveWidth l0 * waveHeight l0) :=
  ⟨ticked_reachable, enemy_count_of_level tickedWorld ticked_reachable⟩

/-- C15: in every reachable state the level index is at most 4, so the lookups
`enemyArrWidths[level]` and `enemyArrHeights[level]` are in range; a frame that
completes leaves the level where it was or raises it by one, never above 4, and in
particular leaves level 4 at 4; a key event does not change the level; and the
wave-controller step taken when every enemy is dead and the respawn timer is idle
completes with level `min (level + 1) 4`, which at level 4 is 4. -/
theorem level_in_range (clk : Clock) (k : Key) (a : Action) (now : Int) (w w1 : World)
    (hr : Reachable w) (h : frame clk w = Except.ok w1) :
    w.game.level ≤ 4
      ∧ idx enemyArrWidths w.game.level = Except.ok (waveWidth w.game.level)
      ∧ idx enemyArrHeights w.game.level = Except.ok (waveHeight w.game.level)
      ∧ w.game.level ≤ w1.game.level ∧ w1.game.level ≤ w.game.level + 1
      ∧ w1.game.level ≤ 4
      ∧ (w.game.level = 4 → w1.game.level = 4)
      ∧ (inputCallback k a now w).game.level = w.game.level
      ∧ (w.enemyRespawnTimer.isRunning = false →
          (∀ e ∈ w.game.enemies, e.enemyType = enemyDead) →
          ∃ w2, waveController clk.wave w = Except.ok w2
            ∧ w2.game.level = min (w.game.level + 1) 4
            ∧ (w.game.level = 4 → w2.game.level = 4)) := by
  have hl : w.game.level < 5 := (reachable_shape w hr).1
  have hf := frame_level clk w w1 h
  have hk : (inputCallback k a now w).game.level = w.game.level := by
    rw [inputCallback_game]
  refine ⟨by omega, idx_widths _ hl, idx_heights _ hl, by omega, by omega, by omega,
    by omega, hk, ?_⟩
  intro hidle hall
  obtain ⟨w2, e2, _, l2⟩ := waveController_start_reachable clk.wave w hr hidle hall
  exact ⟨w2, e2, l2, fun h4 => by rw [l2, h4]; rfl⟩

theorem level_in_range_witness :
    Reachable armedWorld ∧ frame clockAt3s armedWorld = Except.ok tickedWorld
      ∧ armedWorld.game.level ≤ 4
      ∧ idx enemyArrWidths armedWorld.game.level
          = Except.ok (waveWidth armedWorld.game.level)
      ∧ idx enemyArrHeights armedWorld.game.level
          = Except.ok (waveHeight armedWorld.game.level)
      ∧ armedWorld.game.level ≤ tickedWorld.game.level
      ∧ tickedWorld.game.level ≤ armedWorld.game.level + 1
      ∧ tickedWorld.game.level ≤ 4
      ∧ (armedWorld.game.level = 4 → tickedWorld.game.level = 4)
      ∧ (inputCallback Key.z Action.release 0 armedWorld).game.level = armedWorld.game.level
      ∧ (armedWorld.enemyRespawnTimer.isRunning = false →
          (∀ e ∈ armedWorld.game.enemies, e.enemyType = enemyDead) →
          ∃ w2, waveController clockAt3s.wave armedWorld = Except.ok w2
            ∧ w2.game.level = min (armedWorld.game.level + 1) 4
            ∧ (armedWorld.game.level = 4 → w2.game.level = 4)) :=
  ⟨armed_reachable, frame_armed,
    level_in_range clockAt3s Key.z Action.release 0 armedWorld tickedWorld armed_reachable
      frame_armed⟩

/-! ## The overlap test and the bullet loops on their failing inputs -/

theorem sub64_of_le (a b : Nat) (hb : b ≤ a) (ha : a < SIZE) : sub64 a b = a - b := by
  unfold sub64
  rw [Nat.mod_eq_of_lt ha, Nat.mod_eq_of_lt (Nat.lt_of_le_of_lt hb ha), if_pos hb]

/-- Where no subtraction wraps and no sum overflows, `spritesIntersect` is the
overlap test of the two scaled closed rectangles. -/
theorem spritesIntersect_iff (s1 s2 : Sprite) (x1 y1 x2 y2 : Nat)
    (hx : 4 * s1.w ≤ x2) (hy : 4 * s1.h ≤ y2)
    (hx2 : x2 + 4 * s2.w < SIZE) (hy2 : y2 + 4 * s2.h < SIZE) :
    spritesIntersect s1 x1 y1 s2 x2 y2 = true
      ↔ (x2 ≤ x1 + 4 * s1.w ∧ x1 ≤ x2 + 4 * s2.w
          ∧ y2 ≤ y1 + 4 * s1.h ∧ y1 ≤ y2 + 4 * s2.h) := by
  have m1 : mul64 4 s1.w = 4 * s1.w := Nat.mod_eq_of_lt (by omega)
  have m2 : mul64 4 s2.w = 4 * s2.w := Nat.mod_eq_of_lt (by omega)
  have m3 : mul64 4 s1.h = 4 * s1.h := Nat.mod_eq_of_lt (by omega)
  have m4 : mul64 4 s2.h = 4 * s2.h := Nat.mod_eq_of_lt (by omega)
  have a1 : add64 x2 (4 * s2.w) = x2 + 4 * s2.w := Nat.mod_eq_of_lt hx2
  have a2 : add64 y2 (4 * s2.h) = y2 + 4 * s2.h := Nat.mod_eq_of_lt hy2
  have b1 : sub64 x2 (4 * s1.w) = x2 - 4 * s1.w := sub64_of_le _ _ hx (by omega)
  have b2 : sub64 y2 (4 * s1.h) = y2 - 4 * s1.h := sub64_of_le _ _ hy (by omega)
  unfold spritesIntersect
  simp only [m1, m2, m3, m4, a1, a2, b1, b2, Bool.and_eq_true, decide_eq_true_eq]
  omega

/-- C17 (failing input): in `twoEnemyBullets` the enemy bullet loop removes the
bullet of slot 0, which leaves the screen, moves the bullet of slot 1 into slot 0
and goes on with slot 1, so the surviving bullet still has y = 300 and not 303
after the loop and after the whole tick; in `twoPlayerBullets` the player bullet of
slot 0 hits an enemy, the bullet of slot 1 is moved into slot 0 and is not moved in
that pass, so it still has y = 500 and not 498 after the loop and after the whole
tick. -/
theorem bullet_loops_skip_swapped_in :
    enemyPoolYs twoEnemyBullets = [798, 300]
      ∧ (enemyBulletLoop 3000000000 2 0 twoEnemyBullets).map enemyPoolYs = Except.ok [300]
      ∧ (inGameTick clockAt3s twoEnemyBullets).map enemyPoolYs = Except.ok [300]
      ∧ playerPoolYs twoPlayerBullets = [240, 500]
      ∧ (playerBulletLoop 2 0 twoPlayerBullets).map playerPoolYs = Except.ok [500]
      ∧ (inGameTick clockAt3s twoPlayerBullets).map playerPoolYs = Except.ok [500] := by
  set_option maxRecDepth 100000 in
  refine ⟨rfl, ?_, ?_, rfl, ?_, ?_⟩ <;> rfl

theorem take_set_self {α : Type} (l : List α) (n : Nat) (a : α) :
    (l.set n a).take n = l.take n := by
  rw [List.set_take, List.set_eq_of_length_le]
  rw [List.length_take]
  exact Nat.min_le_left _ _

theorem inGameTick_latch (clk : Clock) (w w1 : World)
    (h : inGameTick clk w = Except.ok w1) : w1.bulletFired = false := by
  unfold inGameTick at h
  rw [bind_eq_ok] at h
  obtain ⟨a1, _, h⟩ := h
  rw [bind_eq_ok] at h
  obtain ⟨a2, _, h⟩ := h
  rw [bind_eq_ok] at h
  obtain ⟨a3, _, h⟩ := h
  rw [bind_eq_ok] at h
  obtain ⟨a4, _, h⟩ := h
  rw [bind_eq_ok] at h
  obtain ⟨a5, _, h⟩ := h
  rw [bind_eq_ok] at h
  obtain ⟨a6, _, h⟩ := h
  rw [bind_eq_ok] at h
  obtain ⟨a7, _, h⟩ := h
  rw [bind_eq_ok] at h
  obtain ⟨a8, _, h⟩ := h
  rw [bind_eq_ok] at h
  obtain ⟨a9, _, h⟩ := h
  rw [pure_eq_ok] at h; subst h
  rfl

/-- C19: when the fire latch `bulletFired` is set and `numBullets < 128` (the
bullet array having its 128 slots), the fire phase completes, raises `numBullets`
by one and writes into slot `numBullets` the position
(`player.x + 22`, `player.y + 14`) in `size_t` arithmetic and the speed -2, keeping
the slot's colour and type tag; every other slot of the array, and so every live
player bullet, and everything outside the array and the count is as before.  A
completed in-game tick ends with `bulletFired = false`, whether or not a bullet was
spawned. -/
theorem fire_appends_one (w : World) (hf : w.bulletFired = true)
    (hn : w.game.numBullets < maxBullets) (hlen : w.game.bullets.length = maxBullets) :
    ∃ w1 b b1, firePhase w = Except.ok w1
      ∧ w.game.bullets[w.game.numBullets]? = some b
      ∧ w1.game.bullets[w.game.numBullets]? = some b1
      ∧ b1 = { b with x := add64 w.game.player.x 22, y := add64 w.game.player.y 14,
                      bulletSpeed := -2 }
      ∧ (w.game.player.x + 22 < SIZE → b1.x = w.game.player.x + 22)
      ∧ (w.game.player.y + 14 < SIZE → b1.y = w.game.player.y + 14)
      ∧ w1.game.numBullets = w.game.numBullets + 1
      ∧ (∀ k, k ≠ w.game.numBullets → w1.game.bullets[k]? = w.game.bullets[k]?)
      ∧ w1.game.bullets.take w.game.numBullets = w.game.bullets.take w.game.numBullets
      ∧ live w1.game.bullets w1.game.numBullets = live w.game.bullets w.game.numBullets + {b1}
      ∧ w1 = { w with game := { w.game with bullets := w1.game.bullets,
                                            numBullets := w1.game.numBullets } }
      ∧ ∀ (clk : Clock) (v v1 : World), inGameTick clk v = Except.ok v1 →
          v1.bulletFired = false := by
  have hlt : w.game.numBullets < w.game.bullets.length := by rw [hlen]; exact hn
  have hn2 : w.game.numBullets < 128 := hn
  have hb : idx w.game.bullets w.game.numBullets
      = Except.ok (w.game.bullets[w.game.numBullets]) := idx_of_lt _ _ hlt
  have hadd : add64 w.game.numBullets 1 = w.game.numBullets + 1 := by
    unfold add64 SIZE; omega
  have h22 : mul64 2 playerSprite.w = 22 := by decide
  have h14 : mul64 2 playerSprite.h = 14 := by decide
  have hfire : firePhase w = Except.ok
      { w with game := { w.game with
          bullets := w.game.bullets.set w.game.numBullets
            { w.game.bullets[w.game.numBullets] with
              x := add64 w.game.player.x 22, y := add64 w.game.player.y 14,
              bulletSpeed := -2 }
          numBullets := w.game.numBullets + 1 } } := by
    unfold firePhase
    rw [if_pos ⟨hf, hn⟩, hb]
    simp only [bind, Except.bind, setIdx, if_pos hlt, pure, Except.pure, h22, h14, hadd]
  refine ⟨_, w.game.bullets[w.game.numBullets], _, hfire, List.getElem?_eq_getElem hlt,
    ?_, rfl, ?_, ?_, rfl, ?_, ?_, ?_, rfl, inGameTick_latch⟩
  · show (w.game.bullets.set w.game.numBullets _)[w.game.numBullets]? = some _
    rw [List.getElem?_set_self hlt]
  · intro hx
    show add64 w.game.player.x 22 = _
    unfold add64
    exact Nat.mod_eq_of_lt hx
  · intro hy
    show add64 w.game.player.y 14 = _
    unfold add64
    exact Nat.mod_eq_of_lt hy
  · intro k hk
    show (w.game.bullets.set w.game.numBullets _)[k]? = _
    rw [List.getElem?_set_ne (Ne.symm hk)]
  · show (w.game.bullets.set w.game.numBullets _).take w.game.numBullets = _
    rw [take_set_self]
  · show live (w.game.bullets.set w.game.numBullets _) (w.game.numBullets + 1) = _
    unfold live
    rw [List.take_succ, take_set_self, List.getElem?_set_self hlt]
    simp only [Option.toList, ← Multiset.coe_add]
    rfl

theorem fire_appends_one_witness :
    armedWorld.bulletFired = true ∧ armedWorld.game.numBullets < maxBullets
      ∧ armedWorld.game.bullets.length = maxBullets
      ∧ ∃ w1 b b1, firePhase armedWorld = Except.ok w1
        ∧ armedWorld.game.bullets[armedWorld.game.numBullets]? = some b
        ∧ w1.game.bullets[armedWorld.game.numBullets]? = some b1
        ∧ b1 = { b with x := add64 armedWorld.game.player.x 22,
                        y := add64 armedWorld.game.player.y 14, bulletSpeed := -2 }
        ∧ (armedWorld.game.player.x + 22 < SIZE → b1.x = armedWorld.game.player.x + 22)
        ∧ (armedWorld.game.player.y + 14 < SIZE → b1.y = armedWorld.game.player.y + 14)
        ∧ w1.game.numBullets = armedWorld.game.numBullets + 1
        ∧ (∀ k, k ≠ armedWorld.game.numBullets →
            w1.game.bullets[k]? = armedWorld.game.bullets[k]?)
        ∧ w1.game.bullets.take armedWorld.game.numBullets
            = armedWorld.game.bullets.take armedWorld.game.numBullets
        ∧ live w1.game.bullets w1.game.numBullets
            = live armedWorld.game.bullets armedWorld.game.numBullets + {b1}
        ∧ w1 = { armedWorld with game := { armedWorld.game with
                  bullets := w1.game.bullets, numBullets := w1.game.numBullets } }
        ∧ ∀ (clk : Clock) (v v1 : World), inGameTick clk v = Except.ok v1 →
            v1.bulletFired = false := by
  set_option maxRecDepth 100000 in
  exact ⟨rfl, by decide, rfl, fire_appends_one armedWorld rfl (by decide) rfl⟩

/-! ## The range of the horizontal position of the player -/

theorem movePlayer_range (w : World) (hw : w.game.gameWidth = 800)
    (hd : -1 ≤ w.playerMoveDirection ∧ w.playerMoveDirection ≤ 1)
    (hx : 56 ≤ playerX w ∧ playerX w ≤ 700) :
    56 ≤ playerX (movePlayer w) ∧ playerX (movePlayer w) ≤ 700 := by
  unfold playerX at hx ⊢
  have h44 : mul64 4 playerSprite.w = 44 := by decide
  have h740 : sub64 800 60 = 740 := by decide
  have h696 : sub64 (sub64 800 44) 60 = 696 := by decide
  have hadd : add64 w.game.player.x 44 = w.game.player.x + 44 := by
    unfold add64 SIZE; omega
  have hmod : w.game.player.x % 2 ^ 32 = w.game.player.x :=
    Nat.mod_eq_of_lt (by omega)
  have hint : toInt32 w.game.player.x = (w.game.player.x : Int) := by
    unfold toInt32
    rw [hmod, if_pos (by omega)]
  unfold movePlayer
  rw [hw, h44, h740, h696, hadd, hint]
  split
  · split
    · exact ⟨(by decide : 56 ≤ 696), (by decide : 696 ≤ 700)⟩
    · split
      · exact ⟨(by decide : 56 ≤ 60), (by decide : 60 ≤ 700)⟩
      · next hr hl =>
        show 56 ≤ (((w.game.player.x : Int) + (playerSpeed : Int) * w.playerMoveDirection)
            % (SIZE : Int)).toNat
          ∧ (((w.game.player.x : Int) + (playerSpeed : Int) * w.playerMoveDirection)
            % (SIZE : Int)).toNat ≤ 700
        have h5 : (playerSpeed : Int) = 5 := rfl
        have hs : (SIZE : Int) = 18446744073709551616 := by unfold SIZE; norm_num
        rw [h5, hs]
        have hlo : 0 ≤ (w.game.player.x : Int) + 5 * w.playerMoveDirection := by omega
        have hhi : (w.game.player.x : Int) + 5 * w.playerMoveDirection
            < 18446744073709551616 := by omega
        rw [Int.emod_eq_of_lt hlo hhi]
        omega
  · exact hx

theorem inGameTick_move (clk : Clock) (w w1 : World)
    (h : inGameTick clk w = Except.ok w1) :
    ∃ a7, fixedPart a7 = fixedPart w ∧ playerX a7 = playerX w
      ∧ playerX w1 = playerX (movePlayer a7) := by
  unfold inGameTick at h
  rw [bind_eq_ok] at h
  obtain ⟨a1, e1, h⟩ := h
  rw [bind_eq_ok] at h
  obtain ⟨a2, e2, h⟩ := h
  rw [bind_eq_ok] at h
  obtain ⟨a3, e3, h⟩ := h
  rw [bind_eq_ok] at h
  obtain ⟨a4, e4, h⟩ := h
  rw [bind_eq_ok] at h
  obtain ⟨a5, e5, h⟩ := h
  rw [bind_eq_ok] at h
  obtain ⟨a6, e6, h⟩ := h
  rw [bind_eq_ok] at h
  obtain ⟨a7, e7, h⟩ := h
  rw [bind_eq_ok] at h
  obtain ⟨a8, e8, h⟩ := h
  rw [bind_eq_ok] at h
  obtain ⟨a9, e9, h⟩ := h
  rw [pure_eq_ok] at h; subst h
  refine ⟨a7, ?_, ?_, ?_⟩
  · rw [enemyBulletLoop_fixed _ _ _ _ a7 e7, playerBulletLoop_fixed _ _ _ a6 e6,
      updateDeathFrames_fixed _ a5 e5, advanceAnimations_fixed _ a4 e4, blinkPlayer_fixed,
      renderEnemies_fixed _ a3 e3, updateCooldowns_fixed _ a2 e2,
      (waveController_fixed _ _ a1 e1).1]
  · rw [enemyBulletLoop_px _ _ _ _ a7 e7, playerBulletLoop_px _ _ _ a6 e6,
      updateDeathFrames_px _ a5 e5, advanceAnimations_px _ a4 e4, blinkPlayer_px,
      renderEnemies_px _ a3 e3, updateCooldowns_px _ a2 e2, waveController_px _ _ a1 e1]
  · show playerX a9 = playerX (movePlayer a7)
    rw [enemyFireControl_px a8 a9 e9, firePhase_px _ a8 e8]

theorem heldDirection_range (h : Held) : -1 ≤ heldDirection h ∧ heldDirection h ≤ 1 := by
  obtain ⟨l, r⟩ := h
  cases l <;> cases r <;> decide

theorem inGameTick_range (clk : Clock) (w w1 : World) (hw : w.game.gameWidth = 800)
    (hd : -1 ≤ w.playerMoveDirection ∧ w.playerMoveDirection ≤ 1)
    (hx : 56 ≤ playerX w ∧ playerX w ≤ 700) (h : inGameTick clk w = Except.ok w1) :
    56 ≤ playerX w1 ∧ playerX w1 ≤ 700 := by
  obtain ⟨a7, hf, hp, hm⟩ := inGameTick_move clk w w1 h
  unfold fixedPart at hf
  simp only [Prod.mk.injEq] at hf
  obtain ⟨_, _, _, f4, f5, _, _⟩ := hf
  rw [hm]
  exact movePlayer_range a7 (f5.trans hw) (by rw [f4]; exact hd) (by rw [hp]; exact hx)

theorem boundedRun_range : ∀ (evs : List ArrowInput) (w w1 : World),
    w.game.gameWidth = 800 → (56 ≤ playerX w ∧ playerX w ≤ 700) →
    boundedRun evs w = some w1 →
    w1.game.gameWidth = 800 ∧ 56 ≤ playerX w1 ∧ playerX w1 ≤ 700 := by
  intro evs
  induction evs with
  | nil =>
    intro w w1 hw hx hr
    unfold boundedRun at hr
    cases hr
    exact ⟨hw, hx⟩
  | cons ev rest ih =>
    intro w w1 hw hx hr
    cases ev with
    | key k a now =>
      unfold boundedRun at hr
      have hgame := inputCallback_game k a now w
      refine ih _ w1 ?_ ?_ hr
      · rw [hgame]; exact hw
      · unfold playerX; rw [hgame]; exact hx
    | tick clk =>
      unfold boundedRun at hr
      split at hr
      next hdir =>
        cases ht : inGameTick clk w with
        | error e => rw [ht] at hr; cases hr
        | ok w2 =>
          rw [ht] at hr
          have hf := inGameTick_fixedPart clk w w2 ht
          unfold fixedPart at hf
          simp only [Prod.mk.injEq] at hf
          exact ih w2 w1 (hf.2.2.2.2.1.trans hw) (inGameTick_range clk w w2 hw hdir hx ht) hr
      next => cases hr

/-- C12 (amended): from a state with game width 800 and 56 ≤ player.x ≤ 700 (such
as the spawn position 384), every sequence of key events (any key, any action) and
completed in-game ticks, each tick starting with a move direction in {-1, 0, 1},
ends in a state with 56 ≤ player.x and player.x + 4 * playerSprite.w ≤ 744: the
player leaves the 60-pixel inset by at most 4 pixels. -/
theorem player_near_inset (evs : List ArrowInput) (w w1 : World)
    (hw : w.game.gameWidth = 800) (hlo : 56 ≤ w.game.player.x) (hhi : w.game.player.x ≤ 700)
    (hrun : boundedRun evs w = some w1) :
    56 ≤ w1.game.player.x ∧ w1.game.player.x + 4 * playerSprite.w ≤ w1.game.gameWidth - 56
      ∧ w1.game.gameWidth = 800 := by
  obtain ⟨hw1, hr⟩ := boundedRun_range evs w w1 hw ⟨hlo, hhi⟩ hrun
  unfold playerX at hr
  have h44 : 4 * playerSprite.w = 44 := rfl
  rw [hw1, h44]
  omega

theorem player_near_inset_witness :
    playWorld.game.gameWidth = 800 ∧ 56 ≤ playWorld.game.player.x
      ∧ playWorld.game.player.x ≤ 700
      ∧ boundedRun [ArrowInput.key Key.z Action.release 0,
          ArrowInput.key Key.left Action.press 0, ArrowInput.tick clockAt3s] playWorld
          = some firedLeftWorld
      ∧ 56 ≤ firedLeftWorld.game.player.x
      ∧ firedLeftWorld.game.player.x + 4 * playerSprite.w
          ≤ firedLeftWorld.game.gameWidth - 56
      ∧ firedLeftWorld.game.gameWidth = 800 := by
  set_option maxRecDepth 100000 in
  exact ⟨rfl, by decide, by decide, rfl,
    player_near_inset [ArrowInput.key Key.z Action.release 0,
        ArrowInput.key Key.left Action.press 0, ArrowInput.tick clockAt3s]
      playWorld firedLeftWorld rfl (by decide) (by decide) rfl⟩

/-! ## The lookups in the animation table -/

theorem animIndex_range (t : EnemyType) :
    (0 ≤ animIndex t ∧ animIndex t ≤ 2) ↔ t ≠ enemyDead := by
  cases t <;> decide

theorem frameNumber_dead (ts : List Nat) :
    frameNumber ts (animIndex enemyDead) = Except.error Fault.outOfBounds := by
  unfold frameNumber
  rw [if_neg (by decide)]

/-- A counted loop whose body cannot complete at index `i` does not complete when
it passes `i`. -/
theorem loopFrom_stuck {σ : Type} (body : Nat → σ → Res σ) (P : σ → Prop) (i : Nat)
    (hP : ∀ k s s1, k < i → P s → body k s = Except.ok s1 → P s1)
    (hfail : ∀ s s1, P s → body i s ≠ Except.ok s1) :
    ∀ r k s s1, k ≤ i → i < k + r → P s → loopFrom body r k s ≠ Except.ok s1 := by
  intro r
  induction r with
  | zero => intro k s s1 hk hi; omega
  | succ r ih =>
    intro k s s1 hk hi hs h
    simp only [loopFrom] at h
    cases hb : body k s with
    | error e => rw [hb] at h; cases h
    | ok s2 =>
      rw [hb] at h
      by_cases hki : k = i
      · subst hki
        exact hfail s s2 hs hb
      · exact ih (k + 1) s2 s1 (by omega) (by omega) (hP k s s2 (by omega) hs hb) h

/-- The checked render loop does not complete when some slot holds a dead enemy
whose death-hold counter is not 0. -/
theorem renderEnemiesChecked_dying (w w1 : World) (i d : Nat) (e : Enemy)
    (hi : i < w.game.numEnemies) (hd : w.deathFrameCounter[i]? = some d) (hd0 : d ≠ 0)
    (he : w.game.enemies[i]? = some e) (hdead : e.enemyType = enemyDead) :
    renderEnemiesChecked w ≠ Except.ok w1 := by
  intro h
  unfold renderEnemiesChecked at h
  rw [bind_eq_ok] at h
  obtain ⟨es, hes, _⟩ := h
  refine loopFrom_stuck _ (fun es => ∃ e, es[i]? = some e ∧ e.enemyType = enemyDead) i
    ?_ ?_ w.game.numEnemies 0 w.game.enemies es (Nat.zero_le _) (by omega) ⟨e, he, hdead⟩ hes
  · intro k s s1 hk hs hb
    rw [bind_eq_ok] at hb
    obtain ⟨c, _, hb⟩ := hb
    split at hb
    · rw [pure_eq_ok] at hb; subst hb; exact hs
    · rw [bind_eq_ok] at hb
      obtain ⟨e1, _, hb⟩ := hb
      rw [bind_eq_ok] at hb
      obtain ⟨_, _, hb⟩ := hb
      rw [setIdx_eq_ok] at hb
      obtain ⟨_, rfl⟩ := hb
      obtain ⟨e2, h2, h3⟩ := hs
      exact ⟨e2, by rw [List.getElem?_set_ne (by omega)]; exact h2, h3⟩
  · intro s s1 hs hb
    obtain ⟨e2, h2, h3⟩ := hs
    rw [bind_eq_ok] at hb
    obtain ⟨c, hc, hb⟩ := hb
    rw [idx_eq_ok, hd] at hc
    cases hc
    rw [if_neg hd0, bind_eq_ok] at hb
    obtain ⟨e1, h1, hb⟩ := hb
    rw [idx_eq_ok, h2] at h1
    cases h1
    rw [h3, frameNumber_dead] at hb
    cases hb

/-- Where the checked render loop completes, it has the state effect of
`renderEnemies`. -/
theorem renderEnemiesChecked_ok (w w1 : World) (h : renderEnemiesChecked w = Except.ok w1) :
    renderEnemies w = Except.ok w1 := by
  unfold renderEnemiesChecked at h
  unfold renderEnemies
  rw [bind_eq_ok] at h
  obtain ⟨es, hes, h⟩ := h
  rw [bind_eq_ok]
  refine ⟨es, ?_, h⟩
  have key : ∀ r k s s1,
      loopFrom (fun i es => do
        let d ← idx w.deathFrameCounter i
        if d = 0 then pure es
        else do
          let e ← idx es i
          let _ ← frameNumber w.animTimeElapsed (animIndex e.enemyType)
          setIdx es i (blinkEnemy e)) r k s = Except.ok s1 →
      loopFrom (fun i es => do
        let d ← idx w.deathFrameCounter i
        if d = 0 then pure es
        else do
          let e ← idx es i
          setIdx es i (blinkEnemy e)) r k s = Except.ok s1 := by
    intro r
    induction r with
    | zero => intro k s s1 h0; exact h0
    | succ r ih =>
      intro k s s1 h0
      simp only [loopFrom] at h0 ⊢
      split at h0
      next s2 hb =>
        have hb2 : (do
            let d ← idx w.deathFrameCounter k
            if d = 0 then pure s
            else do
              let e ← idx s k
              setIdx s k (blinkEnemy e)) = Except.ok s2 := by
          rw [bind_eq_ok] at hb ⊢
          obtain ⟨c, hc, hb⟩ := hb
          refine ⟨c, hc, ?_⟩
          split at hb
          next h0 => rw [if_pos h0]; exact hb
          next h0 =>
            rw [if_neg h0]
            rw [bind_eq_ok] at hb ⊢
            obtain ⟨e1, h1, hb⟩ := hb
            rw [bind_eq_ok] at hb
            obtain ⟨_, _, hb⟩ := hb
            exact ⟨e1, h1, hb⟩
        rw [hb2]
        exact ih (k + 1) s2 s1 h0
      next => cases h0
  exact key _ _ _ _ hes

theorem inGameTickChecked_ok (clk : Clock) (w w1 : World)
    (h : inGameTickChecked clk w = Except.ok w1) : inGameTick clk w = Except.ok w1 := by
  unfold inGameTickChecked at h
  unfold inGameTick
  rw [bind_eq_ok] at h ⊢
  obtain ⟨a1, e1, h⟩ := h
  refine ⟨a1, e1, ?_⟩
  rw [bind_eq_ok] at h ⊢
  obtain ⟨a2, e2, h⟩ := h
  refine ⟨a2, e2, ?_⟩
  rw [bind_eq_ok] at h ⊢
  obtain ⟨a3, e3, h⟩ := h
  exact ⟨a3, renderEnemiesChecked_ok a2 a3 e3, h⟩

/-- C21 (failing input): the index `enemyType - 1` of a dead enemy is -1.  In
`lastHitWorld` every lookup of the tick is in range and the tick kills the enemy of
slot 6, which leaves the tick dead with its death-hold counter at 10; in the next
tick the render loop looks up `alienAnimations[-1]` for this enemy (line 720,
before the test for `enemyDead`), so the tick with this read checked stops with an
out-of-bounds fault, while the tick that ignores the value read completes and
lowers the counter to 9.  The same lookup is made in `shotDownWorld`, where the
enemy of slot 2 is dead with counter 10. -/
theorem render_lookup_of_dying_enemy :
    animIndex enemyDead = -1
      ∧ inGameTickChecked clockAt3s lastHitWorld = inGameTick clockAt3s lastHitWorld
      ∧ (inGameTick clockAt3s lastHitWorld).map dyingSummary
          = Except.ok ([enemyTypeC, enemyTypeC, enemyTypeC, enemyTypeC, enemyTypeC, enemyTypeC,
              enemyDead, enemyTypeB, enemyTypeB], [10, 10, 10, 10, 10, 10, 10, 10, 10])
      ∧ (inGameTick clockAt3s lastHitWorld >>= inGameTickChecked clockAt3s)
          = Except.error Fault.outOfBounds
      ∧ (inGameTick clockAt3s lastHitWorld >>= inGameTick clockAt3s).map dyingSummary
          = Except.ok ([enemyTypeC, enemyTypeC, enemyTypeC, enemyTypeC, enemyTypeC, enemyTypeC,
              enemyDead, enemyTypeB, enemyTypeB], [10, 10, 10, 10, 10, 10, 9, 10, 10])
      ∧ renderEnemiesChecked shotDownWorld = Except.error Fault.outOfBounds := by
  set_option maxRecDepth 100000 in
  refine ⟨rfl, ?_, ?_, ?_, ?_, ?_⟩ <;> rfl

/-! ## The slot in front of an enemy -/

theorem blinkPlayer_foes (w : World) : enemiesOf (blinkPlayer w) = enemiesOf w := by
  unfold blinkPlayer
  split <;> rfl

theorem movePlayer_foes (w : World) : enemiesOf (movePlayer w) = enemiesOf w := by
  unfold movePlayer
  split
  · split
    · rfl
    · split <;> rfl
  · rfl

theorem firePhase_foes (w w1 : World) (h : firePhase w = Except.ok w1) :
    enemiesOf w1 = enemiesOf w := by
  unfold firePhase at h
  split at h
  · rw [bind_eq_ok] at h
    obtain ⟨b, _, h⟩ := h
    rw [bind_eq_ok] at h
    obtain ⟨bs, _, h⟩ := h
    rw [pure_eq_ok] at h; subst h
    rfl
  · rw [pure_eq_ok] at h; subst h; rfl

theorem enemyBulletStep_foes (now : Int) (i : Nat) (w w1 : World)
    (h : enemyBulletStep now i w = Except.ok w1) : enemiesOf w1 = enemiesOf w := by
  unfold enemyBulletStep at h
  rw [bind_eq_ok] at h
  obtain ⟨b, _, h⟩ := h
  rw [bind_eq_ok] at h
  obtain ⟨y, _, h⟩ := h
  rw [bind_eq_ok] at h
  obtain ⟨bs, _, h⟩ := h
  split at h
  · rw [bind_eq_ok] at h
    obtain ⟨pool, _, h⟩ := h
    rw [pure_eq_ok] at h; subst h; rfl
  · split at h
    · split at h
      · rw [bind_eq_ok] at h
        obtain ⟨dmg, _, h⟩ := h
        rw [bind_eq_ok] at h
        obtain ⟨pool, _, h⟩ := h
        rw [pure_eq_ok] at h; subst h; rfl
      · rw [pure_eq_ok] at h; subst h; rfl
    · rw [pure_eq_ok] at h; subst h; rfl

theorem enemyBulletLoop_foes (now : Int) : ∀ (fuel i : Nat) (w w1 : World),
    enemyBulletLoop now fuel i w = Except.ok w1 → enemiesOf w1 = enemiesOf w := by
  intro fuel
  induction fuel with
  | zero =>
    intro i w w1 h
    unfold enemyBulletLoop at h
    split at h
    · cases h
    · cases h; rfl
  | succ fuel ih =>
    intro i w w1 h
    unfold enemyBulletLoop at h
    split at h
    · rw [bind_eq_ok] at h
      obtain ⟨w2, hw2, h⟩ := h
      rw [ih (i + 1) w2 w1 h, enemyBulletStep_foes now i w w2 hw2]
    · cases h; rfl

theorem enemyFire_foes (i : Nat) (w w1 : World) (h : enemyFire i w = Except.ok w1) :
    enemiesOf w1 = enemiesOf w := by
  unfold enemyFire at h
  rw [bind_eq_ok] at h
  obtain ⟨e, _, h⟩ := h
  split at h
  · rw [pure_eq_ok] at h; subst h; rfl
  · rw [bind_eq_ok] at h
    obtain ⟨sprite, _, h⟩ := h
    rw [bind_eq_ok] at h
    obtain ⟨cd, _, h⟩ := h
    split at h
    · rw [bind_eq_ok] at h
      obtain ⟨clear, _, h⟩ := h
      split at h
      · unfold spawnEnemyBullet at h
        rw [bind_eq_ok] at h
        obtain ⟨c, _, h⟩ := h
        rw [bind_eq_ok] at h
        obtain ⟨bs, _, h⟩ := h
        rw [bind_eq_ok] at h
        obtain ⟨cds, hcds, h⟩ := h
        rw [pure_eq_ok] at h; subst h
        rfl
      · rw [pure_eq_ok] at h; subst h; rfl
    · rw [pure_eq_ok] at h; subst h; rfl

theorem enemyFireControl_foes (w w1 : World) (h : enemyFireControl w = Except.ok w1) :
    enemiesOf w1 = enemiesOf w :=
  forRange_preserves (fun s => enemiesOf s = enemiesOf w) enemyFire _
    (fun k s s1 hs hb => (enemyFire_foes k s s1 hb).trans hs) _ _ rfl h

/-! ## While the respawn timer is running every enemy is dead -/

theorem countDead_loop (g : GameEngine) : ∀ (r k c c1 : Nat),
    loopFrom (fun k c => do
        let e ← idx g.enemies k
        pure (if e.enemyType = enemyDead then c + 1 else c)) r k c = Except.ok c1 →
    c1 ≤ c + r ∧ (c1 = c + r → ∀ j, k ≤ j → j < k + r →
      ∃ e, g.enemies[j]? = some e ∧ e.enemyType = enemyDead) := by
  intro r
  induction r with
  | zero =>
    intro k c c1 h
    simp only [loopFrom] at h
    cases h
    exact ⟨Nat.le_refl _, fun _ j h1 h2 => by omega⟩
  | succ r ih =>
    intro k c c1 h
    simp only [loopFrom] at h
    split at h
    next c2 hb =>
      rw [bind_eq_ok] at hb
      obtain ⟨e, he, hb⟩ := hb
      rw [pure_eq_ok] at hb
      obtain ⟨i1, i2⟩ := ih (k + 1) c2 c1 h
      by_cases hd : e.enemyType = enemyDead
      · rw [if_pos hd] at hb
        subst hb
        refine ⟨by omega, fun hc j h1 h2 => ?_⟩
        by_cases hj : j = k
        · subst hj
          exact ⟨e, (idx_eq_ok _ _ _).1 he, hd⟩
        · exact i2 (by omega) j (by omega) (by omega)
      · rw [if_neg hd] at hb
        subst hb
        exact ⟨by omega, fun hc => by omega⟩
    next => cases h

/-- When the scan of lines 656-661 counts `numEnemies` dead enemies, every enemy
is dead. -/
theorem countDead_full (g : GameEngine) (hlen : g.enemies.length = g.numEnemies)
    (h : countDead g = Except.ok g.numEnemies) : AllDead g.enemies := by
  unfold countDead forRange at h
  obtain ⟨_, h2⟩ := countDead_loop g g.numEnemies 0 0 g.numEnemies h
  intro e he
  obtain ⟨j, hj, rfl⟩ := List.getElem_of_mem he
  obtain ⟨e1, h3, h4⟩ := h2 (by omega) j (Nat.zero_le _) (by omega)
  rw [List.getElem?_eq_getElem hj] at h3
  cases h3
  exact h4

theorem delayDead_congr (w w1 : World) (hs : shape w1 = shape w)
    (he : AllDead w.game.enemies → AllDead w1.game.enemies) (h : DelayDead w) :
    DelayDead w1 := by
  intro hr
  have ht : w1.enemyRespawnTimer = w.enemyRespawnTimer := congrArg (fun s => s.2.2.2.2.2) hs
  rw [ht] at hr
  exact he (h hr)

theorem waveController_delayDead (now : Int) (w w1 : World) (hs : ShapeOK (shape w))
    (hd : DelayDead w) (h : waveController now w = Except.ok w1) : DelayDead w1 := by
  obtain ⟨s1, s2, _, _, s5⟩ := hs
  unfold waveController at h
  split at h
  next hidle =>
    rw [bind_eq_ok] at h
    obtain ⟨c, hc, h⟩ := h
    rw [bind_eq_ok] at h
    obtain ⟨ht, hht, h⟩ := h
    rw [bind_eq_ok] at h
    obtain ⟨wd, hwd, h⟩ := h
    split at h
    next hall =>
      rw [pure_eq_ok] at h; subst h
      intro _
      show AllDead w.game.enemies
      obtain ⟨hl, rfl⟩ := idx_widths_inv _ _ hwd
      obtain ⟨_, rfl⟩ := idx_heights_inv _ _ hht
      have hn : w.game.numEnemies = waveWidth w.game.level * waveHeight w.game.level :=
        s5 hidle
      have hm : mul64 (waveHeight w.game.level) (waveWidth w.game.level)
          = waveWidth w.game.level * waveHeight w.game.level := by
        have h1 := mul64_wave w.game.level hl
        unfold mul64 at h1 ⊢
        rw [Nat.mul_comm]
        exact h1
      refine countDead_full w.game s2 ?_
      rw [hc, hall, hm, hn]
    next =>
      rw [pure_eq_ok] at h; subst h
      exact hd
  next =>
    split at h
    · unfold respawnWave at h
      rw [bind_eq_ok] at h
      obtain ⟨wd, _, h⟩ := h
      rw [bind_eq_ok] at h
      obtain ⟨ht, _, h⟩ := h
      rw [bind_eq_ok] at h
      obtain ⟨es, _, h⟩ := h
      rw [pure_eq_ok] at h; subst h
      intro hr
      cases hr
    · rw [pure_eq_ok] at h; subst h
      exact hd

theorem renderEnemies_allDead (w w1 : World) (ha : AllDead w.game.enemies)
    (h : renderEnemies w = Except.ok w1) : AllDead w1.game.enemies := by
  unfold renderEnemies at h
  rw [bind_eq_ok] at h
  obtain ⟨es, hes, h⟩ := h
  rw [pure_eq_ok] at h; subst h
  show AllDead es
  refine forRange_preserves AllDead _ _ ?_ _ es ha hes
  intro k s s1 hs hb
  rw [bind_eq_ok] at hb
  obtain ⟨c, _, hb⟩ := hb
  split at hb
  · rw [pure_eq_ok] at hb; subst hb; exact hs
  · rw [bind_eq_ok] at hb
    obtain ⟨e, he, hb⟩ := hb
    rw [setIdx_eq_ok] at hb
    obtain ⟨_, rfl⟩ := hb
    intro a ha2
    rcases mem_set_cases _ _ _ _ ha2 with h3 | h3
    · exact hs a h3
    · subst h3
      have hdead := hs e (idx_ok_mem _ _ _ he)
      unfold blinkEnemy
      rw [if_pos hdead]
      exact hdead

theorem bulletVsEnemy_allDead (i j : Nat) (w w1 : World) (ha : AllDead w.game.enemies)
    (h : bulletVsEnemy i j w = Except.ok w1) : w1 = w := by
  unfold bulletVsEnemy at h
  rw [bind_eq_ok] at h
  obtain ⟨enemy, he, h⟩ := h
  rw [if_pos (ha enemy (idx_ok_mem _ _ _ he)), pure_eq_ok] at h
  exact h.symm

theorem playerBulletLoop_allDead : ∀ (fuel i : Nat) (w w1 : World),
    AllDead w.game.enemies → playerBulletLoop fuel i w = Except.ok w1 →
    AllDead w1.game.enemies := by
  intro fuel
  induction fuel with
  | zero =>
    intro i w w1 ha h
    unfold playerBulletLoop at h
    split at h
    · cases h
    · cases h; exact ha
  | succ fuel ih =>
    intro i w w1 ha h
    unfold playerBulletLoop at h
    split at h
    · rw [bind_eq_ok] at h
      obtain ⟨b, _, h⟩ := h
      rw [bind_eq_ok] at h
      obtain ⟨y, _, h⟩ := h
      rw [bind_eq_ok] at h
      obtain ⟨bs, _, h⟩ := h
      split at h
      · rw [bind_eq_ok] at h
        obtain ⟨pool, _, h⟩ := h
        refine ih i _ w1 ?_ h
        exact ha
      · rw [bind_eq_ok] at h
        obtain ⟨w2, hw2, h⟩ := h
        refine ih (i + 1) w2 w1 ?_ h
        exact forRange_preserves (fun s => AllDead s.game.enemies) (bulletVsEnemy i) _
          (fun k s s1 hs hb => by rw [bulletVsEnemy_allDead i k s s1 hs hb]; exact hs)
          { w with game := { w.game with bullets := bs } } w2 ha hw2
    · cases h; exact ha

/-- The phases before the fire-control loop keep the consistency of the enemy grid
and the fact that every enemy is dead while the respawn timer is running. -/
theorem beforeFireControl_inv (clk : Clock) (w w8 : World) (hs : ShapeOK (shape w))
    (hd : DelayDead w) (h : beforeFireControl clk w = Except.ok w8) :
    ShapeOK (shape w8) ∧ DelayDead w8 := by
  unfold beforeFireControl at h
  rw [bind_eq_ok] at h
  obtain ⟨a1, e1, h⟩ := h
  rw [bind_eq_ok] at h
  obtain ⟨a2, e2, h⟩ := h
  rw [bind_eq_ok] at h
  obtain ⟨a3, e3, h⟩ := h
  rw [bind_eq_ok] at h
  obtain ⟨a4, e4, h⟩ := h
  rw [bind_eq_ok] at h
  obtain ⟨a5, e5, h⟩ := h
  rw [bind_eq_ok] at h
  obtain ⟨a6, e6, h⟩ := h
  rw [bind_eq_ok] at h
  obtain ⟨a7, e7, h⟩ := h
  have s1 := waveController_shape _ _ _ hs e1
  have d1 := waveController_delayDead _ _ _ hs hd e1
  have d2 : DelayDead a2 :=
    delayDead_congr a1 a2 (updateCooldowns_shape _ _ e2)
      (fun ha => by rw [updateCooldowns_game _ _ e2]; exact ha) d1
  have d3 : DelayDead a3 :=
    delayDead_congr a2 a3 (renderEnemies_shape _ _ e3)
      (fun ha => renderEnemies_allDead _ _ ha e3) d2
  have d4 : DelayDead a4 :=
    delayDead_congr a3 a4 ((advanceAnimations_shape _ _ e4).trans (blinkPlayer_shape a3))
      (fun ha => by
        rw [advanceAnimations_game _ _ e4]
        have hb : enemiesOf (blinkPlayer a3) = enemiesOf a3 := blinkPlayer_foes a3
        unfold enemiesOf at hb
        rw [hb]; exact ha) d3
  have d5 : DelayDead a5 :=
    delayDead_congr a4 a5 (updateDeathFrames_shape _ _ e5)
      (fun ha => by rw [updateDeathFrames_game _ _ e5]; exact ha) d4
  have d6 : DelayDead a6 :=
    delayDead_congr a5 a6 (playerBulletLoop_shape _ _ _ _ e6)
      (fun ha => playerBulletLoop_allDead _ _ _ _ ha e6) d5
  have d7 : DelayDead a7 :=
    delayDead_congr a6 a7 (enemyBulletLoop_shape _ _ _ _ _ e7)
      (fun ha => by
        have hb : enemiesOf a7 = enemiesOf a6 := enemyBulletLoop_foes _ _ _ _ _ e7
        unfold enemiesOf at hb
        rw [hb]; exact ha) d6
  have d8 : DelayDead w8 :=
    delayDead_congr a7 w8 ((firePhase_shape _ _ h).trans (movePlayer_shape a7))
      (fun ha => by
        have hb : enemiesOf w8 = enemiesOf (movePlayer a7) := firePhase_foes _ _ h
        have hc : enemiesOf (movePlayer a7) = enemiesOf a7 := movePlayer_foes a7
        unfold enemiesOf at hb hc
        rw [hb, hc]; exact ha) d7
  refine ⟨?_, d8⟩
  rw [firePhase_shape _ _ h, movePlayer_shape, enemyBulletLoop_shape _ _ _ _ _ e7,
    playerBulletLoop_shape _ _ _ _ e6, updateDeathFrames_shape _ _ e5,
    advanceAnimations_shape _ _ e4, blinkPlayer_shape, renderEnemies_shape _ _ e3,
    updateCooldowns_shape _ _ e2]
  exact s1

theorem inGameTick_split (clk : Clock) (w w1 : World) (h : inGameTick clk w = Except.ok w1) :
    ∃ w8 w9, beforeFireControl clk w = Except.ok w8 ∧ enemyFireControl w8 = Except.ok w9
      ∧ w1 = { w9 with bulletFired := false } := by
  unfold inGameTick at h
  rw [bind_eq_ok] at h
  obtain ⟨a1, e1, h⟩ := h
  rw [bind_eq_ok] at h
  obtain ⟨a2, e2, h⟩ := h
  rw [bind_eq_ok] at h
  obtain ⟨a3, e3, h⟩ := h
  rw [bind_eq_ok] at h
  obtain ⟨a4, e4, h⟩ := h
  rw [bind_eq_ok] at h
  obtain ⟨a5, e5, h⟩ := h
  rw [bind_eq_ok] at h
  obtain ⟨a6, e6, h⟩ := h
  rw [bind_eq_ok] at h
  obtain ⟨a7, e7, h⟩ := h
  rw [bind_eq_ok] at h
  obtain ⟨a8, e8, h⟩ := h
  rw [bind_eq_ok] at h
  obtain ⟨a9, e9, h⟩ := h
  rw [pure_eq_ok] at h
  refine ⟨a8, a9, ?_, e9, h.symm⟩
  unfold beforeFireControl
  rw [bind_eq_ok]
  refine ⟨a1, e1, ?_⟩
  rw [bind_eq_ok]
  refine ⟨a2, e2, ?_⟩
  rw [bind_eq_ok]
  refine ⟨a3, e3, ?_⟩
  rw [bind_eq_ok]
  refine ⟨a4, e4, ?_⟩
  rw [bind_eq_ok]
  refine ⟨a5, e5, ?_⟩
  rw [bind_eq_ok]
  refine ⟨a6, e6, ?_⟩
  rw [bind_eq_ok]
  exact ⟨a7, e7, e8⟩

theorem frame_delayDead (clk : Clock) (w w1 : World) (hs : ShapeOK (shape w))
    (hd : DelayDead w) (h : frame clk w = Except.ok w1) : DelayDead w1 := by
  unfold frame at h
  split at h
  · split at h <;> (rw [pure_eq_ok] at h; subst h; exact hd)
  · split at h
    · rw [pure_eq_ok] at h; subst h; exact hd
    · obtain ⟨w8, w9, h8, h9, rfl⟩ := inGameTick_split clk w w1 h
      obtain ⟨_, d8⟩ := beforeFireControl_inv clk w w8 hs hd h8
      have hb : enemiesOf w9 = enemiesOf w8 := enemyFireControl_foes _ _ h9
      unfold enemiesOf at hb
      have hs9 : shape w9 = shape w8 := enemyFireControl_shape w8 w9 h9
      have hsh : shape { w9 with bulletFired := false } = shape w8 := hs9
      refine delayDead_congr w8 _ hsh (fun ha => ?_) d8
      show AllDead w9.game.enemies
      rw [hb]; exact ha
  · rw [pure_eq_ok] at h; subst h; exact hd

/-- In every reachable state, every enemy is dead while the respawn timer is
running. -/
theorem reachable_delayDead (w : World) (h : Reachable w) : DelayDead w := by
  induction h with
  | init bullets enemyBullets w hb he h =>
    unfold initialWorld at h
    rw [bind_eq_ok] at h
    obtain ⟨wd, _, h⟩ := h
    rw [bind_eq_ok] at h
    obtain ⟨ht, _, h⟩ := h
    rw [bind_eq_ok] at h
    obtain ⟨es, _, h⟩ := h
    rw [pure_eq_ok] at h; subst h
    intro hr
    cases hr
  | frame clk w w1 hw hr h ih => exact frame_delayDead clk w w1 (reachable_shape w hw) ih h
  | key k a now w hw ih =>
    refine delayDead_congr w _ (inputCallback_shape k a now w) (fun ha => ?_) ih
    rw [inputCallback_game]; exact ha

/-! ## The read of the slot in front of an enemy is in range -/

theorem wave_table (l : Nat) (hl : l < 5) :
    1 ≤ waveHeight l ∧ waveWidth l * waveHeight l ≤ 100
      ∧ mul64 (waveWidth l) (sub64 (waveHeight l) 1) = waveWidth l * (waveHeight l - 1)
      ∧ mul64 (waveHeight l) (waveWidth l) = waveWidth l * waveHeight l := by
  interval_cases l <;> decide

theorem front_index_bound (l i : Nat) (hl : l < 5) (hi : i < waveWidth l * waveHeight l)
    (hn : ¬ lastRow l i) : add64 i (waveWidth l) < waveWidth l * waveHeight l := by
  obtain ⟨h1, h100, hm1, hm2⟩ := wave_table l hl
  unfold lastRow at hn
  rw [hm1, hm2] at hn
  have hsub : waveWidth l * (waveHeight l - 1) = waveWidth l * waveHeight l - waveWidth l :=
    Nat.mul_sub_one _ _
  have hle : waveWidth l ≤ waveWidth l * waveHeight l := Nat.le_mul_of_pos_right _ h1
  rw [hsub] at hn
  unfold add64 SIZE
  generalize waveWidth l * waveHeight l = b at *
  generalize waveWidth l = a at *
  omega

/-- The fire-control loop changes neither the enemy grid nor the enemy array. -/
theorem fireLoop_state (r k : Nat) (w s : World) (h : loopFrom enemyFire r k w = Except.ok s) :
    shape s = shape w ∧ s.game.enemies = w.game.enemies :=
  loopFrom_preserves (fun s => shape s = shape w ∧ s.game.enemies = w.game.enemies)
    enemyFire
    (fun k s s1 hs hb =>
      ⟨(enemyFire_shape k s s1 hb).trans hs.1,
        (show enemiesOf s1 = enemiesOf s from enemyFire_foes k s s1 hb).trans hs.2⟩)
    r k w s ⟨rfl, rfl⟩ h

theorem enemyFire_dead (i : Nat) (s : World) (e : Enemy) (he : s.game.enemies[i]? = some e)
    (hd : e.enemyType = enemyDead) : enemyFire i s = Except.ok s := by
  unfold enemyFire
  rw [(idx_eq_ok _ _ _).2 he]
  show (if e.enemyType = enemyDead then pure s else _) = Except.ok s
  rw [if_pos hd]
  rfl

theorem frontClear_ok (s : World) (i : Nat) (hl : s.game.level < 5)
    (hlen : s.game.enemies.length = s.game.numEnemies)
    (hr : ¬ lastRow s.game.level i → add64 i (waveWidth s.game.level) < s.game.numEnemies) :
    ∃ clear, frontClear s.game i = Except.ok clear := by
  unfold frontClear
  rw [idx_widths _ hl, idx_heights _ hl]
  show ∃ clear, (if mul64 (waveWidth s.game.level) (sub64 (waveHeight s.game.level) 1) ≤ i
      ∧ i < mul64 (waveHeight s.game.level) (waveWidth s.game.level) then pure true
    else do
      let front ← idx s.game.enemies (add64 i (waveWidth s.game.level))
      pure (decide (front.enemyType = enemyDead))) = Except.ok clear
  by_cases hc : lastRow s.game.level i
  · have hc2 := hc
    unfold lastRow at hc2
    exact ⟨true, by rw [if_pos hc2]; rfl⟩
  · have hc2 := hc
    unfold lastRow at hc2
    have hlt : add64 i (waveWidth s.game.level) < s.game.enemies.length := by
      rw [hlen]; exact hr hc
    rw [if_neg hc2, idx_of_lt _ _ hlt]
    exact ⟨_, rfl⟩

/-- C22: let `w` be reachable, let the phases of an in-game tick that precede the
fire-control loop complete from `w` with the state `w8`, and let `s` be the state
of the loop when it arrives at slot `i < numEnemies`.  Then the enemy array has
`numEnemies` slots and the level is inside the tables; if the enemy of slot `i` is
not dead, the respawn timer is not running, `numEnemies` is width × height of the
level, the index `i + enemyArrWidths[level]` of the read of lines 903-904 is below
`numEnemies` whenever slot `i` is not in the last row, and the evaluation of the
condition completes; while the respawn timer is running the enemy of slot `i` is
dead and the loop body leaves the state unchanged without reaching the read. -/
theorem front_slot_in_range (clk : Clock) (w w8 s : World) (i : Nat) (hr : Reachable w)
    (h8 : beforeFireControl clk w = Except.ok w8) (hi : i < w8.game.numEnemies)
    (hs : loopFrom enemyFire i 0 w8 = Except.ok s) :
    s.game.numEnemies = w8.game.numEnemies ∧ s.game.enemies.length = s.game.numEnemies
      ∧ s.game.level < 5
      ∧ ∃ e, s.game.enemies[i]? = some e
        ∧ (e.enemyType ≠ enemyDead →
            s.enemyRespawnTimer.isRunning = false
              ∧ s.game.numEnemies = waveWidth s.game.level * waveHeight s.game.level
              ∧ (¬ lastRow s.game.level i →
                  add64 i (waveWidth s.game.level) = i + waveWidth s.game.level
                    ∧ i + waveWidth s.game.level < s.game.numEnemies)
              ∧ ∃ clear, frontClear s.game i = Except.ok clear)
        ∧ (s.enemyRespawnTimer.isRunning = true →
            e.enemyType = enemyDead ∧ enemyFire i s = Except.ok s) := by
  obtain ⟨sh8, d8⟩ :=
    beforeFireControl_inv clk w w8 (reachable_shape w hr) (reachable_delayDead w hr) h8
  obtain ⟨hsh, hen⟩ := fireLoop_state i 0 w8 s hs
  have shs : ShapeOK (shape s) := by rw [hsh]; exact sh8
  have ds : DelayDead s := delayDead_congr w8 s hsh (fun ha => by rw [hen]; exact ha) d8
  obtain ⟨s1, s2, _, _, s5⟩ := shs
  have hl : s.game.level < 5 := s1
  have hlen : s.game.enemies.length = s.game.numEnemies := s2
  have hnum : s.game.numEnemies = w8.game.numEnemies := congrArg (fun t => t.2.1) hsh
  have hi2 : i < s.game.enemies.length := by rw [hlen, hnum]; exact hi
  refine ⟨hnum, hlen, hl, s.game.enemies[i], List.getElem?_eq_getElem hi2, ?_, ?_⟩
  · intro hlive
    have hidle : s.enemyRespawnTimer.isRunning = false := by
      cases hrun : s.enemyRespawnTimer.isRunning with
      | false => rfl
      | true => exact absurd (ds hrun _ (List.getElem_mem hi2)) hlive
    have hn : s.game.numEnemies = waveWidth s.game.level * waveHeight s.game.level :=
      s5 hidle
    have hb : ¬ lastRow s.game.level i →
        add64 i (waveWidth s.game.level) = i + waveWidth s.game.level
          ∧ i + waveWidth s.game.level < s.game.numEnemies := by
      intro hlast
      have h1 := front_index_bound s.game.level i hl (by rw [← hn, ← hlen]; exact hi2) hlast
      have h100 := (wave_table s.game.level hl).2.1
      have h2 : add64 i (waveWidth s.game.level) = i + waveWidth s.game.level := by
        have hw := waveWidth_le s.game.level
        have hi3 : i < 100 := by
          have : i < s.game.numEnemies := by rw [← hlen]; exact hi2
          omega
        unfold add64 SIZE
        omega
      rw [h2] at h1
      rw [hn]
      exact ⟨h2, h1⟩
    refine ⟨hidle, hn, hb, frontClear_ok s i hl hlen (fun hlast => ?_)⟩
    rw [(hb hlast).1]
    exact (hb hlast).2
  · intro hrun
    have hd := ds hrun _ (List.getElem_mem hi2)
    exact ⟨hd, enemyFire_dead i s _ (List.getElem?_eq_getElem hi2) hd⟩

theorem front_slot_in_range_witness :
    Reachable armedWorld ∧ beforeFireControl clockAt3s armedWorld = Except.ok muzzleWorld
      ∧ 4 < muzzleWorld.game.numEnemies
      ∧ loopFrom enemyFire 4 0 muzzleWorld = Except.ok muzzleWorld
      ∧ muzzleWorld.game.numEnemies = muzzleWorld.game.numEnemies
      ∧ muzzleWorld.game.enemies.length = muzzleWorld.game.numEnemies
      ∧ muzzleWorld.game.level < 5
      ∧ ∃ e, muzzleWorld.game.enemies[4]? = some e
        ∧ (e.enemyType ≠ enemyDead →
            muzzleWorld.enemyRespawnTimer.isRunning = false
              ∧ muzzleWorld.game.numEnemies
                  = waveWidth muzzleWorld.game.level * waveHeight muzzleWorld.game.level
              ∧ (¬ lastRow muzzleWorld.game.level 4 →
                  add64 4 (waveWidth muzzleWorld.game.level)
                      = 4 + waveWidth muzzleWorld.game.level
                    ∧ 4 + waveWidth muzzleWorld.game.level < muzzleWorld.game.numEnemies)
              ∧ ∃ clear, frontClear muzzleWorld.game 4 = Except.ok clear)
        ∧ (muzzleWorld.enemyRespawnTimer.isRunning = true →
            e.enemyType = enemyDead ∧ enemyFire 4 muzzleWorld = Except.ok muzzleWorld) := by
  set_option maxRecDepth 100000 in
  exact ⟨armed_reachable, rfl, by decide, rfl,
    front_slot_in_range clockAt3s armedWorld muzzleWorld muzzleWorld 4 armed_reachable rfl
      (by decide) rfl⟩

/-! ## An overlapping enemy bullet that the tick passes over -/

/-- C10 (failing input): in `skippedHitWorld` the death timer is not running and the
live type-B enemy bullet of slot 1 is in bounds and overlaps the player, before and
after its move.  The bullet of slot 0 leaves the screen, the bullet of slot 1 is
moved into slot 0, and the loop goes on with slot 1: the tick ends with 10 lives,
the blink flag clear and the overlapping bullet still in the pool at (398, 596).
The same bullet alone in the pool (`plainHitWorld`) hits in the tick: lives
10 - 2 = 8, blink flag set, bullet removed; in `skippedHitWorld` this happens one
tick later. -/
theorem enemy_bullet_hit_skipped :
    skippedHitWorld.playerDeathTimer.isRunning = false
      ∧ hitSummary skippedHitWorld
          = (10, false, [(398, 797, enemyTypeB), (398, 596, enemyTypeB)])
      ∧ spritesIntersect playerSprite 369 600 enemyBulletSprite 398 596 = true
      ∧ spritesIntersect playerSprite 369 600 enemyBulletSprite 398 599 = true
      ∧ (inGameTick clockAt3s skippedHitWorld).map hitSummary
          = Except.ok (10, false, [(398, 596, enemyTypeB)])
      ∧ (inGameTick clockAt3s plainHitWorld).map hitSummary = Except.ok (8, true, [])
      ∧ (inGameTick clockAt3s skippedHitWorld >>= inGameTick clockAt3s).map hitSummary
          = Except.ok (8, true, []) := by
  set_option maxRecDepth 100000 in
  refine ⟨rfl, ?_, ?_, ?_, ?_, ?_, ?_⟩ <;> rfl

/-! ## The overlap test outside and inside its wrap-free domain -/

theorem currentSprite_size (ts : List Nat) (t : EnemyType) (s : Sprite)
    (h : currentSprite ts t = Except.ok s) : s.w ≤ 12 ∧ s.h ≤ 8 := by
  have hall : ∀ a ∈ enemySprites, a.w ≤ 12 ∧ a.h ≤ 8 := by decide
  unfold currentSprite at h
  split at h
  · cases h
  · split at h
    · cases h
    · split at h
      · exact hall s (idx_ok_mem _ _ _ h)
      · cases h

/-- One axis of the collision test: a wrapping lower bound and upper bound around
a coordinate below `2^32` place the bullet coordinate within the box. -/
theorem axis_span (e p a c : Nat) (ha : a ≤ 48) (hc : c ≤ 12) (he : e < 2 ^ 32)
    (h1 : sub64 p a ≤ e) (h2 : e ≤ add64 p c) :
    p % SIZE ≤ e + a ∧ e ≤ p % SIZE + c := by
  unfold sub64 at h1
  unfold add64 at h2
  unfold SIZE at *
  split at h1 <;> omega

/-- The collision test of an enemy on the screen against a bullet at (x, y)
succeeds only if the bullet lies within the hit box of the enemy. -/
theorem hit_box_span (s : Sprite) (ex ey x y : Nat) (hw : s.w ≤ 12) (hh : s.h ≤ 8)
    (hex : ex < 2 ^ 32) (hey : ey < 2 ^ 32)
    (h : spritesIntersect s ex ey bulletSprite x y = true) :
    (x % SIZE ≤ ex + 48 ∧ ex ≤ x % SIZE + 4) ∧ (y % SIZE ≤ ey + 32 ∧ ey ≤ y % SIZE + 12) := by
  have m1 : mul64 4 s.w = 4 * s.w := Nat.mod_eq_of_lt (by unfold SIZE; omega)
  have m3 : mul64 4 s.h = 4 * s.h := Nat.mod_eq_of_lt (by unfold SIZE; omega)
  have m2 : mul64 4 bulletSprite.w = 4 := by decide
  have m4 : mul64 4 bulletSprite.h = 12 := by decide
  unfold spritesIntersect at h
  simp only [m1, m2, m3, m4, Bool.and_eq_true, decide_eq_true_eq] at h
  obtain ⟨⟨h1, h2⟩, h3, h4⟩ := h
  have hx := axis_span ex x (4 * s.w) 4 (by omega) (by omega) hex h1 h2
  have hy := axis_span ey y (4 * s.h) 12 (by omega) (by omega) hey h3 h4
  omega

theorem gridSeparated_disjoint (es : List Enemy) (anim : List Nat) (h : GridSeparated es) :
    HitBoxesDisjoint es anim := by
  intro x y j k ej ek sj sk hjk hj hk lj lk csj csk hboth
  obtain ⟨hj1, hj2⟩ := List.getElem?_eq_some.mp hj
  obtain ⟨hk1, hk2⟩ := List.getElem?_eq_some.mp hk
  have hp := List.pairwise_iff_getElem.mp h
  have key : ∀ (a b : Enemy) (sa sb : Sprite), apart a b →
      a.enemyType ≠ enemyDead → b.enemyType ≠ enemyDead →
      currentSprite anim a.enemyType = Except.ok sa →
      currentSprite anim b.enemyType = Except.ok sb →
      spritesIntersect sa a.x a.y bulletSprite x y = true →
      spritesIntersect sb b.x b.y bulletSprite x y = true → False := by
    intro a b sa sb hap la lb ca cb ia ib
    unfold apart at hap
    rcases hap with hd | hd | ⟨hfar, bx1, by1, bx2, by2⟩
    · exact la hd
    · exact lb hd
    · obtain ⟨wa, ha⟩ := currentSprite_size _ _ _ ca
      obtain ⟨wb, hb⟩ := currentSprite_size _ _ _ cb
      have s1 := hit_box_span sa a.x a.y x y wa ha bx1 by1 ia
      have s2 := hit_box_span sb b.x b.y x y wb hb bx2 by2 ib
      omega
  rcases Nat.lt_or_gt_of_ne hjk with hlt | hgt
  · have hr := hp j k hj1 hk1 hlt
    rw [hj2, hk2] at hr
    exact key ej ek sj sk hr lj lk csj csk hboth.1 hboth.2
  · have hr := hp k j hk1 hj1 hgt
    rw [hj2, hk2] at hr
    exact key ek ej sk sj hr lk lj csk csj hboth.2 hboth.1

/-- A hit leaves the enemy dead or at its position with its type. -/
theorem hitEnemy_live (sprite : Sprite) (e : Enemy) (score : Nat) (r : Enemy × Nat)
    (h : hitEnemy sprite e score = Except.ok r) :
    r.1.enemyType = enemyDead
      ∨ (r.1.x = e.x ∧ r.1.y = e.y ∧ r.1.enemyType = e.enemyType) := by
  unfold hitEnemy at h
  split at h
  · split at h
    · rw [bind_eq_ok] at h
      obtain ⟨pts, _, h⟩ := h
      rw [pure_eq_ok] at h
      subst h
      exact Or.inl rfl
    · rw [pure_eq_ok] at h
      subst h
      exact Or.inr ⟨rfl, rfl, rfl⟩
  · rw [pure_eq_ok] at h
    subst h
    exact Or.inr ⟨rfl, rfl, rfl⟩

/-- The three ways in which the body of the inner loop completes: the enemy is
dead, the bullet of slot `i` misses it, or the bullet hits it. -/
theorem bulletVsEnemy_cases (i j : Nat) (s s1 : World)
    (h : bulletVsEnemy i j s = Except.ok s1) :
    ∃ e, s.game.enemies[j]? = some e ∧
      ((e.enemyType = enemyDead ∧ s1 = s) ∨
       (e.enemyType ≠ enemyDead ∧ ∃ sp b,
          currentSprite s.animTimeElapsed e.enemyType = Except.ok sp
          ∧ s.game.bullets[i]? = some b
          ∧ ((spritesIntersect sp e.x e.y bulletSprite b.x b.y = false ∧ s1 = s) ∨
             (spritesIntersect sp e.x e.y bulletSprite b.x b.y = true ∧ ∃ hit pool,
                hitEnemy sp e s.playerScore = Except.ok hit
                ∧ swapRemove s.game.bullets s.game.numBullets i = Except.ok pool
                ∧ s1 = { s with
                    playerScore := hit.2
                    game := { s.game with enemies := s.game.enemies.set j hit.1,
                                          bullets := pool.1, numBullets := pool.2 } })))) := by
  unfold bulletVsEnemy at h
  rw [bind_eq_ok] at h
  obtain ⟨e, he, h⟩ := h
  rw [idx_eq_ok] at he
  refine ⟨e, he, ?_⟩
  split at h
  next hdead =>
    rw [pure_eq_ok] at h
    exact Or.inl ⟨hdead, h.symm⟩
  next hlive =>
    rw [bind_eq_ok] at h
    obtain ⟨sp, hsp, h⟩ := h
    rw [bind_eq_ok] at h
    obtain ⟨b, hb, h⟩ := h
    rw [idx_eq_ok] at hb
    refine Or.inr ⟨hlive, sp, b, hsp, hb, ?_⟩
    split at h
    next hx =>
      rw [bind_eq_ok] at h
      obtain ⟨hit, hhit, h⟩ := h
      rw [bind_eq_ok] at h
      obtain ⟨es, hes, h⟩ := h
      rw [bind_eq_ok] at h
      obtain ⟨pool, hpool, h⟩ := h
      rw [pure_eq_ok] at h
      rw [setIdx_eq_ok] at hes
      obtain ⟨_, rfl⟩ := hes
      exact Or.inr ⟨hx, hit, pool, hhit, hpool, h.symm⟩
    next hx =>
      rw [pure_eq_ok] at h
      refine Or.inl ⟨?_, h.symm⟩
      cases hc : spritesIntersect sp e.x e.y bulletSprite b.x b.y
      · rfl
      · exact absurd hc hx

theorem spawned_pos (wd i j : Nat) (hw : wd ≤ 10) (hi : i < 10) (hj : j < 10) :
    (spawned 800 wd i j).x = 64 * j + (800 - wd * 64) / 2 + 8
      ∧ (spawned 800 wd i j).y = 64 * i + 100 := by
  have h1 : sub64 800 (mul64 wd 64) = 800 - wd * 64 := by
    unfold sub64 mul64 SIZE
    split <;> omega
  constructor
  · show add64 (add64 (mul64 64 j) (sub64 800 (mul64 wd 64) / 2)) 8 = _
    rw [h1]
    unfold add64 mul64 SIZE
    omega
  · show add64 (mul64 64 i) 100 = _
    unfold add64 mul64 SIZE
    omega

/-- Two different cells of a spawned grid of at most 10 × 10 enemies on a screen of
width 800 are 64 pixels apart in a row or in a column. -/
theorem spawned_apart (wd ht k1 k2 : Nat) (hw : wd ≤ 10) (hh : ht ≤ 10)
    (h1 : k1 < wd * ht) (h2 : k2 < wd * ht) (hne : k1 ≠ k2) :
    apart (spawned 800 wd (k1 / wd) (k1 % wd)) (spawned 800 wd (k2 / wd) (k2 % wd)) := by
  have hpos : 0 < wd := by
    rcases Nat.eq_zero_or_pos wd with h0 | h0
    · rw [h0] at h1; omega
    · exact h0
  have i1 : k1 / wd < ht := Nat.div_lt_of_lt_mul h1
  have i2 : k2 / wd < ht := Nat.div_lt_of_lt_mul h2
  have j1 : k1 % wd < wd := Nat.mod_lt _ hpos
  have j2 : k2 % wd < wd := Nat.mod_lt _ hpos
  obtain ⟨x1, y1⟩ := spawned_pos wd (k1 / wd) (k1 % wd) hw (by omega) (by omega)
  obtain ⟨x2, y2⟩ := spawned_pos wd (k2 / wd) (k2 % wd) hw (by omega) (by omega)
  have hcell : k1 / wd ≠ k2 / wd ∨ k1 % wd ≠ k2 % wd := by
    by_cases hi : k1 / wd = k2 / wd
    · right
      intro hj
      apply hne
      rw [← Nat.div_add_mod k1 wd, ← Nat.div_add_mod k2 wd, hi, hj]
    · exact Or.inl hi
  unfold apart
  right; right
  rw [x1, x2, y1, y2]
  generalize k1 / wd = a1 at *
  generalize k2 / wd = a2 at *
  generalize k1 % wd = b1 at *
  generalize k2 % wd = b2 at *
  omega

theorem spawn_separated (wd ht : Nat) (es : List Enemy) (hw : wd ≤ 10) (hh : ht ≤ 10)
    (hlen : es.length = wd * ht)
    (hall : ∀ k, k < wd * ht → es[k]? = some (spawned 800 wd (k / wd) (k % wd))) :
    GridSeparated es := by
  unfold GridSeparated
  rw [List.pairwise_iff_getElem]
  intro a b ha hb hab
  have ea := hall a (by omega)
  have eb := hall b (by omega)
  rw [List.getElem?_eq_getElem ha] at ea
  rw [List.getElem?_eq_getElem hb] at eb
  rw [Option.some.inj ea, Option.some.inj eb]
  exact spawned_apart wd ht a b hw hh (by omega) (by omega) (by omega)

theorem apart_symm (a b : Enemy) (h : apart a b) : apart b a := by
  unfold apart at *
  rcases h with h | h | ⟨h, b1, b2, b3, b4⟩
  · exact Or.inr (Or.inl h)
  · exact Or.inl h
  · exact Or.inr (Or.inr ⟨by omega, b3, b4, b1, b2⟩)

theorem apart_left (a a1 b : Enemy) (h : apart a b)
    (h1 : a1.enemyType = enemyDead ∨ (a1.x = a.x ∧ a1.y = a.y ∧ a1.enemyType = a.enemyType)) :
    apart a1 b := by
  unfold apart at *
  rcases h1 with h1 | ⟨hx, hy, ht⟩
  · exact Or.inl h1
  · rw [hx, hy, ht]
    exact h

/-- Replacing an enemy by a dead one, or by one at the same position with the same
type, keeps the enemies apart. -/
theorem separated_set (es : List Enemy) (j : Nat) (e e1 : Enemy) (hs : GridSeparated es)
    (hj : es[j]? = some e)
    (h1 : e1.enemyType = enemyDead ∨ (e1.x = e.x ∧ e1.y = e.y ∧ e1.enemyType = e.enemyType)) :
    GridSeparated (es.set j e1) := by
  obtain ⟨hjl, hje⟩ := getElem?_lt _ _ _ hj
  unfold GridSeparated at *
  rw [List.pairwise_iff_getElem] at *
  intro a b ha hb hab
  rw [List.length_set] at ha hb
  have hab0 := hs a b ha hb hab
  rw [List.getElem_set, List.getElem_set]
  by_cases haj : j = a
  · have hbj : ¬ j = b := by omega
    rw [if_pos haj, if_neg hbj]
    subst haj
    rw [hje] at hab0
    exact apart_left e e1 _ hab0 h1
  · rw [if_neg haj]
    by_cases hbj : j = b
    · rw [if_pos hbj]
      subst hbj
      rw [hje] at hab0
      exact apart_symm _ _ (apart_left e e1 _ (apart_symm _ _ hab0) h1)
    · rw [if_neg hbj]
      exact hab0

theorem blinkEnemy_pos (e : Enemy) :
    (blinkEnemy e).x = e.x ∧ (blinkEnemy e).y = e.y ∧ (blinkEnemy e).enemyType = e.enemyType := by
  unfold blinkEnemy
  split
  · exact ⟨rfl, rfl, rfl⟩
  · split
    · split <;> exact ⟨rfl, rfl, rfl⟩
    · exact ⟨rfl, rfl, rfl⟩

theorem renderEnemies_separated (w w1 : World) (hs : GridSeparated w.game.enemies)
    (h : renderEnemies w = Except.ok w1) : GridSeparated w1.game.enemies := by
  unfold renderEnemies at h
  rw [bind_eq_ok] at h
  obtain ⟨es, hes, h⟩ := h
  rw [pure_eq_ok] at h; subst h
  show GridSeparated es
  refine forRange_preserves GridSeparated _ _ ?_ _ es hs hes
  intro k s s1 hs hb
  rw [bind_eq_ok] at hb
  obtain ⟨c, _, hb⟩ := hb
  split at hb
  · rw [pure_eq_ok] at hb; subst hb; exact hs
  · rw [bind_eq_ok] at hb
    obtain ⟨e, he, hb⟩ := hb
    rw [setIdx_eq_ok] at hb
    obtain ⟨_, rfl⟩ := hb
    rw [idx_eq_ok] at he
    exact separated_set s k e _ hs he (Or.inr (blinkEnemy_pos e))

theorem bulletVsEnemy_separated (i j : Nat) (s s1 : World) (hs : GridSeparated s.game.enemies)
    (h : bulletVsEnemy i j s = Except.ok s1) : GridSeparated s1.game.enemies := by
  obtain ⟨e, he, hc⟩ := bulletVsEnemy_cases i j s s1 h
  rcases hc with ⟨_, h1⟩ | ⟨_, sp, b, _, _, hc⟩
  · rw [h1]; exact hs
  · rcases hc with ⟨_, h1⟩ | ⟨_, hit, pool, hhit, _, h1⟩
    · rw [h1]; exact hs
    · subst h1
      exact separated_set _ j e hit.1 hs he (hitEnemy_live _ _ _ _ hhit)

theorem playerBulletLoop_separated : ∀ (fuel i : Nat) (w w1 : World),
    GridSeparated w.game.enemies → playerBulletLoop fuel i w = Except.ok w1 →
    GridSeparated w1.game.enemies := by
  intro fuel
  induction fuel with
  | zero =>
    intro i w w1 ha h
    unfold playerBulletLoop at h
    split at h
    · cases h
    · cases h; exact ha
  | succ fuel ih =>
    intro i w w1 ha h
    unfold playerBulletLoop at h
    split at h
    · rw [bind_eq_ok] at h
      obtain ⟨b, _, h⟩ := h
      rw [bind_eq_ok] at h
      obtain ⟨y, _, h⟩ := h
      rw [bind_eq_ok] at h
      obtain ⟨bs, _, h⟩ := h
      split at h
      · rw [bind_eq_ok] at h
        obtain ⟨pool, _, h⟩ := h
        refine ih i _ w1 ?_ h
        exact ha
      · rw [bind_eq_ok] at h
        obtain ⟨w2, hw2, h⟩ := h
        refine ih (i + 1) w2 w1 ?_ h
        exact forRange_preserves (fun s => GridSeparated s.game.enemies) (bulletVsEnemy i) _
          (fun k s s1 hs hb => bulletVsEnemy_separated i k s s1 hs hb)
          { w with game := { w.game with bullets := bs } } w2 ha hw2
    · cases h; exact ha

theorem waveHeight_le (level : Nat) (hl : level < 5) : waveHeight level ≤ 10 := by
  interval_cases level <;> decide

theorem spawnEnemies_separated (level : Nat) (es : List Enemy) (hl : level < 5)
    (h : spawnEnemies 800 level
      (List.replicate (mul64 (waveWidth level) (waveHeight level)) freshEnemy) = Except.ok es) :
    GridSeparated es := by
  obtain ⟨es1, h1, hlen, hall⟩ := spawnEnemies_ok 800 level hl
  rw [h1] at h
  cases h
  exact spawn_separated (waveWidth level) (waveHeight level) _ (waveWidth_le level)
    (waveHeight_le level hl) hlen hall

theorem waveController_separated (now : Int) (w w1 : World) (hw : w.game.gameWidth = 800)
    (hs : GridSeparated w.game.enemies) (h : waveController now w = Except.ok w1) :
    GridSeparated w1.game.enemies := by
  unfold waveController at h
  split at h
  · rw [bind_eq_ok] at h
    obtain ⟨c, _, h⟩ := h
    rw [bind_eq_ok] at h
    obtain ⟨ht, _, h⟩ := h
    rw [bind_eq_ok] at h
    obtain ⟨wd, _, h⟩ := h
    split at h
    · rw [pure_eq_ok] at h; subst h
      exact hs
    · rw [pure_eq_ok] at h; subst h; exact hs
  · split at h
    · unfold respawnWave at h
      rw [bind_eq_ok] at h
      obtain ⟨wd, hwd, h⟩ := h
      rw [bind_eq_ok] at h
      obtain ⟨ht, hht, h⟩ := h
      rw [bind_eq_ok] at h
      obtain ⟨es, hes, h⟩ := h
      rw [pure_eq_ok] at h; subst h
      obtain ⟨hl, rfl⟩ := idx_widths_inv _ _ hwd
      obtain ⟨_, rfl⟩ := idx_heights_inv _ _ hht
      rw [hw] at hes
      exact spawnEnemies_separated _ es hl hes
    · rw [pure_eq_ok] at h; subst h; exact hs

/-- The phases before the player bullet loop keep the enemies apart. -/
theorem beforePlayerBullets_separated (clk : Clock) (w w5 : World)
    (hw : w.game.gameWidth = 800) (hs : GridSeparated w.game.enemies)
    (h : beforePlayerBullets clk w = Except.ok w5) : GridSeparated w5.game.enemies := by
  unfold beforePlayerBullets at h
  rw [bind_eq_ok] at h
  obtain ⟨a1, e1, h⟩ := h
  rw [bind_eq_ok] at h
  obtain ⟨a2, e2, h⟩ := h
  rw [bind_eq_ok] at h
  obtain ⟨a3, e3, h⟩ := h
  rw [bind_eq_ok] at h
  obtain ⟨a4, e4, h⟩ := h
  have s1 := waveController_separated _ _ _ hw hs e1
  have s2 : GridSeparated a2.game.enemies := by rw [updateCooldowns_game _ _ e2]; exact s1
  have s3 := renderEnemies_separated _ _ s2 e3
  have s4 : GridSeparated a4.game.enemies := by
    rw [advanceAnimations_game _ _ e4]
    have hb : enemiesOf (blinkPlayer a3) = enemiesOf a3 := blinkPlayer_foes a3
    unfold enemiesOf at hb
    rw [hb]; exact s3
  rw [updateDeathFrames_game _ _ h]
  exact s4

theorem beforePlayerBullets_inv (clk : Clock) (w w5 : World) (hinv : CoreInv w.game)
    (h : beforePlayerBullets clk w = Except.ok w5) : CoreInv w5.game := by
  unfold beforePlayerBullets at h
  rw [bind_eq_ok] at h
  obtain ⟨a1, e1, h⟩ := h
  rw [bind_eq_ok] at h
  obtain ⟨a2, e2, h⟩ := h
  rw [bind_eq_ok] at h
  obtain ⟨a3, e3, h⟩ := h
  rw [bind_eq_ok] at h
  obtain ⟨a4, e4, h⟩ := h
  have i1 := waveController_inv _ _ _ hinv e1
  have i2 : CoreInv a2.game := by rw [updateCooldowns_game _ _ e2]; exact i1
  have i3 := renderEnemies_inv _ _ e3 i2
  have i4 : CoreInv a4.game := by
    rw [advanceAnimations_game _ _ e4]; exact blinkPlayer_inv _ i3
  rw [updateDeathFrames_game _ _ h]
  exact i4

/-- An in-game tick is the phases before the player bullet loop, the player bullet
loop started at slot 0, and the phases after it. -/
theorem inGameTick_bullet_phase (clk : Clock) (w w1 : World)
    (h : inGameTick clk w = Except.ok w1) :
    ∃ w5 w6, beforePlayerBullets clk w = Except.ok w5
      ∧ playerBulletLoop w5.game.numBullets 0 w5 = Except.ok w6
      ∧ w1.game.enemies = w6.game.enemies := by
  unfold inGameTick at h
  rw [bind_eq_ok] at h
  obtain ⟨a1, e1, h⟩ := h
  rw [bind_eq_ok] at h
  obtain ⟨a2, e2, h⟩ := h
  rw [bind_eq_ok] at h
  obtain ⟨a3, e3, h⟩ := h
  rw [bind_eq_ok] at h
  obtain ⟨a4, e4, h⟩ := h
  rw [bind_eq_ok] at h
  obtain ⟨a5, e5, h⟩ := h
  rw [bind_eq_ok] at h
  obtain ⟨a6, e6, h⟩ := h
  rw [bind_eq_ok] at h
  obtain ⟨a7, e7, h⟩ := h
  rw [bind_eq_ok] at h
  obtain ⟨a8, e8, h⟩ := h
  rw [bind_eq_ok] at h
  obtain ⟨a9, e9, h⟩ := h
  rw [pure_eq_ok] at h; subst h
  refine ⟨a5, a6, ?_, e6, ?_⟩
  · unfold beforePlayerBullets
    rw [bind_eq_ok]
    refine ⟨a1, e1, ?_⟩
    rw [bind_eq_ok]
    refine ⟨a2, e2, ?_⟩
    rw [bind_eq_ok]
    refine ⟨a3, e3, ?_⟩
    rw [bind_eq_ok]
    exact ⟨a4, e4, e5⟩
  · have h9 : enemiesOf a9 = enemiesOf a8 := enemyFireControl_foes _ _ e9
    have h8 : enemiesOf a8 = enemiesOf (movePlayer a7) := firePhase_foes _ _ e8
    have h7 : enemiesOf (movePlayer a7) = enemiesOf a7 := movePlayer_foes a7
    have h6 : enemiesOf a7 = enemiesOf a6 := enemyBulletLoop_foes _ _ _ _ _ e7
    unfold enemiesOf at h9 h8 h7 h6
    show a9.game.enemies = _
    rw [h9, h8, h7, h6]

theorem frame_separated (clk : Clock) (w w1 : World) (hw : w.game.gameWidth = 800)
    (hs : GridSeparated w.game.enemies) (h : frame clk w = Except.ok w1) :
    GridSeparated w1.game.enemies := by
  unfold frame at h
  split at h
  · split at h <;> (rw [pure_eq_ok] at h; subst h; exact hs)
  · split at h
    · rw [pure_eq_ok] at h; subst h; exact hs
    · obtain ⟨w5, w6, h5, h6, he⟩ := inGameTick_bullet_phase clk w w1 h
      rw [he]
      exact playerBulletLoop_separated _ _ _ _
        (beforePlayerBullets_separated clk w w5 hw hs h5) h6
  · rw [pure_eq_ok] at h; subst h; exact hs

/-- In every reachable state any two enemies are dead or stand more than a hit box
apart. -/
theorem reachable_separated (w : World) (h : Reachable w) : GridSeparated w.game.enemies := by
  induction h with
  | init bullets enemyBullets w hb he h =>
    unfold initialWorld at h
    rw [bind_eq_ok] at h
    obtain ⟨wd, hwd, h⟩ := h
    rw [bind_eq_ok] at h
    obtain ⟨ht, hht, h⟩ := h
    rw [bind_eq_ok] at h
    obtain ⟨es, hes, h⟩ := h
    rw [pure_eq_ok] at h; subst h
    obtain ⟨hl, rfl⟩ := idx_widths_inv _ _ hwd
    obtain ⟨_, rfl⟩ := idx_heights_inv _ _ hht
    exact spawnEnemies_separated 0 es hl hes
  | frame clk w w1 hw hr h ih =>
    exact frame_separated clk w w1 (reachable_fixed w hw).1 ih h
  | key k a now w hw ih => rw [inputCallback_game]; exact ih

/-- In play the player bullet loop starts in a state that satisfies the conditions
of `PassInv`: from a reachable state, the phases of a tick that precede the loop
lead to a state with disjoint hit boxes and a pool of 128 slots with at most 128
live bullets. -/
theorem bullet_phase_start (clk : Clock) (w w5 : World) (hr : Reachable w)
    (h : beforePlayerBullets clk w = Except.ok w5) :
    HitBoxesDisjoint w5.game.enemies w5.animTimeElapsed
      ∧ w5.game.bullets.length = maxBullets ∧ w5.game.numBullets ≤ maxBullets := by
  have hs := beforePlayerBullets_separated clk w w5 (reachable_fixed w hr).1
    (reachable_separated w hr) h
  have hc := beforePlayerBullets_inv clk w w5 (reachable_inv w hr) h
  exact ⟨gridSeparated_disjoint _ _ hs, hc.2.2.1, hc.2.2.2⟩

/-- The player bullet loop keeps these conditions from one pass to the next. -/
theorem bullet_phase_keeps (fuel i : Nat) (w w1 : World)
    (hs : GridSeparated w.game.enemies) (hinv : CoreInv w.game)
    (h : playerBulletLoop fuel i w = Except.ok w1) :
    HitBoxesDisjoint w1.game.enemies w1.animTimeElapsed
      ∧ w1.game.bullets.length = maxBullets ∧ w1.game.numBullets ≤ maxBullets := by
  have hc := playerBulletLoop_inv _ _ _ _ hinv h
  exact ⟨gridSeparated_disjoint _ _ (playerBulletLoop_separated fuel i w w1 hs h),
    hc.2.2.1, hc.2.2.2⟩

end SpaceInvaders
